import Mathlib

/-!
# bonhomie-api-shield: admission-control engine

A shallow embedding of the rate limiters, the replay guard, the fingerprint
continuity score and the threat scorers of `bonhomie-api-shield`, together with
theorems about them.  Every definition follows one function of the JavaScript
source; the source file is named in its doc comment.

Conventions: clock readings (`Date.now()`) and the numeric options are
integers; a JavaScript `Map` is a function into `Option`; a middleware call
returns the list of its observable effects in the order they happen.
-/

namespace ApiShield

/-! ## Request and response descriptors -/

/-- A JavaScript value as far as the source distinguishes them (`typeof`). -/
inductive JsVal where
  | undefined
  | null
  | bool (b : Bool)
  | num (n : Int)
  | str (s : String)
  | arr (items : List JsVal)
  | obj (fields : List (String × JsVal))

/-- The request descriptor: the fields of `req` that the source reads.
Header values are strings, as Node delivers them; `query` and `params` are
absent or object maps; `body` is any value. The address fields are
`req.ip`, `req.connection?.remoteAddress`, `req.socket?.remoteAddress` and
`req.connection?.socket?.remoteAddress`. -/
structure Req where
  headers : Option (List (String × String)) := some []
  query : Option (List (String × JsVal)) := none
  params : Option (List (String × JsVal)) := none
  body : JsVal := JsVal.undefined
  ip : Option String := none
  connectionRemoteAddress : Option String := none
  socketRemoteAddress : Option String := none
  connectionSocketRemoteAddress : Option String := none
  cookies : Option (List (String × JsVal)) := none

/-- The part of the response object the limiters read: `res.headersSent`. -/
structure Res where
  headersSent : Bool := false

/-- Observable effects of a middleware call. -/
inductive Effect where
  | hook
  | status429
  | next (err : Option String)
  deriving DecidableEq, Repr

/-- JavaScript `a || b` on an optional string: `undefined` and `''` are falsy. -/
def strOr (a : Option String) (b : Option String) : Option String :=
  match a with
  | some s => if s = "" then b else some s
  | none => b

/-! ## JavaScript strings and regular expressions -/

/-- `s.length`: the number of UTF-16 code units. -/
def jsLength (s : String) : Nat :=
  (s.toList.map (fun c => if c.val ≥ 0x10000 then 2 else 1)).sum

/-- White space and line terminators of ECMAScript (`\s`, `trim`). -/
def isJsWhiteSpace (c : Char) : Bool :=
  c.val = 0x9 || c.val = 0xA || c.val = 0xB || c.val = 0xC || c.val = 0xD || c.val = 0x20
  || c.val = 0xA0 || c.val = 0x1680 || (0x2000 ≤ c.val && c.val ≤ 0x200A)
  || c.val = 0x2028 || c.val = 0x2029 || c.val = 0x202F || c.val = 0x205F
  || c.val = 0x3000 || c.val = 0xFEFF

/-- `s.trim()` on the characters of a string. -/
def trimChars (cs : List Char) : List Char :=
  ((cs.dropWhile isJsWhiteSpace).reverse.dropWhile isJsWhiteSpace).reverse

/-- `s.trim()`. -/
def jsTrim (s : String) : String := String.mk (trimChars s.toList)

/-- `s.split(sep)` for a one-character separator, on the characters of `s`. -/
def splitChars (sep : Char) : List Char → List (List Char)
  | [] => [[]]
  | c :: cs =>
    if c = sep then [] :: splitChars sep cs
    else
      match splitChars sep cs with
      | [] => [[c]]
      | p :: ps => (c :: p) :: ps

/-- `s.split(sep)` for a one-character separator. -/
def jsSplit (s : String) (sep : Char) : List String :=
  (splitChars sep s.toList).map String.mk

/-- `s.startsWith(p)`. -/
def jsStartsWith (s p : String) : Bool := p.toList.isPrefixOf s.toList

/-- The word characters of `\w` and `\b`. -/
def isWordChar (c : Char) : Bool :=
  ('a' ≤ c && c ≤ 'z') || ('A' ≤ c && c ≤ 'Z') || ('0' ≤ c && c ≤ '9') || c = '_'

/-- The character classes the source's patterns use: `\w`, `\s`, `\d`,
`[\s\S]` and `[^\n]`. -/
inductive CharClass where
  | word
  | space
  | digit
  | any
  | notNewline
  deriving DecidableEq, Repr

/-- Membership in a character class. -/
def CharClass.test : CharClass → Char → Bool
  | .word, c => isWordChar c
  | .space, c => isJsWhiteSpace c
  | .digit, c => '0' ≤ c && c ≤ '9'
  | .any, _ => true
  | .notNewline, c => c != '\n'

/-- The regular-expression syntax the source's patterns use; a lazy `*?` is a
`star`, since only the existence of a match is observed. -/
inductive Re where
  | eps
  | lit (c : Char)
  | cls (k : CharClass)
  | wordB
  | seq (a b : Re)
  | alt (a b : Re)
  | star (a : Re)
  | plus (a : Re)

/-- Upper case of an ASCII letter: the canonical form under the `i` flag
(without the `u` flag a non-ASCII character never folds to an ASCII one). -/
def asciiUpper (c : Char) : Char :=
  if 'a' ≤ c ∧ c ≤ 'z' then Char.ofNat (c.toNat - 32) else c

/-- Comparison of a pattern character with an input character. -/
def litEq (ignoreCase : Bool) (c d : Char) : Bool :=
  if ignoreCase then asciiUpper c = asciiUpper d else c = d

/-- A continuation of the matcher: the previous character and the rest of the
input. -/
abbrev Cont := Option Char → List Char → Bool

/-- Repetition of a matcher `m`; an iteration that consumes nothing is
rejected, as in ECMAScript. -/
def starLoop (m : Option Char → List Char → Cont → Bool) :
    Nat → Option Char → List Char → Cont → Bool
  | 0, p, s, k => k p s
  | n + 1, p, s, k =>
    k p s || m p s (fun p1 s1 => decide (s1.length < s.length) && starLoop m n p1 s1 k)

/-- Whether the character at a position (if any) is a word character. -/
def isWordAt (c : Option Char) : Bool :=
  match c with
  | some c => isWordChar c
  | none => false

/-- Backtracking matcher: does `r` match at the current position (previous
character `p`, rest of input `s`) so that the continuation accepts? -/
def Re.run (ignoreCase : Bool) : Re → Option Char → List Char → Cont → Bool
  | .eps, p, s, k => k p s
  | .lit c, _, s, k =>
    match s with
    | d :: t => litEq ignoreCase c d && k (some d) t
    | [] => false
  | .cls C, _, s, k =>
    match s with
    | d :: t => C.test d && k (some d) t
    | [] => false
  | .wordB, p, s, k => (isWordAt p != isWordAt s.head?) && k p s
  | .seq a b, p, s, k => a.run ignoreCase p s (fun p1 s1 => b.run ignoreCase p1 s1 k)
  | .alt a b, p, s, k => a.run ignoreCase p s k || b.run ignoreCase p s k
  | .star a, p, s, k => starLoop (a.run ignoreCase) (s.length + 1) p s k
  | .plus a, p, s, k =>
    a.run ignoreCase p s
      (fun p1 s1 => starLoop (a.run ignoreCase) (s1.length + 1) p1 s1 k)

/-- Search for a match starting at any position. -/
def Re.search (ignoreCase : Bool) (r : Re) : Option Char → List Char → Bool
  | p, [] => r.run ignoreCase p [] (fun _ _ => true)
  | p, c :: t =>
    r.run ignoreCase p (c :: t) (fun _ _ => true) || Re.search ignoreCase r (some c) t

/-- The pattern matching a fixed sequence of characters. -/
def Re.ofChars : List Char → Re
  | [] => .eps
  | [c] => .lit c
  | c :: cs => .seq (.lit c) (Re.ofChars cs)

/-- The pattern matching a fixed string. -/
def Re.str (s : String) : Re := Re.ofChars s.toList

/-- Alternation `r1|r2|...`. -/
def Re.alts : List Re → Re
  | [] => .eps
  | [r] => r
  | r :: rs => .alt r (Re.alts rs)

/-- Concatenation `r1 r2 ...`. -/
def Re.seqs : List Re → Re
  | [] => .eps
  | [r] => r
  | r :: rs => .seq r (Re.seqs rs)

/-- A regular-expression literal: its pattern and its `i` flag. -/
structure Regex where
  re : Re
  ignoreCase : Bool := false

/-- `re.test(str)` for a regular expression without the `g` or `y` flag. -/
def Regex.test (r : Regex) (str : String) : Bool :=
  r.re.search r.ignoreCase none str.toList

/-! ## Client address (`src/fingerprint/getIp.js`) -/

/-- `req.headers?.[name]`. -/
def Req.header (req : Req) (name : String) : Option String :=
  req.headers.bind (fun h => h.lookup name)

/-- Options of `getClientIp`. -/
structure GetClientIpOptions where
  trustProxy : Bool := true

/-- The function `getClientIp(req, options)`; `none` is `null`. -/
def getClientIp (req : Req) (options : GetClientIpOptions) : Option String :=
  let forwarded : Option String :=
    if options.trustProxy then
      match req.header "x-forwarded-for" with
      | some xfwd =>
        if jsLength xfwd > 0 then
          let parts := (jsSplit xfwd ',').map jsTrim
          match parts.head? with
          | some p0 => if p0 = "" then none else some p0
          | none => none
        else none
      | none => none
    else none
  match forwarded with
  | some p0 => some p0
  | none =>
    let ip := strOr req.ip (strOr req.connectionRemoteAddress
      (strOr req.socketRemoteAddress req.connectionSocketRemoteAddress))
    match ip with
    | some a =>
      if a = "" then none
      else if jsStartsWith a "::ffff:" then some (String.mk (a.toList.drop 7))
      else some a
    | none => none

/-! ## Attack patterns (`src/security/attacks/patterns.js`) -/

/-- SQL injection patterns. -/
def SQLI_PATTERNS : List Regex :=
  [ { re := .seqs [.wordB,
        .alts (["select", "update", "union", "insert", "delete", "drop", "alter", "create",
          "exec", "sleep"].map Re.str), .wordB], ignoreCase := true },
    { re := .alts [.str "%27", .str "'", .str "--", .str "%23", .str "#"],
      ignoreCase := true },
    { re := .seqs [.alt (.str "%3D") (.str "="), .star (.cls .notNewline),
        .alts [.str "%27", .str "'", .str "--"]], ignoreCase := true },
    { re := .seqs [.wordB, .str "OR", .plus (.cls .space), .str "1=1", .wordB],
      ignoreCase := true },
    { re := .seqs [.str "UNION", .plus (.cls .space), .str "SELECT"], ignoreCase := true },
    { re := .str "';--", ignoreCase := true } ]

/-- XSS injection patterns. -/
def XSS_PATTERNS : List Regex :=
  [ { re := .seqs [.str "<script", .star (.cls .any), .str ">", .star (.cls .any),
        .str "</script>"], ignoreCase := true },
    { re := .seqs [.str "on", .plus (.cls .word), .star (.cls .space), .str "="],
      ignoreCase := true },
    { re := .str "javascript:", ignoreCase := true },
    { re := .seqs [.str "alert", .star (.cls .space), .str "("], ignoreCase := true },
    { re := .str "document.cookie", ignoreCase := true },
    { re := .seqs [.str "<img", .star (.cls .any), .str "onerror="], ignoreCase := true } ]

/-- Path traversal patterns. -/
def PATH_TRAVERSAL_PATTERNS : List Regex :=
  [ { re := .str "../" },
    { re := .str "..\\" },
    { re := .str "%2e%2e%2f", ignoreCase := true },
    { re := .str "%2e%2e\\/", ignoreCase := true } ]

/-- Suspicious encodings. -/
def ENCODING_ATTACKS : List Regex :=
  [ { re := .str "%00" },
    { re := .str "%25", ignoreCase := true },
    { re := .str "%2f", ignoreCase := true } ]

/-! ## Attack detector (`src/security/attacks/attackDetector.js`) -/

/-- The helper `matchAny(str, patterns)`. -/
def matchAny (str : String) (patterns : List Regex) : Bool :=
  if str = "" then false
  else patterns.any (fun re => re.test str)

/-- One `for (const v of Object.values(m)) if (typeof v === 'string') list.push(v)`
loop of `extractStrings`. -/
def pushStrings (list : List String) (values : List JsVal) : List String :=
  values.foldl (fun acc v =>
    match v with
    | .str s => acc ++ [s]
    | _ => acc) list

/-- `Object.values(req.body)` when `req.body && typeof req.body === 'object'`,
and no values otherwise. -/
def bodyValues : JsVal → List JsVal
  | .obj fields => fields.map Prod.snd
  | .arr items => items
  | _ => []

/-- The helper `extractStrings(req)`. -/
def extractStrings (req : Req) : List String :=
  let list : List String := []
  let list := pushStrings list ((req.query.getD []).map Prod.snd)
  let list := pushStrings list ((req.params.getD []).map Prod.snd)
  let list := pushStrings list (bodyValues req.body)
  list

/-- The result object of `detectAttack`. -/
structure AttackResult where
  ip : Option String
  userAgent : String
  score : Int
  isAttack : Bool
  reasons : List String
  deriving DecidableEq, Repr

/-- The body of the `for (const s of strings)` loop of `detectAttack`, on the
pair `(score, reasons)`. -/
def attackStep (acc : Int × List String) (s : String) : Int × List String :=
  let acc := if matchAny s SQLI_PATTERNS
    then (acc.1 + 40, acc.2 ++ ["Possible SQL injection"]) else acc
  let acc := if matchAny s XSS_PATTERNS
    then (acc.1 + 40, acc.2 ++ ["Possible XSS attack"]) else acc
  let acc := if matchAny s PATH_TRAVERSAL_PATTERNS
    then (acc.1 + 30, acc.2 ++ ["Possible path traversal"]) else acc
  let acc := if matchAny s ENCODING_ATTACKS
    then (acc.1 + 10, acc.2 ++ ["Suspicious encoding detected"]) else acc
  acc

/-- The function `detectAttack(req)` (lines 45-86). Reading
`req.headers['user-agent']` throws a `TypeError` when `req.headers` is
undefined. -/
def detectAttack (req : Req) : Except String AttackResult :=
  let ip := getClientIp req {}
  match req.headers with
  | none => Except.error "TypeError: Cannot read properties of undefined"
  | some headers =>
    let ua := (headers.lookup "user-agent").getD ""
    let strings := extractStrings req
    let acc := strings.foldl attackStep ((0 : Int), ([] : List String))
    let acc := if ua = "" ∨ jsLength ua < 10
      then (acc.1 + 10, acc.2 ++ ["Suspicious User-Agent"]) else acc
    Except.ok
      { ip := ip, userAgent := ua, score := acc.1, isAttack := decide (acc.1 ≥ 40),
        reasons := acc.2 }

/-! ## The attack score as the specification words it -/

/-- The string-typed values among `values`, in order. -/
def stringValues (values : List JsVal) : List String :=
  values.filterMap (fun v =>
    match v with
    | .str s => some s
    | _ => none)

/-- The scanned strings: the top-level string values of query, then params,
then body. -/
def scannedStrings (req : Req) : List String :=
  stringValues ((req.query.getD []).map Prod.snd)
    ++ stringValues ((req.params.getD []).map Prod.snd)
    ++ stringValues (bodyValues req.body)

/-- A string matches some pattern of a category. -/
def matchesSome (patterns : List Regex) (s : String) : Bool :=
  patterns.any (fun re => re.test s)

/-- Points of one scanned string: 40 for SQL injection, 40 for XSS, 30 for path
traversal, 10 for a suspicious encoding. -/
def attackPoints (s : String) : Int :=
  (if matchesSome SQLI_PATTERNS s then 40 else 0)
    + (if matchesSome XSS_PATTERNS s then 40 else 0)
    + (if matchesSome PATH_TRAVERSAL_PATTERNS s then 30 else 0)
    + (if matchesSome ENCODING_ATTACKS s then 10 else 0)

/-- Reasons of one scanned string, one per contribution, in category order. -/
def attackReasons (s : String) : List String :=
  (if matchesSome SQLI_PATTERNS s then ["Possible SQL injection"] else [])
    ++ (if matchesSome XSS_PATTERNS s then ["Possible XSS attack"] else [])
    ++ (if matchesSome PATH_TRAVERSAL_PATTERNS s then ["Possible path traversal"] else [])
    ++ (if matchesSome ENCODING_ATTACKS s then ["Suspicious encoding detected"] else [])

/-- The user-agent is missing or shorter than 10 characters. -/
def userAgentSuspicious (ua : Option String) : Bool :=
  match ua with
  | none => true
  | some u => decide (jsLength u < 10)

/-- A top-level string value of query, params or body equals `s`. -/
def Req.hasTopLevelString (req : Req) (s : String) : Prop :=
  (∃ m k, req.query = some m ∧ (k, JsVal.str s) ∈ m)
    ∨ (∃ m k, req.params = some m ∧ (k, JsVal.str s) ∈ m)
    ∨ (∃ fields k, req.body = JsVal.obj fields ∧ (k, JsVal.str s) ∈ fields)
    ∨ (∃ items, req.body = JsVal.arr items ∧ JsVal.str s ∈ items)

/-! ## Bot detector (`src/security/botDetector.js`) -/

/-- Signatures of automation tools and crawlers. -/
def BOT_UA_PATTERNS : List Regex :=
  [ { re := .str "bot", ignoreCase := true },
    { re := .str "crawl", ignoreCase := true },
    { re := .str "spider", ignoreCase := true },
    { re := .str "slurp", ignoreCase := true },
    { re := .str "headless", ignoreCase := true },
    { re := .str "phantomjs", ignoreCase := true },
    { re := .str "selenium", ignoreCase := true },
    { re := .str "puppeteer", ignoreCase := true },
    { re := .str "scrapy", ignoreCase := true },
    { re := .str "curl", ignoreCase := true },
    { re := .str "wget", ignoreCase := true },
    { re := .str "python-requests", ignoreCase := true },
    { re := .str "httpclient", ignoreCase := true },
    { re := .str "http-client", ignoreCase := true },
    { re := .str "postman", ignoreCase := true },
    { re := .str "insomnia", ignoreCase := true },
    { re := .seq (.str "java/") (.cls .digit), ignoreCase := true },
    { re := .str "okhttp", ignoreCase := true } ]

/-- The helper `isSuspiciousIp(ip)` (lines 24-53). -/
def isSuspiciousIp (ip : String) : Bool :=
  if ip = "" then true
  else
    jsStartsWith ip "10." ||
    jsStartsWith ip "192.168." ||
    jsStartsWith ip "172.16." ||
    jsStartsWith ip "172.17." ||
    jsStartsWith ip "172.18." ||
    jsStartsWith ip "172.19." ||
    jsStartsWith ip "172.20." ||
    jsStartsWith ip "172.21." ||
    jsStartsWith ip "172.22." ||
    jsStartsWith ip "172.23." ||
    jsStartsWith ip "172.24." ||
    jsStartsWith ip "172.25." ||
    jsStartsWith ip "172.26." ||
    jsStartsWith ip "172.27." ||
    jsStartsWith ip "172.28." ||
    jsStartsWith ip "172.29." ||
    jsStartsWith ip "172.30." ||
    jsStartsWith ip "172.31." ||
    ip = "127.0.0.1" ||
    ip = "::1"

/-- Options of `detectBot`. -/
structure DetectBotOptions where
  threshold : Int := 50

/-- The result object of `detectBot`. -/
structure BotResult where
  isBot : Bool
  score : Int
  reasons : List String
  ip : Option String
  userAgent : String
  deriving DecidableEq, Repr

/-- The function `detectBot(req, options)` (lines 62-123). -/
def detectBot (req : Req) (options : DetectBotOptions) : BotResult :=
  let threshold := options.threshold
  let headers := req.headers.getD []
  let userAgent := (headers.lookup "user-agent").getD ""
  let acceptLang := headers.lookup "accept-language"
  let xfwd := headers.lookup "x-forwarded-for"
  let ip := strOr (getClientIp req {}) none
  let acc : Int × List String := (0, [])
  -- 1) User-Agent checks
  let acc :=
    if userAgent = "" ∨ jsTrim userAgent = "" then
      (acc.1 + 40, acc.2 ++ ["Missing User-Agent header"])
    else
      let acc := if BOT_UA_PATTERNS.any (fun re => re.test userAgent)
        then (acc.1 + 50, acc.2 ++ ["User-Agent matches known bot/crawler pattern"]) else acc
      let acc := if jsLength userAgent < 20
        then (acc.1 + 10, acc.2 ++ ["Very short User-Agent string"]) else acc
      acc
  -- 2) Accept-Language missing
  let acc := if acceptLang = none ∨ acceptLang = some ""
    then (acc.1 + 10, acc.2 ++ ["Missing Accept-Language header"]) else acc
  -- 3) X-Forwarded-For chain too long
  let acc :=
    match xfwd with
    | some x =>
      let parts := (jsSplit x ',').map jsTrim
      if parts.length > 3
        then (acc.1 + 10, acc.2 ++ ["Long X-Forwarded-For chain (> 3 hops)"]) else acc
    | none => acc
  -- 4) IP heuristics
  let acc := if isSuspiciousIp (ip.getD "")
    then (acc.1 + 10,
      acc.2 ++ ["IP appears to be private/loopback (possible proxy or script)"]) else acc
  let isBot := decide (acc.1 ≥ threshold)
  { isBot := isBot, score := acc.1, reasons := acc.2, ip := ip, userAgent := userAgent }

/-! ## The bot score as the specification words it -/

/-- A string is blank: empty or only white space. -/
def isBlank (s : String) : Bool := s.toList.all isJsWhiteSpace

/-- The user-agent contributions: 40 if it is absent or blank, otherwise 50 if
it matches a signature of `BOT_UA_PATTERNS` plus 10 if it is shorter than 20
characters. -/
def userAgentContributions (ua : Option String) : List (Int × String) :=
  match ua with
  | none => [(40, "Missing User-Agent header")]
  | some u =>
    if isBlank u then [(40, "Missing User-Agent header")]
    else
      (if matchesSome BOT_UA_PATTERNS u
        then [(50, "User-Agent matches known bot/crawler pattern")] else [])
      ++ (if jsLength u < 20 then [(10, "Very short User-Agent string")] else [])

/-- The accept-language contribution: 10 if the header is missing (absent or
empty). -/
def acceptLanguageContributions (lang : Option String) : List (Int × String) :=
  match lang with
  | none => [(10, "Missing Accept-Language header")]
  | some l => if l = "" then [(10, "Missing Accept-Language header")] else []

/-- The number of comma-separated entries of a forwarded-for header. -/
def forwardedEntries (x : String) : Nat := x.toList.count ',' + 1

/-- The forwarded-for contribution: 10 if the header has more than 3
comma-separated entries. -/
def forwardedContributions (xfwd : Option String) : List (Int × String) :=
  match xfwd with
  | none => []
  | some x =>
    if forwardedEntries x > 3 then [(10, "Long X-Forwarded-For chain (> 3 hops)")] else []

/-- An address in a private or loopback range: beginning `10.`, `192.168.`,
`172.16.` through `172.31.`, or equal to `127.0.0.1` or `::1`. -/
def isPrivateOrLoopback (a : String) : Bool :=
  jsStartsWith a "10." || jsStartsWith a "192.168."
    || ["172.16.", "172.17.", "172.18.", "172.19.", "172.20.", "172.21.", "172.22.",
        "172.23.", "172.24.", "172.25.", "172.26.", "172.27.", "172.28.", "172.29.",
        "172.30.", "172.31."].any (fun p => jsStartsWith a p)
    || a = "127.0.0.1" || a = "::1"

/-- The source-address test of `detectBot` on the resolved address: no
address (null or empty), or an address in a private or loopback range. -/
def addressFlagged (addr : Option String) : Bool :=
  match addr with
  | none => true
  | some a => a = "" || isPrivateOrLoopback a

/-- The source-address contribution (0 or 10 points). -/
def addressContributions (addr : Option String) : List (Int × String) :=
  if addressFlagged addr
    then [(10, "IP appears to be private/loopback (possible proxy or script)")] else []

/-- The contributions of the headers, in the order user-agent,
accept-language, forwarded-for. -/
def headerContributions (req : Req) : List (Int × String) :=
  userAgentContributions (req.header "user-agent")
    ++ acceptLanguageContributions (req.header "accept-language")
    ++ forwardedContributions (req.header "x-forwarded-for")

/-- All contributions to the bot score, in order. -/
def botContributions (req : Req) : List (Int × String) :=
  headerContributions req ++ addressContributions (getClientIp req {})

/-! ## In-memory rate limiter (`src/rateLimiter/memoryLimiter.js`) -/

/-- The `hits` map: `Map<string, number[]>`. -/
abbrev Hits := String → Option (List Int)

/-- A freshly created limiter holds `new Map()`. -/
def Hits.empty : Hits := fun _ => none

/-- `hits.set(key, v)`. -/
def Hits.set (h : Hits) (key : String) (v : List Int) : Hits :=
  fun k => if k = key then some v else h k

/-- The default `keyGenerator`: `(req) => req.ip || "global"`. -/
def defaultKeyGenerator (req : Req) : String :=
  (strOr req.ip (some "global")).getD "global"

/-- Options of `createMemoryRateLimiter`, with the defaults of the source. -/
structure MemoryRateLimiterOptions where
  windowMs : Int := 60000
  max : Int := 60
  keyGenerator : Req → String := defaultKeyGenerator
  onLimitReached : Option (Req → Res → Res) := none

/-- One call of a limiter: the request, the response object and `Date.now()`. -/
structure Call where
  req : Req
  res : Res := {}
  now : Int

/-- The list `recent` after `recent.push(now)` (lines 28-34): the key's
timestamps with `ts > now - windowMs`, followed by `now`. -/
def memoryRecent (o : MemoryRateLimiterOptions) (hits : Hits) (c : Call) : List Int :=
  let key := o.keyGenerator c.req
  let windowStart := c.now - o.windowMs
  let timestamps := (hits key).getD []
  let recent := timestamps.filter (fun ts => ts > windowStart)
  recent ++ [c.now]

/-- The rejection branch shared by both limiters: the optional hook, then the
429 response unless `res.headersSent`; `next` is not called. -/
def rejectEffects (hook : Option (Req → Res → Res)) (req : Req) (res : Res) : List Effect :=
  match hook with
  | some f => Effect.hook :: (if (f req res).headersSent then [] else [Effect.status429])
  | none => if res.headersSent then [] else [Effect.status429]

/-- The middleware `memoryRateLimiter(req, res, next)` (lines 27-52): the new
`hits` map and the effects of the call. -/
def memoryRateLimiter (o : MemoryRateLimiterOptions) (hits : Hits) (c : Call) :
    Hits × List Effect :=
  let key := o.keyGenerator c.req
  let recent := memoryRecent o hits c
  let hits1 := hits.set key recent
  if (recent.length : Int) > o.max then
    (hits1, rejectEffects o.onLimitReached c.req c.res)
  else
    (hits1, [Effect.next none])

/-- The `hits` map after a sequence of calls. -/
def memoryRun (o : MemoryRateLimiterOptions) : Hits → List Call → Hits
  | hits, [] => hits
  | hits, c :: cs => memoryRun o (memoryRateLimiter o hits c).1 cs

/-! ## Redis rate limiter (`src/rateLimiter/redisLimiter.js`) -/

/-- A counter entry of the shared store: its integer value and, when a TTL
was set, the clock reading (ms) at which the key expires. -/
structure RedisEntry where
  value : Int
  expireAt : Option Int
  deriving DecidableEq, Repr

/-- The shared key-value store the limiter talks to. -/
abbrev RedisStore := String → Option RedisEntry

/-- A store with no keys. -/
def RedisStore.empty : RedisStore := fun _ => none

/-- Write an entry. -/
def RedisStore.set (s : RedisStore) (key : String) (e : RedisEntry) : RedisStore :=
  fun k => if k = key then some e else s k

/-- Remove a key. -/
def RedisStore.del (s : RedisStore) (key : String) : RedisStore :=
  fun k => if k = key then none else s k

/-- The entry of `key` as seen at clock reading `now`: a key whose expiry time
has been reached is absent. -/
def RedisStore.live (s : RedisStore) (now : Int) (key : String) : Option RedisEntry :=
  match s key with
  | some e =>
    match e.expireAt with
    | some t => if t ≤ now then none else some e
    | none => some e
  | none => none

/-- Atomic `INCR key`: an absent key is created with value 1 and no TTL, a
present one is incremented and keeps its TTL. Returns the new value. -/
def RedisStore.incr (s : RedisStore) (now : Int) (key : String) : RedisStore × Int :=
  match s.live now key with
  | some e => (s.set key { e with value := e.value + 1 }, e.value + 1)
  | none => (s.set key { value := 1, expireAt := none }, 1)

/-- Command `EXPIRE key seconds`: sets the expiry of a present key to
`now + seconds * 1000`; a non-positive `seconds` deletes the key. -/
def RedisStore.expire (s : RedisStore) (now : Int) (key : String) (seconds : Int) :
    RedisStore :=
  match s.live now key with
  | some e =>
    if seconds ≤ 0 then s.del key
    else s.set key { e with expireAt := some (now + seconds * 1000) }
  | none => s

/-- `Math.ceil(windowMs / 1000)`. -/
def ttlSeconds (windowMs : Int) : Int := -((-windowMs) / 1000)

/-- Options of `createRedisRateLimiter`, with the defaults of the source;
`redis` is the client handle. -/
structure RedisRateLimiterOptions where
  redis : Option Unit := some ()
  windowMs : Int := 60000
  max : Int := 60
  keyGenerator : Req → String := defaultKeyGenerator
  keyPrefix : String := "api-shield:rl:"
  onLimitReached : Option (Req → Res → Res) := none

/-- One call of the Redis limiter: the request, the response object, the
clock reading, and whether `redis.incr` / `redis.expire` reject (with which
error) during this call. A rejected operation leaves the store unchanged. -/
structure RedisCall where
  req : Req
  res : Res := {}
  now : Int
  incrFails : Option String := none
  expireFails : Option String := none

/-- The middleware `redisRateLimiter(req, res, next)` (lines 33-63): the new
store and the effects of the call. -/
def redisRateLimiter (o : RedisRateLimiterOptions) (store : RedisStore) (c : RedisCall) :
    RedisStore × List Effect :=
  let key := o.keyPrefix ++ o.keyGenerator c.req
  match c.incrFails with
  | some err => (store, [Effect.next (some err)])
  | none =>
    let (s1, current) := store.incr c.now key
    let finish (s : RedisStore) : RedisStore × List Effect :=
      if current > o.max then (s, rejectEffects o.onLimitReached c.req c.res)
      else (s, [Effect.next none])
    if current = 1 then
      match c.expireFails with
      | some err => (s1, [Effect.next (some err)])
      | none => finish (s1.expire c.now key (ttlSeconds o.windowMs))
    else finish s1

/-- The constructor `createRedisRateLimiter(options)` (lines 17-31): throws
when the `redis` handle is missing, otherwise returns the middleware. -/
def createRedisRateLimiter (o : RedisRateLimiterOptions) :
    Except String (RedisStore → RedisCall → RedisStore × List Effect) :=
  match o.redis with
  | none => Except.error "[api-shield] createRedisRateLimiter: 'redis' instance is required."
  | some _ => Except.ok (redisRateLimiter o)

/-- The store after a sequence of calls. -/
def redisRun (o : RedisRateLimiterOptions) : RedisStore → List RedisCall → RedisStore
  | s, [] => s
  | s, c :: cs => redisRun o (redisRateLimiter o s c).1 cs

/-- The value of `res.headersSent` when a rejecting limiter reads it, that is
after the optional `onLimitReached` hook has run. -/
def headersSentAtCheck (hook : Option (Req → Res → Res)) (req : Req) (res : Res) : Bool :=
  match hook with
  | some f => (f req res).headersSent
  | none => res.headersSent

/-! ## Replay guard (`src/security/replay.js`) -/

/-- The record returned by `createReplayToken`. -/
structure ReplayToken where
  token : String
  ttl : Int
  deriving DecidableEq, Repr

/-- The function `createReplayToken(ttlMs = 30_000)` (lines 9-14); `nonce` is
`crypto.randomBytes(16).toString('hex')`, `now` is `Date.now()`, and an
omitted argument is `none`. -/
def createReplayToken (nonce : String) (now : Int) (ttlMs : Option Int) : ReplayToken :=
  { token := nonce ++ "-" ++ toString now, ttl := ttlMs.getD 30000 }

/-- The `used` map of the in-memory replay store: `Map<string, number>`. -/
abbrev Used := String → Option Int

/-- `used.set(token, expiry)`. -/
def Used.set (u : Used) (token : String) (expiry : Int) : Used :=
  fun k => if k = token then some expiry else u k

/-- The state `createReplayStoreMemory()` starts with: `new Map()`. -/
def createReplayStoreMemory : Used := fun _ => none

/-- The method `verify(token)` of the in-memory store (lines 27-39) at
`Date.now() = now`: the returned boolean and the new `used` map. The test
`prev && prev > now` is false for an absent entry and for the number 0. -/
def createReplayStoreMemory.verify (used : Used) (token : String) (now : Int) :
    Bool × Used :=
  match used token with
  | some prev =>
    if prev ≠ 0 ∧ prev > now then (false, used)
    else (true, used.set token (now + 30000))
  | none => (true, used.set token (now + 30000))

/-- One `verify` call: the token and the clock reading. -/
structure VerifyCall where
  token : String
  now : Int
  deriving DecidableEq, Repr

/-- The `used` map after a sequence of `verify` calls. -/
def replayRun : Used → List VerifyCall → Used
  | u, [] => u
  | u, c :: cs => replayRun (createReplayStoreMemory.verify u c.token c.now).2 cs

/-! ## Fingerprint continuity score (`src/fingerprint/getDevice.js`) -/

/-- The component set built by `getFingerprintComponents`. -/
structure FingerprintComponents where
  ip : String
  ua : String := ""
  uaHash : String
  lang : String
  deriving DecidableEq, Repr

/-- The function `computeFingerprintStability(prev, current)` (lines 126-154);
a null or undefined argument is `none`. -/
def computeFingerprintStability (prev current : Option FingerprintComponents) : Int :=
  match prev, current with
  | some p, some c =>
    let score : Int := 0
    let score := if p.ip = c.ip then score + 40 else score
    let score := if p.uaHash = c.uaHash then score + 40 else score
    let score := if p.lang = c.lang then score + 20 else score
    score
  | _, _ => 0

/-! ## The address selection as the specification words it -/

/-- The first comma-separated entry of a forwarded-for header, trimmed. -/
def firstForwardedEntry (x : String) : String :=
  String.mk (trimChars (x.toList.takeWhile (fun c => c ≠ ',')))

/-- A transport address field is set: present and not the empty string. -/
def isSet (a : Option String) : Bool :=
  match a with
  | some s => s ≠ ""
  | none => false

/-- The transport address: `req.ip`, else `connection.remoteAddress`, else
`socket.remoteAddress`, else `connection.socket.remoteAddress`; `none` when
none of them is set. -/
def transportAddress (req : Req) : Option String :=
  if isSet req.ip then req.ip
  else if isSet req.connectionRemoteAddress then req.connectionRemoteAddress
  else if isSet req.socketRemoteAddress then req.socketRemoteAddress
  else if isSet req.connectionSocketRemoteAddress then req.connectionSocketRemoteAddress
  else none

/-- The IPv4 form of an IPv6-mapped address: `::ffff:a` becomes `a`. -/
def normalizeMapped (a : String) : String :=
  if jsStartsWith a "::ffff:" then String.mk (a.toList.drop 7) else a

/-- The result computed from the transport address: null when none is set,
otherwise the address with an IPv6-mapped IPv4 address normalized. -/
def fromTransport (req : Req) : Option String :=
  (transportAddress req).map normalizeMapped

/-! ## Store commands of the Redis rate limiter -/

/-- A command sent to the shared store. -/
inductive RedisCommand where
  | incr (key : String)
  | expire (key : String) (seconds : Int)
  deriving DecidableEq, Repr

/-- The middleware `redisRateLimiter(req, res, next)` (lines 33-63) together
with the store commands it issues, in order; a command that rejects has been
issued. -/
def redisRateLimiterTraced (o : RedisRateLimiterOptions) (store : RedisStore)
    (c : RedisCall) : (RedisStore × List Effect) × List RedisCommand :=
  let key := o.keyPrefix ++ o.keyGenerator c.req
  let ttl := ttlSeconds o.windowMs
  match c.incrFails with
  | some err => ((store, [Effect.next (some err)]), [RedisCommand.incr key])
  | none =>
    let (s1, current) := store.incr c.now key
    let finish (s : RedisStore) : RedisStore × List Effect :=
      if current > o.max then (s, rejectEffects o.onLimitReached c.req c.res)
      else (s, [Effect.next none])
    if current = 1 then
      match c.expireFails with
      | some err =>
        ((s1, [Effect.next (some err)]), [RedisCommand.incr key, RedisCommand.expire key ttl])
      | none =>
        (finish (s1.expire c.now key ttl),
          [RedisCommand.incr key, RedisCommand.expire key ttl])
    else (finish s1, [RedisCommand.incr key])

/-! ## Redis cache constructor (`src/cache/redisCache.js`) -/

/-- The object returned by `createRedisCache`: its methods close over the
client handle. -/
structure RedisCache where
  redis : Unit
  deriving DecidableEq, Repr

/-- The constructor `createRedisCache(redis)` (lines 7-10): throws when the
handle is missing. -/
def createRedisCache (redis : Option Unit) : Except String RedisCache :=
  match redis with
  | none => Except.error "[api-shield] createRedisCache: Redis instance required."
  | some r => Except.ok { redis := r }

/-! ## Redis replay store (`src/security/replay.js`, lines 48-60) -/

/-- The object returned by `createReplayStoreRedis`: its `verify` method closes
over the argument `redis`, whatever it is. -/
structure ReplayStoreRedis where
  redis : Option Unit
  deriving DecidableEq, Repr

/-- The constructor `createReplayStoreRedis(redis)`: it returns the store
object without looking at `redis`. -/
def createReplayStoreRedis (redis : Option Unit) : Except String ReplayStoreRedis :=
  Except.ok { redis := redis }

/-- How far one `verify(token)` call of the Redis replay store has got: before
`redis.exists`, between `redis.exists` (which found no key) and `redis.set`,
returned, or thrown. -/
inductive VerifyProgress where
  | start
  | sawAbsent
  | returned (result : Bool)
  | threw (err : String)
  deriving DecidableEq, Repr

/-- The store key of a token. -/
def replayKey (token : String) : String := "api_shield_replay:" ++ token

/-- One atomic step of `verify(token)` at clock reading `now`: the command
`EXISTS key`, or the command `SET key '1' PX 30000`. With a missing handle
`redis.exists` is a `TypeError`. -/
def ReplayStoreRedis.verifyStep (st : ReplayStoreRedis) (store : RedisStore) (now : Int)
    (token : String) : VerifyProgress → RedisStore × VerifyProgress
  | .start =>
    match st.redis with
    | none => (store, .threw "TypeError: Cannot read properties of undefined")
    | some _ =>
      if (store.live now (replayKey token)).isSome then (store, .returned false)
      else (store, .sawAbsent)
  | .sawAbsent =>
    (store.set (replayKey token) { value := 1, expireAt := some (now + 30000) },
      .returned true)
  | .returned r => (store, .returned r)
  | .threw err => (store, .threw err)

/-- Two `verify` calls in flight on one store. -/
structure TwoVerifies where
  store : RedisStore
  first : VerifyProgress := VerifyProgress.start
  second : VerifyProgress := VerifyProgress.start

/-- A schedule of store operations: each entry says whose operation reaches
the store next (`true` for the first call) and at which clock reading. -/
def runSchedule (st : ReplayStoreRedis) (tokenFirst tokenSecond : String) :
    TwoVerifies → List (Bool × Int) → TwoVerifies
  | s, [] => s
  | s, (true, now) :: rest =>
    let r := st.verifyStep s.store now tokenFirst s.first
    runSchedule st tokenFirst tokenSecond { s with store := r.1, first := r.2 } rest
  | s, (false, now) :: rest =>
    let r := st.verifyStep s.store now tokenSecond s.second
    runSchedule st tokenFirst tokenSecond { s with store := r.1, second := r.2 } rest

/-! ## Request fingerprint (`src/fingerprint/getDevice.js`) -/

/-- The value of a hexadecimal digit. -/
def hexDigit (c : Char) : Option Nat :=
  if '0' ≤ c ∧ c ≤ '9' then some (c.toNat - 48)
  else if 'a' ≤ c ∧ c ≤ 'f' then some (c.toNat - 87)
  else if 'A' ≤ c ∧ c ≤ 'F' then some (c.toNat - 55)
  else none

/-- The byte of an escape `%XY` at the head of the input. -/
def readEscape : List Char → Option Nat
  | '%' :: h :: l :: _ =>
    match hexDigit h, hexDigit l with
    | some a, some b => some (16 * a + b)
    | _, _ => none
  | _ => none

/-- The low six bits of a continuation escape `%XY` with byte `10xxxxxx`. -/
def readContinuation (cs : List Char) : Option Nat :=
  match readEscape cs with
  | some b => if 0x80 ≤ b ∧ b ≤ 0xBF then some (b - 0x80) else none
  | none => none

/-- Decoding of the escape sequence at the head of the input (which starts
with `%`): the character and the number of input characters it takes, or
`none` where `decodeURIComponent` throws a `URIError` (a `%` not followed by
two hexadecimal digits, or bytes that are not the UTF-8 encoding of a code
point). -/
def decodeEscape (cs : List Char) : Option (Char × Nat) :=
  match readEscape cs with
  | none => none
  | some b =>
    if b < 0x80 then some (Char.ofNat b, 3)
    else if b < 0xC0 then none
    else if b < 0xE0 then
      match readContinuation (cs.drop 3) with
      | some b1 =>
        let v := (b - 0xC0) * 64 + b1
        if 0x80 ≤ v then some (Char.ofNat v, 6) else none
      | none => none
    else if b < 0xF0 then
      match readContinuation (cs.drop 3), readContinuation (cs.drop 6) with
      | some b1, some b2 =>
        let v := ((b - 0xE0) * 64 + b1) * 64 + b2
        if 0x800 ≤ v ∧ ¬ (0xD800 ≤ v ∧ v ≤ 0xDFFF) then some (Char.ofNat v, 9) else none
      | _, _ => none
    else if b < 0xF8 then
      match readContinuation (cs.drop 3), readContinuation (cs.drop 6),
        readContinuation (cs.drop 9) with
      | some b1, some b2, some b3 =>
        let v := (((b - 0xF0) * 64 + b1) * 64 + b2) * 64 + b3
        if 0x10000 ≤ v ∧ v ≤ 0x10FFFF then some (Char.ofNat v, 12) else none
      | _, _, _ => none
    else none

/-- The loop of `decodeURIComponent` over the characters; `skip` counts the
characters of an escape sequence already decoded. -/
def decodeChars : Nat → List Char → Except String (List Char)
  | _, [] => Except.ok []
  | skip + 1, _ :: rest => decodeChars skip rest
  | 0, c :: rest =>
    if c = '%' then
      match decodeEscape (c :: rest) with
      | some (d, n) =>
        match decodeChars (n - 1) rest with
        | Except.ok out => Except.ok (d :: out)
        | Except.error e => Except.error e
      | none => Except.error "URIError: URI malformed"
    else
      match decodeChars 0 rest with
      | Except.ok out => Except.ok (c :: out)
      | Except.error e => Except.error e

/-- The built-in `decodeURIComponent(s)`; it throws a `URIError` on a
malformed escape sequence. -/
def decodeURIComponent (s : String) : Except String String :=
  match decodeChars 0 s.toList with
  | Except.ok out => Except.ok (String.mk out)
  | Except.error e => Except.error e

/-- The `for (const part of parts)` loop of `getCookies` (lines 20-25); `out`
holds the own properties of the plain object `out = {}`. The assignment
`out[key] = value` puts the pair in front, so that a lookup finds the latest
value of a name; for the key `__proto__` the assignment runs the setter
inherited from `Object.prototype`, which ignores a string, and nothing is
stored (both names and values are decoded first, so a malformed escape still
throws). -/
def parseCookieParts : List String → List (String × JsVal) →
    Except String (List (String × JsVal))
  | [], out => Except.ok out
  | part :: rest, out =>
    let pieces := jsSplit (jsTrim part) '='
    let rawKey := pieces.head?.getD ""
    match decodeURIComponent rawKey with
    | Except.error e => Except.error e
    | Except.ok key =>
      match decodeURIComponent (String.intercalate "=" pieces.tail) with
      | Except.error e => Except.error e
      | Except.ok value =>
        if key = "__proto__" then parseCookieParts rest out
        else parseCookieParts rest ((key, JsVal.str value) :: out)

/-- The helper `getCookies(req)` (lines 10-28): the own properties of the
object it returns, `req.cookies` itself when that is an object, otherwise the
object built from the Cookie header. -/
def getCookies (req : Req) : Except String (List (String × JsVal)) :=
  match req.cookies with
  | some cookies => Except.ok cookies
  | none =>
    match req.header "cookie" with
    | none => Except.ok []
    | some header =>
      if header = "" then Except.ok []
      else parseCookieParts (jsSplit header ';') []

/-- The helper `getFingerprintComponents(req)` (lines 77-90); `H` is
`crypto.createHash('sha256').update(s).digest('hex')`. -/
def getFingerprintComponents (H : String → String) (req : Req) : FingerprintComponents :=
  let ip := (strOr (getClientIp req {}) (some "unknown-ip")).getD "unknown-ip"
  let ua := (strOr (req.header "user-agent") (some "unknown-ua")).getD "unknown-ua"
  let lang := (strOr (req.header "accept-language") (some "unknown-lang")).getD "unknown-lang"
  let uaHash := H ua
  { ip := ip, ua := ua, uaHash := uaHash, lang := lang }

/-- Options of `getRequestFingerprintV2`. -/
structure FingerprintOptions where
  cookieName : String := "api_shield_fp"

/-- The record returned by `getRequestFingerprintV2`. -/
structure FingerprintResult where
  fingerprint : String
  fromCookie : Bool
  components : FingerprintComponents
  deriving DecidableEq, Repr

/-- The function `getRequestFingerprintV2(req, options)` (lines 101-124).
`cookies[cookieName]` is used only when it is a non-empty string (line 108);
a name the object merely inherits from `Object.prototype` (`__proto__`,
`constructor`, ...) reads as an object or a function, which takes the same
branch as a missing property. -/
def getRequestFingerprintV2 (H : String → String) (req : Req) (options : FingerprintOptions) :
    Except String FingerprintResult :=
  match getCookies req with
  | Except.error e => Except.error e
  | Except.ok cookies =>
    let existing := cookies.lookup options.cookieName
    let components := getFingerprintComponents H req
    let derived : FingerprintResult :=
      { fingerprint := H (components.ip ++ "|" ++ components.uaHash ++ "|" ++ components.lang)
        fromCookie := false
        components := components }
    match existing with
    | some (JsVal.str e) =>
      if jsLength e > 0 then
        Except.ok { fingerprint := e, fromCookie := true, components := components }
      else Except.ok derived
    | _ => Except.ok derived

/-! ## Guard middlewares (`botGuard`, `attackGuard`) -/

/-- The `error` object of a 403 response body. -/
structure DenyBody where
  message : String
  statusCode : Nat
  reasons : Option (List String)
  deriving DecidableEq, Repr

/-- Observable effects of a guard middleware: the 403 response
`res.status(403).json(...)`, or the call `next()`. -/
inductive GuardEffect where
  | deny (body : DenyBody)
  | next
  deriving DecidableEq, Repr

/-- Options of `botGuard`, with the defaults of the source. -/
structure BotGuardOptions where
  threshold : Int := 50
  block : Bool := false

/-- The middleware returned by `botGuard(options)` (lines 125-151): the value
stored in `req.botDetection` and the effects of the call. -/
def botGuard (options : BotGuardOptions) (req : Req) : BotResult × List GuardEffect :=
  let result := detectBot req { threshold := options.threshold }
  if options.block && result.isBot then
    (result,
      [GuardEffect.deny { message := "Access denied (suspected automated traffic)",
                          statusCode := 403, reasons := none }])
  else (result, [GuardEffect.next])

/-- Options of `attackGuard`, with the default of the source. -/
structure AttackGuardOptions where
  block : Bool := false

/-- The middleware returned by `attackGuard(options)` (lines 88-113): the value
stored in `req.attackDetection` and the effects of the call; an exception of
`detectAttack` propagates. -/
def attackGuard (options : AttackGuardOptions) (req : Req) :
    Except String (AttackResult × List GuardEffect) :=
  match detectAttack req with
  | Except.error e => Except.error e
  | Except.ok result =>
    if options.block && result.isAttack then
      Except.ok (result,
        [GuardEffect.deny { message := "Request blocked (suspicious input detected)",
                            statusCode := 403, reasons := some result.reasons }])
    else Except.ok (result, [GuardEffect.next])

/-! ## The derived fingerprint as the specification words it -/

/-- The value `v` or, when it is missing or empty, the default `d`. -/
def orDefault (v : Option String) (d : String) : String :=
  match v with
  | some s => if s = "" then d else s
  | none => d

/-- The derived identity key `H(ip + '|' + H(ua) + '|' + lang)`, where `ip` is
`getClientIp(req)` or `unknown-ip`, `ua` the user-agent header or `unknown-ua`
and `lang` the accept-language header or `unknown-lang`. -/
def derivedFingerprint (H : String → String) (req : Req) : String :=
  H (orDefault (getClientIp req {}) "unknown-ip" ++ "|"
    ++ H (orDefault (req.header "user-agent") "unknown-ua") ++ "|"
    ++ orDefault (req.header "accept-language") "unknown-lang")

/-- The effects of each call of a sequence of calls of the Redis limiter, in
order. -/
def redisTrace (o : RedisRateLimiterOptions) : RedisStore → List RedisCall → List (List Effect)
  | _, [] => []
  | s, c :: cs => (redisRateLimiter o s c).2 :: redisTrace o (redisRateLimiter o s c).1 cs

/-- The schedule across a window boundary: one request at `t0`, `max - 1`
requests one millisecond before the key expires and `max` requests at the
moment it has expired, all with the same request descriptor. -/
def boundarySchedule (o : RedisRateLimiterOptions) (req : Req) (t0 : Int) : List RedisCall :=
  ({ req := req, now := t0 } : RedisCall)
    :: (List.replicate (o.max.toNat - 1)
          ({ req := req, now := t0 + ttlSeconds o.windowMs * 1000 - 1 } : RedisCall)
        ++ List.replicate o.max.toNat
          ({ req := req, now := t0 + ttlSeconds o.windowMs * 1000 } : RedisCall))

/-- The store key a command addresses. -/
def RedisCommand.key : RedisCommand → String
  | .incr k => k
  | .expire k _ => k

/-! ## Theorems -/

/-! ### In-memory rate limiter -/

theorem memoryRun_append (o : MemoryRateLimiterOptions) (hits : Hits) (xs ys : List Call) :
    memoryRun o hits (xs ++ ys) = memoryRun o (memoryRun o hits xs) ys := by
  induction xs generalizing hits with
  | nil => rfl
  | cons x xs ih => simp [memoryRun, ih]

theorem memoryRecent_length_le (o : MemoryRateLimiterOptions) (hits : Hits) (c : Call) :
    (memoryRecent o hits c).length ≤ ((hits (o.keyGenerator c.req)).getD []).length + 1 := by
  simp only [memoryRecent, List.length_append, List.length_singleton]
  exact Nat.add_le_add_right (List.length_filter_le _ _) 1

theorem rejectEffects_no_next (hook : Option (Req → Res → Res)) (req : Req) (res : Res)
    (e : Option String) : Effect.next e ∉ rejectEffects hook req res := by
  unfold rejectEffects
  cases hook with
  | none => by_cases h : res.headersSent <;> simp [h]
  | some f => by_cases h : (f req res).headersSent <;> simp [h]

theorem memoryRateLimiter_fst (o : MemoryRateLimiterOptions) (hits : Hits) (c : Call) :
    (memoryRateLimiter o hits c).1 = hits.set (o.keyGenerator c.req) (memoryRecent o hits c) := by
  unfold memoryRateLimiter
  simp only
  split <;> rfl

theorem memoryRateLimiter_allowed_iff (o : MemoryRateLimiterOptions) (hits : Hits) (c : Call) :
    (memoryRateLimiter o hits c).2 = [Effect.next none]
      ↔ ((memoryRecent o hits c).length : Int) ≤ o.max := by
  unfold memoryRateLimiter
  simp only
  split
  · rename_i h
    constructor
    · intro e
      exact absurd (e ▸ List.mem_singleton_self _) (rejectEffects_no_next _ _ _ _)
    · intro h2
      omega
  · rename_i h
    simp only [true_iff]
    omega

/-- While every earlier call of a key was allowed, the list stored for the key
holds at most `max` timestamps. -/
theorem memoryRun_allowed_length_le (o : MemoryRateLimiterOptions) (key : String)
    (pre : List Call)
    (hpre : ∀ i (hi : i < pre.length), o.keyGenerator pre[i].req = key →
      (memoryRateLimiter o (memoryRun o Hits.empty (pre.take i)) pre[i]).2
        = [Effect.next none]) :
    (((memoryRun o Hits.empty pre key).getD []).length : Int) ≤ max 0 o.max := by
  induction pre using List.reverseRecOn with
  | nil => simp [memoryRun, Hits.empty]
  | append_singleton xs c ih =>
    have ih1 := ih (by
      intro i hi hk
      have hi2 : i < (xs ++ [c]).length := by simp; omega
      have h := hpre i hi2
      have e1 : (xs ++ [c])[i] = xs[i] := List.getElem_append_left hi
      have e2 : (xs ++ [c]).take i = xs.take i := by
        rw [List.take_append_of_le_length (Nat.le_of_lt hi)]
      rw [e1, e2] at h
      exact h hk)
    have hlen : xs.length < (xs ++ [c]).length := by simp
    have hlast := hpre xs.length hlen
    have e1 : (xs ++ [c])[xs.length] = c := by simp
    have e2 : (xs ++ [c]).take xs.length = xs := by simp
    rw [e1, e2] at hlast
    rw [memoryRun_append]
    simp only [memoryRun, memoryRateLimiter_fst]
    by_cases hk : o.keyGenerator c.req = key
    · have h := (memoryRateLimiter_allowed_iff _ _ _).1 (hlast hk)
      simp only [Hits.set, hk, if_true, Option.getD_some]
      omega
    · simp only [Hits.set, Ne.symm hk, if_false]
      exact ih1

/-- C1: in-memory limiter. For every `windowMs`, every `max ≥ 0` and every
sequence of calls from a fresh limiter, at the first call of a key that is
rejected (no earlier call of that key was rejected, and this one does not call
`next`), the count compared against `max`, the length of `recent` after
`recent.push(now)`, is at most `max + 1`. -/
theorem memoryRateLimiter_first_reject_count_le (o : MemoryRateLimiterOptions)
    (hmax : 0 ≤ o.max) (pre : List Call) (c : Call)
    (hpre : ∀ i (hi : i < pre.length), o.keyGenerator pre[i].req = o.keyGenerator c.req →
      (memoryRateLimiter o (memoryRun o Hits.empty (pre.take i)) pre[i]).2
        = [Effect.next none])
    (hrej : Effect.next none ∉ (memoryRateLimiter o (memoryRun o Hits.empty pre) c).2) :
    ((memoryRecent o (memoryRun o Hits.empty pre) c).length : Int) ≤ o.max + 1 := by
  have _ := hrej
  have h1 := memoryRun_allowed_length_le o (o.keyGenerator c.req) pre hpre
  have h2 := memoryRecent_length_le o (memoryRun o Hits.empty pre) c
  have h3 : max 0 o.max = o.max := max_eq_right hmax
  omega

/-- Witness for C1: `max = 1`, `windowMs = 1000`, calls at 0 (allowed) and 1
(rejected with count 2). -/
theorem memoryRateLimiter_first_reject_count_le_witness :
    Effect.next none ∉ (memoryRateLimiter { windowMs := 1000, max := 1 }
        (memoryRun { windowMs := 1000, max := 1 } Hits.empty [{ req := {}, now := 0 }])
        { req := {}, now := 1 }).2
    ∧ ((memoryRecent { windowMs := 1000, max := 1 }
        (memoryRun { windowMs := 1000, max := 1 } Hits.empty [{ req := {}, now := 0 }])
        { req := {}, now := 1 }).length : Int) ≤ 1 + 1 :=
  ⟨by decide,
   memoryRateLimiter_first_reject_count_le { windowMs := 1000, max := 1 } (by decide)
    [{ req := {}, now := 0 }] { req := {}, now := 1 } (by decide) (by decide)⟩

/-! ### Redis rate limiter -/

theorem redisRun_append (o : RedisRateLimiterOptions) (s : RedisStore) (xs ys : List RedisCall) :
    redisRun o s (xs ++ ys) = redisRun o (redisRun o s xs) ys := by
  induction xs generalizing s with
  | nil => rfl
  | cons x xs ih => simp [redisRun, ih]

theorem rejectEffects_status429 (hook : Option (Req → Res → Res)) (req : Req) (res : Res)
    (h : headersSentAtCheck hook req res = false) :
    Effect.status429 ∈ rejectEffects hook req res := by
  unfold headersSentAtCheck at h
  unfold rejectEffects
  cases hook with
  | none => simp only at h ⊢; simp [h]
  | some f => simp only at h ⊢; simp [h]

theorem RedisStore.incr_of_dead (s : RedisStore) (now : Int) (key : String)
    (h : s.live now key = none) :
    s.incr now key = (s.set key { value := 1, expireAt := none }, 1) := by
  unfold RedisStore.incr
  rw [h]

theorem RedisStore.incr_of_live (s : RedisStore) (now : Int) (key : String) (e : RedisEntry)
    (h : s.live now key = some e) :
    s.incr now key = (s.set key { e with value := e.value + 1 }, e.value + 1) := by
  unfold RedisStore.incr
  rw [h]

theorem RedisStore.set_same (s : RedisStore) (key : String) (e : RedisEntry) :
    s.set key e key = some e := by
  simp [RedisStore.set]

theorem RedisStore.live_set_noTtl (s : RedisStore) (now : Int) (key : String) (v : Int) :
    (s.set key { value := v, expireAt := none }).live now key
      = some { value := v, expireAt := none } := by
  simp [RedisStore.live, RedisStore.set]

theorem RedisStore.expire_fresh (s : RedisStore) (now : Int) (key : String) (v ttl : Int)
    (httl : 0 < ttl) :
    (s.set key { value := v, expireAt := none }).expire now key ttl key
      = some { value := v, expireAt := some (now + ttl * 1000) } := by
  unfold RedisStore.expire
  rw [RedisStore.live_set_noTtl]
  simp only [not_le.mpr httl, if_false]
  exact RedisStore.set_same _ _ _

theorem redisRateLimiter_effects_of_le (o : RedisRateLimiterOptions) (t : RedisStore)
    (c : RedisCall) (current : Int) (h : current ≤ o.max) :
    (if current > o.max then (t, rejectEffects o.onLimitReached c.req c.res)
      else (t, [Effect.next none])) = (t, [Effect.next none]) := by
  rw [if_neg (by omega)]

/-- A call on a key that is absent (or expired) at `now`, with a positive TTL
and no store failure: the key is created with value 1 and expiry
`now + ttl * 1000`, and the request is allowed when `1 ≤ max`. -/
theorem redisRateLimiter_fresh (o : RedisRateLimiterOptions) (s : RedisStore) (c : RedisCall)
    (hmax : 1 ≤ o.max) (httl : 0 < ttlSeconds o.windowMs)
    (hi : c.incrFails = none) (he : c.expireFails = none)
    (hdead : s.live c.now (o.keyPrefix ++ o.keyGenerator c.req) = none) :
    (redisRateLimiter o s c).1 (o.keyPrefix ++ o.keyGenerator c.req)
        = some { value := 1, expireAt := some (c.now + ttlSeconds o.windowMs * 1000) }
      ∧ (redisRateLimiter o s c).2 = [Effect.next none] := by
  unfold redisRateLimiter
  simp only [hi, he, RedisStore.incr_of_dead _ _ _ hdead, if_true]
  rw [redisRateLimiter_effects_of_le o _ c 1 hmax]
  exact ⟨RedisStore.expire_fresh _ _ _ _ _ httl, rfl⟩

/-- A call on a key that is live with value `v ≥ 1` and expiry `e > now`, with
no store failure: the value becomes `v + 1`, the expiry is unchanged, and the
request is allowed iff `v + 1 ≤ max`. -/
theorem redisRateLimiter_live (o : RedisRateLimiterOptions) (s : RedisStore) (c : RedisCall)
    (v e : Int) (hv : 1 ≤ v) (hi : c.incrFails = none)
    (hs : s (o.keyPrefix ++ o.keyGenerator c.req) = some { value := v, expireAt := some e })
    (hnow : c.now < e) :
    (redisRateLimiter o s c).1 (o.keyPrefix ++ o.keyGenerator c.req)
        = some { value := v + 1, expireAt := some e }
      ∧ (redisRateLimiter o s c).2
        = if v + 1 > o.max then rejectEffects o.onLimitReached c.req c.res
          else [Effect.next none] := by
  have hlive : s.live c.now (o.keyPrefix ++ o.keyGenerator c.req)
      = some { value := v, expireAt := some e } := by
    simp [RedisStore.live, hs, not_le.mpr hnow]
  have hne : ¬ v + 1 = 1 := by omega
  unfold redisRateLimiter
  simp only [hi, RedisStore.incr_of_live _ _ _ _ hlive, hne, if_false]
  split
  · exact ⟨RedisStore.set_same _ _ _, rfl⟩
  · exact ⟨RedisStore.set_same _ _ _, rfl⟩

/-- Running calls of one key inside the window from a live entry only counts
them. -/
theorem redisRun_live (o : RedisRateLimiterOptions) (key : String) (e : Int)
    (cs : List RedisCall) (s : RedisStore) (v : Int) (hv : 1 ≤ v)
    (hs : s (o.keyPrefix ++ key) = some { value := v, expireAt := some e })
    (hkey : ∀ c ∈ cs, o.keyGenerator c.req = key)
    (hok : ∀ c ∈ cs, c.incrFails = none)
    (hnow : ∀ c ∈ cs, c.now < e) :
    redisRun o s cs (o.keyPrefix ++ key)
      = some { value := v + cs.length, expireAt := some e } := by
  induction cs generalizing s v with
  | nil => simpa [redisRun] using hs
  | cons c cs ih =>
    have hk := hkey c (List.mem_cons_self _ _)
    have h1 := (redisRateLimiter_live o s c v e hv (hok c (List.mem_cons_self _ _))
      (by rw [hk]; exact hs) (hnow c (List.mem_cons_self _ _))).1
    rw [hk] at h1
    have h2 := ih (redisRateLimiter o s c).1 (v + 1) (by omega) h1
      (fun x hx => hkey x (List.mem_cons_of_mem _ hx))
      (fun x hx => hok x (List.mem_cons_of_mem _ hx))
      (fun x hx => hnow x (List.mem_cons_of_mem _ hx))
    simp only [redisRun, List.length_cons, Nat.cast_add, Nat.cast_one]
    rw [h2]
    congr 2
    omega

/-- C2: Redis limiter over a store with atomic INCR and expiring keys and no
store failure. For every integer `max ≥ 1` and a key absent at the start, let
`c0 :: cs` be requests of that key that all arrive before the TTL set by the
first one elapses (`now < c0.now + ttl * 1000`), and `late` a request of the key
arriving once it has elapsed. Then request number `i + 1` calls `next()` when
`i + 1 ≤ max`; every later one of `c0 :: cs`, in particular number `max + 1`,
does not call `next` and gets the 429 response (`res.headersSent` being false
when the limiter reads it); and `late` is allowed again, the counter
restarting at 1 with a new TTL. -/
theorem redisRateLimiter_fixed_window (o : RedisRateLimiterOptions) (hmax : 1 ≤ o.max)
    (store : RedisStore) (key : String) (c0 : RedisCall) (cs : List RedisCall)
    (late : RedisCall)
    (habsent : store (o.keyPrefix ++ key) = none)
    (hkey : ∀ c ∈ c0 :: (cs ++ [late]), o.keyGenerator c.req = key)
    (hok : ∀ c ∈ c0 :: (cs ++ [late]), c.incrFails = none ∧ c.expireFails = none)
    (hwin : ∀ c ∈ c0 :: cs, c.now < c0.now + ttlSeconds o.windowMs * 1000)
    (hlate : c0.now + ttlSeconds o.windowMs * 1000 ≤ late.now) :
    (∀ i (hi : i < (c0 :: cs).length),
      ((i : Int) < o.max →
        (redisRateLimiter o (redisRun o store ((c0 :: cs).take i)) (c0 :: cs)[i]).2
          = [Effect.next none])
      ∧ (o.max ≤ (i : Int) →
        (∀ e, Effect.next e ∉
          (redisRateLimiter o (redisRun o store ((c0 :: cs).take i)) (c0 :: cs)[i]).2)
        ∧ (headersSentAtCheck o.onLimitReached (c0 :: cs)[i].req (c0 :: cs)[i].res = false →
          Effect.status429 ∈
            (redisRateLimiter o (redisRun o store ((c0 :: cs).take i)) (c0 :: cs)[i]).2)))
    ∧ (redisRateLimiter o (redisRun o store (c0 :: cs)) late).2 = [Effect.next none]
    ∧ (redisRateLimiter o (redisRun o store (c0 :: cs)) late).1 (o.keyPrefix ++ key)
        = some { value := 1, expireAt := some (late.now + ttlSeconds o.windowMs * 1000) } := by
  have httl : 0 < ttlSeconds o.windowMs := by
    have := hwin c0 (List.mem_cons_self _ _)
    omega
  have hk0 : o.keyGenerator c0.req = key := hkey c0 (List.mem_cons_self _ _)
  have hdead0 : store.live c0.now (o.keyPrefix ++ o.keyGenerator c0.req) = none := by
    simp [RedisStore.live, hk0, habsent]
  have hfirst := redisRateLimiter_fresh o store c0 hmax httl
    (hok c0 (List.mem_cons_self _ _)).1 (hok c0 (List.mem_cons_self _ _)).2 hdead0
  rw [hk0] at hfirst
  have hmemcs : ∀ c ∈ cs, c ∈ c0 :: (cs ++ [late]) := fun c hc =>
    List.mem_cons_of_mem _ (List.mem_append_left _ hc)
  -- the state after `c0` and the first `j` calls of `cs`
  have hstate : ∀ j, j ≤ cs.length →
      redisRun o (redisRateLimiter o store c0).1 (cs.take j) (o.keyPrefix ++ key)
        = some { value := 1 + (j : Int),
                 expireAt := some (c0.now + ttlSeconds o.windowMs * 1000) } := by
    intro j hj
    have h := redisRun_live o key (c0.now + ttlSeconds o.windowMs * 1000) (cs.take j)
      (redisRateLimiter o store c0).1 1 (le_refl _) hfirst.1
      (fun c hc => hkey c (hmemcs c (List.mem_of_mem_take hc)))
      (fun c hc => (hok c (hmemcs c (List.mem_of_mem_take hc))).1)
      (fun c hc => hwin c (List.mem_cons_of_mem _ (List.mem_of_mem_take hc)))
    rw [h, List.length_take, Nat.min_eq_left hj]
  refine ⟨?_, ?_⟩
  · intro i hi
    cases i with
    | zero =>
      simp only [List.take_zero, redisRun, List.getElem_cons_zero]
      refine ⟨fun _ => hfirst.2, fun h => ?_⟩
      simp only [Nat.cast_zero] at h
      omega
    | succ j =>
      have hj : j < cs.length := by simpa using hi
      simp only [List.take_succ_cons, redisRun, List.getElem_cons_succ]
      have hkj : o.keyGenerator cs[j].req = key := hkey _ (hmemcs _ (List.getElem_mem _))
      have hs := hstate j (Nat.le_of_lt hj)
      have hl := redisRateLimiter_live o
        (redisRun o (redisRateLimiter o store c0).1 (cs.take j)) cs[j] (1 + (j : Int))
        (c0.now + ttlSeconds o.windowMs * 1000) (by omega)
        (hok _ (hmemcs _ (List.getElem_mem _))).1 (by rw [hkj]; exact hs)
        (hwin _ (List.mem_cons_of_mem _ (List.getElem_mem _)))
      rw [hl.2]
      refine ⟨fun h => ?_, fun h => ?_⟩
      · rw [if_neg]
        push_cast at h
        omega
      · rw [if_pos (by push_cast at h; omega)]
        exact ⟨fun e => rejectEffects_no_next _ _ _ e, rejectEffects_status429 _ _ _⟩
  · have hkl : o.keyGenerator late.req = key :=
      hkey late (List.mem_cons_of_mem _ (List.mem_append_right _ (List.mem_singleton_self _)))
    have hokl := hok late
      (List.mem_cons_of_mem _ (List.mem_append_right _ (List.mem_singleton_self _)))
    have hs := hstate cs.length (le_refl _)
    rw [List.take_length] at hs
    have hdead : (redisRun o store (c0 :: cs)).live late.now
        (o.keyPrefix ++ o.keyGenerator late.req) = none := by
      simp only [redisRun, RedisStore.live, hkl, hs]
      simp [hlate]
    have h := redisRateLimiter_fresh o (redisRun o store (c0 :: cs)) late hmax httl
      hokl.1 hokl.2 hdead
    rw [hkl] at h
    exact ⟨h.2, h.1⟩

/-- Witness for C2: `max = 5`, `windowMs = 1000`; six requests at clock reading
0 and a seventh at 1000. The fifth passes, the sixth gets the 429 response and
the seventh passes. -/
theorem redisRateLimiter_fixed_window_witness :
    (redisRateLimiter { max := 5, windowMs := 1000 }
        (redisRun { max := 5, windowMs := 1000 } RedisStore.empty
          (List.replicate 4 { req := {}, now := 0 }))
        { req := {}, now := 0 }).2 = [Effect.next none]
    ∧ (redisRateLimiter { max := 5, windowMs := 1000 }
        (redisRun { max := 5, windowMs := 1000 } RedisStore.empty
          (List.replicate 5 { req := {}, now := 0 }))
        { req := {}, now := 0 }).2 = [Effect.status429]
    ∧ (redisRateLimiter { max := 5, windowMs := 1000 }
        (redisRun { max := 5, windowMs := 1000 } RedisStore.empty
          (List.replicate 6 { req := {}, now := 0 }))
        { req := {}, now := 1000 }).2 = [Effect.next none] :=
  have h := redisRateLimiter_fixed_window { max := 5, windowMs := 1000 } (by decide)
    RedisStore.empty "global" { req := {}, now := 0 }
    (List.replicate 5 { req := {}, now := 0 }) { req := {}, now := 1000 }
    (by decide) (by decide) (by decide) (by decide) (by decide)
  ⟨(h.1 4 (by decide)).1 (by decide), by decide, h.2.1⟩

/-! ### Replay guard -/

theorem replayRun_append (u : Used) (xs ys : List VerifyCall) :
    replayRun u (xs ++ ys) = replayRun (replayRun u xs) ys := by
  induction xs generalizing u with
  | nil => rfl
  | cons x xs ih => simp [replayRun, ih]

/-- A token with a live non-zero entry `e > now` is rejected and the map is
unchanged. -/
theorem verify_of_gt (u : Used) (token : String) (now e : Int)
    (hu : u token = some e) (he : e ≠ 0) (hgt : now < e) :
    createReplayStoreMemory.verify u token now = (false, u) := by
  unfold createReplayStoreMemory.verify
  rw [hu]
  simp only
  rw [if_pos ⟨he, hgt⟩]

/-- A token whose entry has been reached (`e ≤ now`) is accepted and stored
with expiry `now + 30000`. -/
theorem verify_of_le (u : Used) (token : String) (now e : Int)
    (hu : u token = some e) (hle : e ≤ now) :
    createReplayStoreMemory.verify u token now = (true, u.set token (now + 30000)) := by
  unfold createReplayStoreMemory.verify
  rw [hu]
  simp only
  rw [if_neg (by intro h; omega)]

theorem verify_of_none (u : Used) (token : String) (now : Int) (hu : u token = none) :
    createReplayStoreMemory.verify u token now = (true, u.set token (now + 30000)) := by
  unfold createReplayStoreMemory.verify
  rw [hu]

/-- A call on another token leaves the entry of `token` as it is. -/
theorem verify_other (u : Used) (token other : String) (now : Int) (h : other ≠ token) :
    (createReplayStoreMemory.verify u other now).2 token = u token := by
  unfold createReplayStoreMemory.verify
  cases u other with
  | none => simp [Used.set, Ne.symm h]
  | some prev =>
    simp only
    split <;> simp [Used.set, Ne.symm h]

/-- After any call the positive entry of a token is still there, or has been
replaced by a later positive one. -/
theorem verify_entry_mono (u : Used) (token : String) (e : Int) (c : VerifyCall)
    (hu : u token = some e) (he : 0 < e) (hc : 0 ≤ c.now) :
    ∃ e1, (createReplayStoreMemory.verify u c.token c.now).2 token = some e1
      ∧ e ≤ e1 ∧ 0 < e1 := by
  by_cases hk : c.token = token
  · rw [hk]
    by_cases hgt : c.now < e
    · rw [verify_of_gt u token c.now e hu (by omega) hgt]
      exact ⟨e, hu, le_refl _, he⟩
    · rw [verify_of_le u token c.now e hu (by omega)]
      exact ⟨c.now + 30000, by simp [Used.set], by omega, by omega⟩
  · rw [verify_other u token c.token c.now hk]
    exact ⟨e, hu, le_refl _, he⟩

/-- From a state in which `token` has a positive entry `e`, whatever calls come
in between, an accepted verify of `token` happens at a clock reading `≥ e`. -/
theorem replayRun_accept_ge (mid : List VerifyCall) (u : Used) (token : String) (e : Int)
    (now : Int) (hu : u token = some e) (he : 0 < e) (hmid : ∀ c ∈ mid, 0 ≤ c.now)
    (hacc : (createReplayStoreMemory.verify (replayRun u mid) token now).1 = true) :
    e ≤ now := by
  induction mid generalizing u e with
  | nil =>
    by_contra hlt
    rw [replayRun, verify_of_gt u token now e hu (by omega) (by omega)] at hacc
    exact Bool.false_ne_true hacc
  | cons c cs ih =>
    obtain ⟨e1, h1, h2, h3⟩ := verify_entry_mono u token e c hu he
      (hmid c (List.mem_cons_self _ _))
    have := ih (createReplayStoreMemory.verify u c.token c.now).2 e1 h1 h3
      (fun x hx => hmid x (List.mem_cons_of_mem _ hx)) hacc
    omega

theorem verify_false_state (u : Used) (token : String) (now : Int)
    (h : (createReplayStoreMemory.verify u token now).1 = false) :
    (createReplayStoreMemory.verify u token now).2 = u := by
  unfold createReplayStoreMemory.verify at h ⊢
  cases hu : u token with
  | none => rw [hu] at h; simp at h
  | some prev =>
    rw [hu] at h
    simp only at h ⊢
    split
    · rfl
    · rename_i hn
      rw [if_neg hn] at h
      simp at h

theorem verify_true_entry (u : Used) (token : String) (now : Int)
    (h : (createReplayStoreMemory.verify u token now).1 = true) :
    (createReplayStoreMemory.verify u token now).2 token = some (now + 30000) := by
  unfold createReplayStoreMemory.verify at h ⊢
  cases hu : u token with
  | none => simp [Used.set]
  | some prev =>
    rw [hu] at h
    simp only at h ⊢
    split
    · rename_i hp
      rw [if_pos hp] at h
      simp at h
    · simp [Used.set]

/-- While no verify of `token` is accepted, its entry stays as it is. -/
theorem replayRun_entry_of_no_accept (mid : List VerifyCall) (u : Used) (token : String)
    (hmid : ∀ i (hi : i < mid.length), mid[i].token = token →
      (createReplayStoreMemory.verify (replayRun u (mid.take i)) mid[i].token mid[i].now).1
        = false) :
    replayRun u mid token = u token := by
  induction mid generalizing u with
  | nil => rfl
  | cons c cs ih =>
    have h0 := hmid 0 (by simp)
    simp only [List.take_zero, replayRun, List.getElem_cons_zero] at h0
    have hstep : (createReplayStoreMemory.verify u c.token c.now).2 token = u token := by
      by_cases hk : c.token = token
      · rw [verify_false_state u c.token c.now (h0 hk)]
      · exact verify_other u token c.token c.now hk
    have hrest := ih (createReplayStoreMemory.verify u c.token c.now).2 (by
      intro i hi hk
      have h := hmid (i + 1) (by simpa using hi)
      simp only [List.take_succ_cons, replayRun, List.getElem_cons_succ] at h
      exact h hk)
    simp only [replayRun]
    rw [hrest, hstep]

/-- C3: in-memory replay store. For every ticket `tk` (any token string, any
declared `ttl`), every clock reading `t ≥ 0` and every store that has not seen
the token: `verify` at `t` returns true; after any further calls among which
no verify of the token is accepted, a verify of the token at any `t1 < t + 30000`
returns false and one at any `t1 ≥ t + 30000` returns true. The lifetime is
30000 ms whatever `tk.ttl` is. -/
theorem replayMemory_lifetime (tk : ReplayToken) (used : Used) (t : Int) (ht : 0 ≤ t)
    (hunseen : used tk.token = none) (mid : List VerifyCall)
    (hmid : ∀ i (hi : i < mid.length), mid[i].token = tk.token →
      (createReplayStoreMemory.verify
        (replayRun (createReplayStoreMemory.verify used tk.token t).2 (mid.take i))
        mid[i].token mid[i].now).1 = false) :
    (createReplayStoreMemory.verify used tk.token t).1 = true
    ∧ ∀ t1 : Int,
      (t1 < t + 30000 →
        (createReplayStoreMemory.verify
          (replayRun (createReplayStoreMemory.verify used tk.token t).2 mid)
          tk.token t1).1 = false)
      ∧ (t + 30000 ≤ t1 →
        (createReplayStoreMemory.verify
          (replayRun (createReplayStoreMemory.verify used tk.token t).2 mid)
          tk.token t1).1 = true) := by
  have h1 : (createReplayStoreMemory.verify used tk.token t).1 = true := by
    rw [verify_of_none used tk.token t hunseen]
  have hentry := replayRun_entry_of_no_accept mid
    (createReplayStoreMemory.verify used tk.token t).2 tk.token hmid
  rw [verify_true_entry used tk.token t h1] at hentry
  refine ⟨h1, fun t1 => ⟨fun hlt => ?_, fun hge => ?_⟩⟩
  · rw [verify_of_gt _ tk.token t1 (t + 30000) hentry (by omega) hlt]
  · rw [verify_of_le _ tk.token t1 (t + 30000) hentry hge]

/-- Witness for C3: a ticket created with `ttlMs = 1000`, verified at 5; after a
call on another token and a rejected call on the same one, a verify at 1005
(past the declared TTL) is rejected and one at 30005 is accepted. -/
theorem replayMemory_lifetime_witness :
    (createReplayStoreMemory.verify createReplayStoreMemory
      (createReplayToken "ab12" 5 (some 1000)).token 5).1 = true
    ∧ (createReplayStoreMemory.verify
        (replayRun (createReplayStoreMemory.verify createReplayStoreMemory
            (createReplayToken "ab12" 5 (some 1000)).token 5).2
          [{ token := "other", now := 6 },
           { token := (createReplayToken "ab12" 5 (some 1000)).token, now := 7 }])
        (createReplayToken "ab12" 5 (some 1000)).token 1005).1 = false
    ∧ (createReplayStoreMemory.verify
        (replayRun (createReplayStoreMemory.verify createReplayStoreMemory
            (createReplayToken "ab12" 5 (some 1000)).token 5).2
          [{ token := "other", now := 6 },
           { token := (createReplayToken "ab12" 5 (some 1000)).token, now := 7 }])
        (createReplayToken "ab12" 5 (some 1000)).token 30005).1 = true :=
  have h := replayMemory_lifetime (createReplayToken "ab12" 5 (some 1000))
    createReplayStoreMemory 5 (by decide) (by decide)
    [{ token := "other", now := 6 },
     { token := (createReplayToken "ab12" 5 (some 1000)).token, now := 7 }] (by decide)
  ⟨h.1, (h.2 1005).1 (by decide), (h.2 30005).2 (by decide)⟩

/-- C4: single use in the in-memory replay store. In every sequence of verify
calls on any mix of tokens, made from a fresh store with non-negative,
non-decreasing clock readings, two calls `ci` (earlier) and `cj` (later) on the
same token that both return true are at least 30000 ms apart, whatever calls
`pre` come before and `mid` in between. -/
theorem replayMemory_single_use (pre mid : List VerifyCall) (ci cj : VerifyCall)
    (hnonneg : ∀ c ∈ pre ++ ci :: (mid ++ [cj]), 0 ≤ c.now)
    (hmono : (pre ++ ci :: (mid ++ [cj])).Pairwise (fun a b => a.now ≤ b.now))
    (htok : ci.token = cj.token)
    (hi : (createReplayStoreMemory.verify (replayRun createReplayStoreMemory pre)
      ci.token ci.now).1 = true)
    (hj : (createReplayStoreMemory.verify
      (replayRun createReplayStoreMemory (pre ++ ci :: mid)) cj.token cj.now).1 = true) :
    ci.now + 30000 ≤ cj.now := by
  have _ := hmono
  have hci : 0 ≤ ci.now := hnonneg ci (by simp)
  have hentry := verify_true_entry _ ci.token ci.now hi
  rw [replayRun_append] at hj
  simp only [replayRun] at hj
  rw [← htok] at hj
  exact replayRun_accept_ge mid _ ci.token (ci.now + 30000) cj.now hentry (by omega)
    (fun c hc => hnonneg c (by simp [hc])) hj

/-- Witness for C4: token `T` accepted at 0, rejected at 20 (after a call on
`U` at 10), accepted again at 30000. -/
theorem replayMemory_single_use_witness :
    (createReplayStoreMemory.verify (replayRun createReplayStoreMemory []) "T" 0).1 = true
    ∧ (createReplayStoreMemory.verify (replayRun createReplayStoreMemory
        [{ token := "T", now := 0 }, { token := "U", now := 10 }, { token := "T", now := 20 }])
        "T" 30000).1 = true
    ∧ (VerifyCall.mk "T" 0).now + 30000 ≤ (VerifyCall.mk "T" 30000).now :=
  ⟨by decide, by decide,
   replayMemory_single_use [] [{ token := "U", now := 10 }, { token := "T", now := 20 }]
    { token := "T", now := 0 } { token := "T", now := 30000 }
    (by decide) (by decide) (by decide) (by decide) (by decide)⟩

/-! ### Fingerprint continuity score -/

/-- C5: for every pair of non-null component sets, the stability score is
`40*[ip equal] + 40*[uaHash equal] + 20*[lang equal]`: identical components
give exactly 100, a mismatch in exactly one field lowers 100 by that field's
weight (40, 40 or 20), and the score lies between 0 and 100. -/
theorem computeFingerprintStability_weights (prev current : FingerprintComponents) :
    computeFingerprintStability (some prev) (some current)
        = 40 * (if prev.ip = current.ip then 1 else 0)
          + 40 * (if prev.uaHash = current.uaHash then 1 else 0)
          + 20 * (if prev.lang = current.lang then 1 else 0)
    ∧ (prev.ip = current.ip → prev.uaHash = current.uaHash → prev.lang = current.lang →
        computeFingerprintStability (some prev) (some current) = 100)
    ∧ (prev.ip ≠ current.ip → prev.uaHash = current.uaHash → prev.lang = current.lang →
        computeFingerprintStability (some prev) (some current) = 100 - 40)
    ∧ (prev.ip = current.ip → prev.uaHash ≠ current.uaHash → prev.lang = current.lang →
        computeFingerprintStability (some prev) (some current) = 100 - 40)
    ∧ (prev.ip = current.ip → prev.uaHash = current.uaHash → prev.lang ≠ current.lang →
        computeFingerprintStability (some prev) (some current) = 100 - 20)
    ∧ 0 ≤ computeFingerprintStability (some prev) (some current)
    ∧ computeFingerprintStability (some prev) (some current) ≤ 100 := by
  simp only [computeFingerprintStability]
  by_cases h1 : prev.ip = current.ip <;> by_cases h2 : prev.uaHash = current.uaHash <;>
    by_cases h3 : prev.lang = current.lang <;> simp [h1, h2, h3]

/-! ### Attack detector -/

theorem pushStrings_eq (list : List String) (values : List JsVal) :
    pushStrings list values = list ++ stringValues values := by
  unfold pushStrings stringValues
  induction values generalizing list with
  | nil => simp
  | cons v vs ih =>
    rw [List.foldl_cons, ih]
    cases v <;> simp [List.filterMap_cons]

theorem extractStrings_eq (req : Req) : extractStrings req = scannedStrings req := by
  simp [extractStrings, scannedStrings, pushStrings_eq]

/-- No pattern of the four categories matches the empty string, so the guard
`if (!str) return false` of `matchAny` changes nothing. -/
theorem matchAny_eq (s : String) :
    matchAny s SQLI_PATTERNS = matchesSome SQLI_PATTERNS s
    ∧ matchAny s XSS_PATTERNS = matchesSome XSS_PATTERNS s
    ∧ matchAny s PATH_TRAVERSAL_PATTERNS = matchesSome PATH_TRAVERSAL_PATTERNS s
    ∧ matchAny s ENCODING_ATTACKS = matchesSome ENCODING_ATTACKS s := by
  by_cases h : s = ""
  · subst h
    decide
  · simp [matchAny, matchesSome, h]

theorem attackStep_eq (acc : Int × List String) (s : String) :
    attackStep acc s = (acc.1 + attackPoints s, acc.2 ++ attackReasons s) := by
  obtain ⟨h1, h2, h3, h4⟩ := matchAny_eq s
  unfold attackStep attackPoints attackReasons
  rw [h1, h2, h3, h4]
  cases matchesSome SQLI_PATTERNS s <;> cases matchesSome XSS_PATTERNS s <;>
    cases matchesSome PATH_TRAVERSAL_PATTERNS s <;> cases matchesSome ENCODING_ATTACKS s <;>
    simp <;> omega

theorem foldl_attackStep (strings : List String) (acc : Int × List String) :
    strings.foldl attackStep acc
      = (acc.1 + (strings.map attackPoints).sum, acc.2 ++ strings.flatMap attackReasons) := by
  induction strings generalizing acc with
  | nil => simp
  | cons x xs ih =>
    rw [List.foldl_cons, ih, attackStep_eq]
    simp only [List.map_cons, List.sum_cons, List.flatMap_cons, List.append_assoc]
    congr 1
    omega

theorem attackPoints_nonneg (s : String) : 0 ≤ attackPoints s := by
  unfold attackPoints
  split <;> split <;> split <;> split <;> omega

theorem attackPoints_sum_nonneg (strings : List String) :
    0 ≤ (strings.map attackPoints).sum := by
  induction strings with
  | nil => simp
  | cons x xs ih =>
    have := attackPoints_nonneg x
    simp only [List.map_cons, List.sum_cons]
    omega

theorem attackPoints_le_sum (strings : List String) (s : String) (hs : s ∈ strings) :
    attackPoints s ≤ (strings.map attackPoints).sum := by
  induction strings with
  | nil => cases hs
  | cons x xs ih =>
    simp only [List.map_cons, List.sum_cons]
    rcases List.mem_cons.1 hs with h | h
    · subst h
      have := attackPoints_sum_nonneg xs
      omega
    · have := ih h
      have := attackPoints_nonneg x
      omega

/-- The result of `detectAttack` on a request with a headers map. -/
theorem detectAttack_eq (req : Req) (headers : List (String × String))
    (hh : req.headers = some headers) :
    detectAttack req = Except.ok
      { ip := getClientIp req {}
        userAgent := (headers.lookup "user-agent").getD ""
        score := ((scannedStrings req).map attackPoints).sum
          + (if userAgentSuspicious (headers.lookup "user-agent") then 10 else 0)
        isAttack := decide (((scannedStrings req).map attackPoints).sum
          + (if userAgentSuspicious (headers.lookup "user-agent") then 10 else 0) ≥ 40)
        reasons := (scannedStrings req).flatMap attackReasons
          ++ (if userAgentSuspicious (headers.lookup "user-agent")
              then ["Suspicious User-Agent"] else []) } := by
  have hua : (((headers.lookup "user-agent").getD "" = ""
      ∨ jsLength ((headers.lookup "user-agent").getD "") < 10))
      ↔ userAgentSuspicious (headers.lookup "user-agent") = true := by
    cases h : headers.lookup "user-agent" with
    | none => simp [userAgentSuspicious]
    | some u =>
      simp only [Option.getD_some, userAgentSuspicious, decide_eq_true_eq]
      constructor
      · rintro (h1 | h1)
        · subst h1
          decide
        · exact h1
      · exact Or.inr
  unfold detectAttack
  simp only [hh, extractStrings_eq, foldl_attackStep]
  by_cases hs : userAgentSuspicious (headers.lookup "user-agent") = true
  · simp [hs, hua.2 hs]
  · rw [if_neg (fun h => hs (hua.1 h))]
    simp [hs]

theorem mem_stringValues (values : List JsVal) (s : String) (h : JsVal.str s ∈ values) :
    s ∈ stringValues values := by
  unfold stringValues
  exact List.mem_filterMap.2 ⟨JsVal.str s, h, rfl⟩

theorem mem_scannedStrings (req : Req) (s : String) (h : req.hasTopLevelString s) :
    s ∈ scannedStrings req := by
  unfold scannedStrings
  rcases h with ⟨m, k, hq, hm⟩ | ⟨m, k, hp, hm⟩ | ⟨fields, k, hb, hm⟩ | ⟨items, hb, hm⟩
  · refine List.mem_append_left _ (List.mem_append_left _ (mem_stringValues _ _ ?_))
    rw [hq]
    exact List.mem_map.2 ⟨(k, JsVal.str s), hm, rfl⟩
  · refine List.mem_append_left _ (List.mem_append_right _ (mem_stringValues _ _ ?_))
    rw [hp]
    exact List.mem_map.2 ⟨(k, JsVal.str s), hm, rfl⟩
  · refine List.mem_append_right _ (mem_stringValues _ _ ?_)
    rw [hb]
    exact List.mem_map.2 ⟨(k, JsVal.str s), hm, rfl⟩
  · refine List.mem_append_right _ (mem_stringValues _ _ ?_)
    rw [hb]
    exact hm

/-- A scanned string worth at least 40 points makes the request an attack, and
its reasons are among the reasons returned. -/
theorem detectAttack_of_scanned (req : Req) (headers : List (String × String))
    (hh : req.headers = some headers) (s reason : String) (hs : s ∈ scannedStrings req)
    (hp : 40 ≤ attackPoints s) (hr : reason ∈ attackReasons s) :
    ∃ r, detectAttack req = Except.ok r ∧ r.isAttack = true ∧ reason ∈ r.reasons := by
  refine ⟨_, detectAttack_eq req headers hh, ?_, ?_⟩
  · have h1 := attackPoints_le_sum (scannedStrings req) s hs
    simp only [decide_eq_true_eq, ge_iff_le]
    split <;> omega
  · exact List.mem_append_left _ (List.mem_flatMap.2 ⟨s, hs, hr⟩)

/-- C6: for every request with a headers map in which some top-level string
value of query, params or body is `' OR 1=1 --`, `detectAttack` returns
`isAttack = true` and a reasons list containing `Possible SQL injection`; and
if some such value is `<script>alert(1)</script>`, it returns `isAttack = true`
and a reasons list containing `Possible XSS attack`; whatever the other fields,
headers and address are. -/
theorem detectAttack_flags_sqli_and_xss (req : Req) (headers : List (String × String))
    (hh : req.headers = some headers) :
    (req.hasTopLevelString "' OR 1=1 --" →
      ∃ r, detectAttack req = Except.ok r ∧ r.isAttack = true
        ∧ "Possible SQL injection" ∈ r.reasons)
    ∧ (req.hasTopLevelString "<script>alert(1)</script>" →
      ∃ r, detectAttack req = Except.ok r ∧ r.isAttack = true
        ∧ "Possible XSS attack" ∈ r.reasons) := by
  constructor
  · intro h
    exact detectAttack_of_scanned req headers hh _ _ (mem_scannedStrings req _ h)
      (by decide) (by decide)
  · intro h
    exact detectAttack_of_scanned req headers hh _ _ (mem_scannedStrings req _ h)
      (by decide) (by decide)

/-- Witness for C6: the SQL string as a query value, the script string as a
body field, next to other fields, with a browser user-agent. -/
theorem detectAttack_flags_sqli_and_xss_witness :
    (∃ r, detectAttack
        { headers := some [("user-agent", "Mozilla/5.0 (X11; Linux x86_64)")]
          query := some [("page", JsVal.num 2), ("q", JsVal.str "' OR 1=1 --")]
          body := JsVal.obj [("note", JsVal.str "<script>alert(1)</script>")] } = Except.ok r
      ∧ r.isAttack = true ∧ "Possible SQL injection" ∈ r.reasons)
    ∧ (∃ r, detectAttack
        { headers := some [("user-agent", "Mozilla/5.0 (X11; Linux x86_64)")]
          query := some [("page", JsVal.num 2), ("q", JsVal.str "' OR 1=1 --")]
          body := JsVal.obj [("note", JsVal.str "<script>alert(1)</script>")] } = Except.ok r
      ∧ r.isAttack = true ∧ "Possible XSS attack" ∈ r.reasons) :=
  have h := detectAttack_flags_sqli_and_xss
    { headers := some [("user-agent", "Mozilla/5.0 (X11; Linux x86_64)")]
      query := some [("page", JsVal.num 2), ("q", JsVal.str "' OR 1=1 --")]
      body := JsVal.obj [("note", JsVal.str "<script>alert(1)</script>")] }
    [("user-agent", "Mozilla/5.0 (X11; Linux x86_64)")] rfl
  ⟨h.1 (Or.inl ⟨_, "q", rfl, by simp⟩),
   h.2 (Or.inr (Or.inr (Or.inl ⟨_, "note", rfl, by simp⟩)))⟩

/-- C7: on a request with a headers map, `detectAttack` returns a result whose
score is the uncapped sum, over the scanned strings in the order query values,
params values, body values, of 40 (SQL injection) + 40 (XSS) + 30 (path
traversal) + 10 (suspicious encoding) for the categories the string matches,
plus 10 once if the user-agent is missing or shorter than 10 characters;
`reasons` holds one string per contribution in that order, the user-agent
reason last; `isAttack` holds iff `score ≥ 40`. A request none of whose scanned
strings matches any pattern and whose user-agent has at least 10 characters
gets score 0, no reasons and `isAttack = false`. -/
theorem detectAttack_score_spec (req : Req) (headers : List (String × String))
    (hh : req.headers = some headers) :
    ∃ r, detectAttack req = Except.ok r
      ∧ r.score = ((scannedStrings req).map attackPoints).sum
          + (if userAgentSuspicious (headers.lookup "user-agent") then 10 else 0)
      ∧ r.reasons = (scannedStrings req).flatMap attackReasons
          ++ (if userAgentSuspicious (headers.lookup "user-agent")
              then ["Suspicious User-Agent"] else [])
      ∧ (r.isAttack = true ↔ 40 ≤ r.score)
      ∧ ((∀ s ∈ scannedStrings req,
            matchesSome SQLI_PATTERNS s = false ∧ matchesSome XSS_PATTERNS s = false
            ∧ matchesSome PATH_TRAVERSAL_PATTERNS s = false
            ∧ matchesSome ENCODING_ATTACKS s = false) →
          (∃ u, headers.lookup "user-agent" = some u ∧ 10 ≤ jsLength u) →
          r.score = 0 ∧ r.reasons = [] ∧ r.isAttack = false) := by
  refine ⟨_, detectAttack_eq req headers hh, rfl, rfl, ?_, ?_⟩
  · simp only [decide_eq_true_eq, ge_iff_le]
  · intro hnone hua
    obtain ⟨u, hu, hlen⟩ := hua
    have hsusp : userAgentSuspicious (headers.lookup "user-agent") = false := by
      rw [hu]
      simp only [userAgentSuspicious, decide_eq_false_iff_not]
      omega
    have hpts : ∀ s ∈ scannedStrings req, attackPoints s = 0 := by
      intro s hs
      obtain ⟨h1, h2, h3, h4⟩ := hnone s hs
      simp [attackPoints, h1, h2, h3, h4]
    have hrs : ∀ s ∈ scannedStrings req, attackReasons s = [] := by
      intro s hs
      obtain ⟨h1, h2, h3, h4⟩ := hnone s hs
      simp [attackReasons, h1, h2, h3, h4]
    have hsum : ((scannedStrings req).map attackPoints).sum = 0 := by
      generalize scannedStrings req = l at hpts
      induction l with
      | nil => rfl
      | cons x xs ih =>
        simp only [List.map_cons, List.sum_cons]
        rw [hpts x (List.mem_cons_self _ _), ih (fun s hs => hpts s (List.mem_cons_of_mem _ hs))]
        rfl
    have hflat : (scannedStrings req).flatMap attackReasons = [] := by
      generalize scannedStrings req = l at hrs
      induction l with
      | nil => rfl
      | cons x xs ih =>
        simp only [List.flatMap_cons]
        rw [hrs x (List.mem_cons_self _ _), ih (fun s hs => hrs s (List.mem_cons_of_mem _ hs))]
        rfl
    simp only [hsusp, hsum, hflat]
    simp

/-- Witness for C7: a query value matching the SQL and the XSS category, a
clean params value, a body value with an encoded slash, and a short
user-agent: 40 + 40 + 10 + 10 = 100. -/
theorem detectAttack_score_spec_witness :
    ∃ r, detectAttack
        { headers := some [("user-agent", "curl/8.0")]
          query := some [("q", JsVal.str "' OR 1=1 -- <script>alert(1)</script>")]
          params := some [("id", JsVal.str "42")]
          body := JsVal.obj [("path", JsVal.str "a%2Fb"), ("n", JsVal.num 3)] } = Except.ok r
      ∧ r.score = 100
      ∧ r.reasons = ["Possible SQL injection", "Possible XSS attack",
          "Suspicious encoding detected", "Suspicious User-Agent"]
      ∧ r.isAttack = true := by
  obtain ⟨r, h1, h2, h3, h4, _⟩ := detectAttack_score_spec
    { headers := some [("user-agent", "curl/8.0")]
      query := some [("q", JsVal.str "' OR 1=1 -- <script>alert(1)</script>")]
      params := some [("id", JsVal.str "42")]
      body := JsVal.obj [("path", JsVal.str "a%2Fb"), ("n", JsVal.num 3)] }
    [("user-agent", "curl/8.0")] rfl
  have hs : r.score = 100 := by rw [h2]; decide
  refine ⟨r, h1, hs, ?_, ?_⟩
  · rw [h3]; decide
  · rw [h4, hs]; decide

/-! ### Bot detector -/

theorem dropWhile_eq_nil_iff_all (p : Char → Bool) (l : List Char) :
    l.dropWhile p = [] ↔ ∀ c ∈ l, p c = true := by
  induction l with
  | nil => simp
  | cons x xs ih =>
    by_cases hx : p x = true
    · simp [List.dropWhile_cons, hx, ih]
    · simp [List.dropWhile_cons, hx]

theorem dropWhile_all_of_mem (p : Char → Bool) (l : List Char)
    (h : ∀ c ∈ l.dropWhile p, p c = true) : l.dropWhile p = [] := by
  induction l with
  | nil => rfl
  | cons x xs ih =>
    by_cases hx : p x = true
    · simp only [List.dropWhile_cons, hx, if_true] at h ⊢
      exact ih h
    · simp only [List.dropWhile_cons, hx] at h
      exact absurd (h x (by simp)) hx

/-- `s.trim() === ''` holds exactly for the blank strings. -/
theorem jsTrim_eq_empty_iff (s : String) : jsTrim s = "" ↔ isBlank s = true := by
  have h0 : jsTrim s = "" ↔ trimChars s.toList = [] := by
    unfold jsTrim
    constructor
    · intro h
      have := congrArg String.data h
      simpa using this
    · intro h
      rw [h]
  rw [h0]
  unfold trimChars isBlank
  rw [List.reverse_eq_nil_iff, dropWhile_eq_nil_iff_all, List.all_eq_true]
  constructor
  · intro h
    have h1 : s.toList.dropWhile isJsWhiteSpace = [] :=
      dropWhile_all_of_mem _ _ (fun c hc => h c (List.mem_reverse.2 hc))
    exact (dropWhile_eq_nil_iff_all _ _).1 h1
  · intro h c hc
    have h1 := (dropWhile_eq_nil_iff_all _ _).2 h
    rw [h1] at hc
    simp at hc

theorem splitChars_length (sep : Char) (cs : List Char) :
    (splitChars sep cs).length = cs.count sep + 1 := by
  induction cs with
  | nil => rfl
  | cons c cs ih =>
    unfold splitChars
    by_cases h : c = sep
    · subst h
      simp [ih]
    · have hne : (c == sep) = false := by simpa using h
      simp only [h, if_false, List.count_cons, hne]
      cases hsp : splitChars sep cs with
      | nil => rw [hsp] at ih; simp at ih
      | cons p ps =>
        rw [hsp] at ih
        simpa using ih

theorem isSuspiciousIp_eq (a : String) (h : a ≠ "") :
    isSuspiciousIp a = isPrivateOrLoopback a := by
  simp [isSuspiciousIp, isPrivateOrLoopback, h, List.any_cons, Bool.or_assoc]

theorem isSuspiciousIp_resolved (addr : Option String) :
    isSuspiciousIp ((strOr addr none).getD "") = addressFlagged addr := by
  cases addr with
  | none => simp [strOr, isSuspiciousIp, addressFlagged]
  | some a =>
    by_cases h : a = ""
    · simp [strOr, h, isSuspiciousIp, addressFlagged]
    · simp [strOr, h, addressFlagged, isSuspiciousIp_eq a h]

theorem header_eq_lookup (req : Req) (name : String) :
    (req.headers.getD []).lookup name = req.header name := by
  unfold Req.header
  cases req.headers <;> simp [List.lookup]

theorem parts_length (x : String) :
    ((jsSplit x ',').map jsTrim).length = forwardedEntries x := by
  simp [jsSplit, forwardedEntries, splitChars_length]

theorem userAgent_missing_iff (u : String) :
    (u = "" ∨ jsTrim u = "") ↔ isBlank u = true := by
  rw [jsTrim_eq_empty_iff]
  constructor
  · rintro (h | h)
    · subst h
      rfl
    · exact h
  · exact Or.inr

/-- The result of `detectBot`: score and reasons are those of the
contributions, in order. -/
theorem detectBot_eq (req : Req) (o : DetectBotOptions) :
    detectBot req o =
      { isBot := decide (((botContributions req).map Prod.fst).sum ≥ o.threshold)
        score := ((botContributions req).map Prod.fst).sum
        reasons := (botContributions req).map Prod.snd
        ip := strOr (getClientIp req {}) none
        userAgent := (req.header "user-agent").getD "" } := by
  have hm : ∀ u, BOT_UA_PATTERNS.any (fun re => re.test u) = matchesSome BOT_UA_PATTERNS u :=
    fun _ => rfl
  unfold detectBot botContributions headerContributions
  simp only [header_eq_lookup, isSuspiciousIp_resolved, parts_length, userAgent_missing_iff, hm]
  generalize getClientIp req {} = addr
  generalize req.header "user-agent" = ua
  generalize req.header "accept-language" = lang
  generalize req.header "x-forwarded-for" = xfwd
  have hua : ∀ acc : Int × List String,
      (if isBlank (ua.getD "") = true then (acc.1 + 40, acc.2 ++ ["Missing User-Agent header"])
        else
          (if jsLength (ua.getD "") < 20 then
            ((if matchesSome BOT_UA_PATTERNS (ua.getD "") = true then
                (acc.1 + 50, acc.2 ++ ["User-Agent matches known bot/crawler pattern"])
              else acc).1 + 10,
             (if matchesSome BOT_UA_PATTERNS (ua.getD "") = true then
                (acc.1 + 50, acc.2 ++ ["User-Agent matches known bot/crawler pattern"])
              else acc).2 ++ ["Very short User-Agent string"])
          else
            (if matchesSome BOT_UA_PATTERNS (ua.getD "") = true then
              (acc.1 + 50, acc.2 ++ ["User-Agent matches known bot/crawler pattern"])
            else acc)))
        = (acc.1 + ((userAgentContributions ua).map Prod.fst).sum,
           acc.2 ++ (userAgentContributions ua).map Prod.snd) := by
    intro acc
    cases ua with
    | none =>
      have : isBlank "" = true := rfl
      simp [userAgentContributions, this]
    | some u =>
      simp only [Option.getD_some, userAgentContributions]
      by_cases hb : isBlank u = true
      · simp [hb]
      · by_cases hp : matchesSome BOT_UA_PATTERNS u = true <;>
          by_cases hl : jsLength u < 20 <;> simp [hb, hp, hl, add_assoc]
  have hua0 := hua (0, [])
  simp only [zero_add, List.nil_append] at hua0
  simp only [zero_add, List.nil_append, hua0]
  generalize userAgentContributions ua = A
  have hlang : (lang = none ∨ lang = some "") ↔ acceptLanguageContributions lang
      = [(10, "Missing Accept-Language header")] := by
    cases lang with
    | none => simp [acceptLanguageContributions]
    | some l => by_cases hl : l = "" <;> simp [acceptLanguageContributions, hl]
  have hlang2 : ¬ (lang = none ∨ lang = some "") → acceptLanguageContributions lang = [] := by
    cases lang with
    | none => simp
    | some l => by_cases hl : l = "" <;> simp [acceptLanguageContributions, hl]
  by_cases h1 : lang = none ∨ lang = some ""
  · rw [hlang.1 h1]
    cases xfwd with
    | none =>
      cases hf : addressFlagged addr <;>
        simp [h1, forwardedContributions, addressContributions, hf, add_assoc]
    | some x =>
      by_cases hx : forwardedEntries x > 3 <;> cases hf : addressFlagged addr <;>
        simp [h1, forwardedContributions, addressContributions, hf, hx, add_assoc]
  · rw [hlang2 h1]
    cases xfwd with
    | none =>
      cases hf : addressFlagged addr <;>
        simp [h1, forwardedContributions, addressContributions, hf, add_assoc]
    | some x =>
      by_cases hx : forwardedEntries x > 3 <;> cases hf : addressFlagged addr <;>
        simp [h1, forwardedContributions, addressContributions, hf, hx, add_assoc]

theorem le_sum_of_mem_nonneg (l : List Int) (h : ∀ x ∈ l, 0 ≤ x) (x : Int) (hx : x ∈ l) :
    x ≤ l.sum := by
  induction l with
  | nil => cases hx
  | cons y ys ih =>
    have hy := h y (List.mem_cons_self _ _)
    have hys : 0 ≤ ys.sum := List.sum_nonneg (fun w hw => h w (List.mem_cons_of_mem _ hw))
    simp only [List.sum_cons]
    rcases List.mem_cons.1 hx with e | e
    · subst e
      omega
    · have := ih (fun w hw => h w (List.mem_cons_of_mem _ hw)) e
      omega

theorem botContributions_nonneg (req : Req) :
    ∀ x ∈ (botContributions req).map Prod.fst, (0 : Int) ≤ x := by
  intro x hx
  obtain ⟨c, hc, rfl⟩ := List.mem_map.1 hx
  unfold botContributions headerContributions at hc
  simp only [List.mem_append] at hc
  rcases hc with ((hc | hc) | hc) | hc
  · unfold userAgentContributions at hc
    split at hc
    · simp at hc; rw [hc]; decide
    · split at hc
      · simp at hc; rw [hc]; decide
      · simp only [List.mem_append] at hc
        rcases hc with hc | hc
        · split at hc
          · simp at hc; rw [hc]; decide
          · cases hc
        · split at hc
          · simp at hc; rw [hc]; decide
          · cases hc
  · unfold acceptLanguageContributions at hc
    split at hc
    · simp at hc; rw [hc]; decide
    · split at hc
      · simp at hc; rw [hc]; decide
      · cases hc
  · unfold forwardedContributions at hc
    split at hc
    · cases hc
    · split at hc
      · simp at hc; rw [hc]; decide
      · cases hc
  · unfold addressContributions at hc
    split at hc
    · simp at hc; rw [hc]; decide
    · cases hc

/-- A contribution that is present bounds the score from below and its reason
is reported. -/
theorem detectBot_of_contribution (req : Req) (o : DetectBotOptions) (c : Int × String)
    (hc : c ∈ botContributions req) :
    c.1 ≤ (detectBot req o).score ∧ c.2 ∈ (detectBot req o).reasons := by
  rw [detectBot_eq]
  exact ⟨le_sum_of_mem_nonneg _ (botContributions_nonneg req) c.1 (List.mem_map.2 ⟨c, hc, rfl⟩),
    List.mem_map.2 ⟨c, hc, rfl⟩⟩

/-- C8: for every request whose user-agent header is absent, empty or only
white space, `detectBot` returns `score ≥ 40` with `Missing User-Agent header`
among the reasons; and for every request whose user-agent is
`python-requests/2.28`, `detectBot` with the default threshold returns
`isBot = true`; whatever the other headers and the source address are. -/
theorem detectBot_missing_or_python_userAgent (req : Req) :
    ((∀ u, req.header "user-agent" = some u → ∀ c ∈ u.toList, isJsWhiteSpace c = true) →
      ∀ o : DetectBotOptions,
        40 ≤ (detectBot req o).score
        ∧ "Missing User-Agent header" ∈ (detectBot req o).reasons)
    ∧ (req.header "user-agent" = some "python-requests/2.28" →
      (detectBot req {}).isBot = true) := by
  constructor
  · intro h o
    refine detectBot_of_contribution req o (40, "Missing User-Agent header") ?_
    unfold botContributions headerContributions
    refine List.mem_append_left _ (List.mem_append_left _ (List.mem_append_left _ ?_))
    cases hu : req.header "user-agent" with
    | none => simp [userAgentContributions]
    | some u =>
      have hb : isBlank u = true := by
        unfold isBlank
        exact List.all_eq_true.2 (h u hu)
      simp [userAgentContributions, hb]
  · intro h
    have hc : ((50 : Int), "User-Agent matches known bot/crawler pattern")
        ∈ botContributions req := by
      unfold botContributions headerContributions
      refine List.mem_append_left _ (List.mem_append_left _ (List.mem_append_left _ ?_))
      rw [h]
      decide
    have h50 := (detectBot_of_contribution req {} _ hc).1
    have hb : (detectBot req {}).isBot
        = decide ((detectBot req {}).score ≥ (50 : Int)) := by
      rw [detectBot_eq]
    rw [hb]
    exact decide_eq_true h50

/-- Witness for C8: a request with a blank user-agent, and one sent by
`python-requests/2.28` from a public address with an accept-language header. -/
theorem detectBot_missing_or_python_userAgent_witness :
    (40 ≤ (detectBot { headers := some [("user-agent", "  "), ("accept-language", "en")]
                       ip := some "8.8.8.8" } {}).score
      ∧ "Missing User-Agent header" ∈
        (detectBot { headers := some [("user-agent", "  "), ("accept-language", "en")]
                     ip := some "8.8.8.8" } {}).reasons)
    ∧ (detectBot { headers := some [("user-agent", "python-requests/2.28"),
                                    ("accept-language", "en")]
                   ip := some "8.8.8.8" } {}).isBot = true :=
  ⟨(detectBot_missing_or_python_userAgent
      { headers := some [("user-agent", "  "), ("accept-language", "en")]
        ip := some "8.8.8.8" }).1 (by decide) {},
   (detectBot_missing_or_python_userAgent
      { headers := some [("user-agent", "python-requests/2.28"), ("accept-language", "en")]
        ip := some "8.8.8.8" }).2 (by decide)⟩

/-- C9: the score of `detectBot` is exactly the sum of its contributions: for
the user-agent 40 if absent or blank, otherwise 50 if it matches a signature of
`BOT_UA_PATTERNS` plus 10 if shorter than 20 characters; 10 if accept-language
is missing (absent or empty); 10 if x-forwarded-for has more than 3
comma-separated entries (3 entries score nothing, 4 score 10); and the
source-address component (0 or 10). `reasons` holds one string per
contribution in that order, and `isBot` holds iff `score ≥ threshold`. -/
theorem detectBot_score_spec (req : Req) (o : DetectBotOptions) :
    (detectBot req o).score
        = ((userAgentContributions (req.header "user-agent")
            ++ acceptLanguageContributions (req.header "accept-language")
            ++ forwardedContributions (req.header "x-forwarded-for")
            ++ addressContributions (getClientIp req {})).map Prod.fst).sum
    ∧ (detectBot req o).reasons
        = (userAgentContributions (req.header "user-agent")
            ++ acceptLanguageContributions (req.header "accept-language")
            ++ forwardedContributions (req.header "x-forwarded-for")
            ++ addressContributions (getClientIp req {})).map Prod.snd
    ∧ ((detectBot req o).isBot = true ↔ o.threshold ≤ (detectBot req o).score)
    ∧ (∀ x, forwardedEntries x = 3 → forwardedContributions (some x) = [])
    ∧ (∀ x, forwardedEntries x = 4 →
        forwardedContributions (some x) = [(10, "Long X-Forwarded-For chain (> 3 hops)")])
    ∧ (((addressContributions (getClientIp req {})).map Prod.fst).sum = 0
        ∨ ((addressContributions (getClientIp req {})).map Prod.fst).sum = 10) := by
  refine ⟨by rw [detectBot_eq]; rfl, by rw [detectBot_eq]; rfl, ?_, ?_, ?_, ?_⟩
  · rw [detectBot_eq]
    simp only [decide_eq_true_eq, ge_iff_le]
  · intro x hx
    simp [forwardedContributions, hx]
  · intro x hx
    simp [forwardedContributions, hx]
  · unfold addressContributions
    split
    · right; rfl
    · left; rfl

/-- Counterexample to C10 as stated: a request with a browser user-agent and an
accept-language header but no forwarded-for header and no transport address
resolves to no address, and still gets the 10 source-address points and their
reason; the same request from the public address `8.8.8.8` scores 0. -/
theorem detectBot_unresolved_address_counterexample :
    getClientIp { headers := some [("user-agent", "Mozilla/5.0 (X11; Linux x86_64) Firefox/120.0"),
                                   ("accept-language", "en-US")] } {} = none
    ∧ (detectBot { headers := some [("user-agent", "Mozilla/5.0 (X11; Linux x86_64) Firefox/120.0"),
                                    ("accept-language", "en-US")] } {}).score = 10
    ∧ (detectBot { headers := some [("user-agent", "Mozilla/5.0 (X11; Linux x86_64) Firefox/120.0"),
                                    ("accept-language", "en-US")] } {}).reasons
        = ["IP appears to be private/loopback (possible proxy or script)"]
    ∧ (detectBot { headers := some [("user-agent", "Mozilla/5.0 (X11; Linux x86_64) Firefox/120.0"),
                                    ("accept-language", "en-US")]
                   ip := some "8.8.8.8" } {}).score = 0 := by
  decide

/-- C10 (amended): `detectBot` adds the 10 source-address points, with reason
`IP appears to be private/loopback (possible proxy or script)`, if and only if
the address resolved by `getClientIp` is in a private or loopback range
(beginning `10.`, `192.168.`, `172.16.` through `172.31.`, or equal to
`127.0.0.1` or `::1`) or no address is resolved (`getClientIp` returns null or
the empty string); a resolved non-empty address outside those ranges
contributes 0 points and no reason. -/
theorem detectBot_address_contribution (req : Req) (o : DetectBotOptions) :
    (detectBot req o).score
        = ((headerContributions req).map Prod.fst).sum
          + (if getClientIp req {} = none ∨ getClientIp req {} = some ""
                ∨ ∃ a, getClientIp req {} = some a ∧ isPrivateOrLoopback a = true
              then 10 else 0)
    ∧ (detectBot req o).reasons
        = (headerContributions req).map Prod.snd
          ++ (if getClientIp req {} = none ∨ getClientIp req {} = some ""
                ∨ ∃ a, getClientIp req {} = some a ∧ isPrivateOrLoopback a = true
              then ["IP appears to be private/loopback (possible proxy or script)"] else [])
    ∧ (∀ a, getClientIp req {} = some a → a ≠ "" → isPrivateOrLoopback a = false →
        (detectBot req o).score = ((headerContributions req).map Prod.fst).sum
        ∧ (detectBot req o).reasons = (headerContributions req).map Prod.snd) := by
  have hflag : (getClientIp req {} = none ∨ getClientIp req {} = some ""
        ∨ ∃ a, getClientIp req {} = some a ∧ isPrivateOrLoopback a = true)
      ↔ addressFlagged (getClientIp req {}) = true := by
    cases getClientIp req {} with
    | none => simp [addressFlagged]
    | some a => by_cases ha : a = "" <;> simp [addressFlagged, ha]
  rw [detectBot_eq]
  simp only [botContributions, List.map_append, List.sum_append, addressContributions]
  by_cases hf : addressFlagged (getClientIp req {}) = true
  · rw [if_pos (hflag.2 hf), if_pos (hflag.2 hf)]
    refine ⟨by simp [hf], by simp [hf], ?_⟩
    intro a ha hne hpriv
    rw [ha] at hf
    simp [addressFlagged, hne, hpriv] at hf
  · rw [if_neg (fun h => hf (hflag.1 h)), if_neg (fun h => hf (hflag.1 h))]
    refine ⟨by simp [hf], by simp [hf], ?_⟩
    intro a _ _ _
    simp [hf]

/-! ### Client address -/

theorem jsLength_pos_iff (x : String) : jsLength x > 0 ↔ x ≠ "" := by
  unfold jsLength
  constructor
  · intro h hx
    subst hx
    simp at h
  · intro h
    cases hx : x.toList with
    | nil =>
      exfalso
      apply h
      have : x = String.mk x.toList := rfl
      rw [this, hx]
    | cons c cs =>
      simp only [List.map_cons, List.sum_cons]
      split <;> omega

theorem splitChars_head (sep : Char) (cs : List Char) :
    (splitChars sep cs).head? = some (cs.takeWhile (fun c => c ≠ sep)) := by
  induction cs with
  | nil => rfl
  | cons c cs ih =>
    unfold splitChars
    by_cases h : c = sep
    · simp [h]
    · simp only [h, if_false]
      cases hsp : splitChars sep cs with
      | nil => rw [hsp] at ih; simp at ih
      | cons p ps =>
        rw [hsp] at ih
        simp only [List.head?_cons, Option.some.injEq] at ih
        simp [List.takeWhile_cons, h, ih]

theorem forwarded_head (x : String) :
    ((jsSplit x ',').map jsTrim).head? = some (firstForwardedEntry x) := by
  unfold jsSplit firstForwardedEntry jsTrim
  rw [List.map_map, List.head?_map, splitChars_head]
  rfl

theorem strOr_eq (a b : Option String) : strOr a b = if isSet a then a else b := by
  cases a with
  | none => simp [strOr, isSet]
  | some s => by_cases h : s = "" <;> simp [strOr, isSet, h]

theorem normalize_branch (v : Option String) :
    (match v with
      | some a =>
        if a = "" then none
        else if jsStartsWith a "::ffff:" then some (String.mk (a.toList.drop 7))
        else some a
      | none => none) = (if isSet v then v else none).map normalizeMapped := by
  cases v with
  | none => simp [isSet]
  | some a =>
    by_cases h : a = ""
    · simp [isSet, h]
    · by_cases hp : jsStartsWith a "::ffff:" = true <;> simp [isSet, h, normalizeMapped, hp]

/-- The transport branch of `getClientIp` is the specification's
`fromTransport`. -/
theorem transport_branch (req : Req) :
    (match strOr req.ip (strOr req.connectionRemoteAddress
        (strOr req.socketRemoteAddress req.connectionSocketRemoteAddress)) with
      | some a =>
        if a = "" then none
        else if jsStartsWith a "::ffff:" then some (String.mk (a.toList.drop 7))
        else some a
      | none => none) = fromTransport req := by
  rw [normalize_branch]
  unfold fromTransport transportAddress
  congr 1
  simp only [strOr_eq]
  by_cases h1 : isSet req.ip = true
  · simp [h1]
  · by_cases h2 : isSet req.connectionRemoteAddress = true
    · simp [h1, h2]
    · by_cases h3 : isSet req.socketRemoteAddress = true
      · simp [h1, h2, h3]
      · by_cases h4 : isSet req.connectionSocketRemoteAddress = true <;> simp [h1, h2, h3, h4]

/-- The result of `getClientIp` in terms of the specification's words. -/
theorem getClientIp_eq (req : Req) (o : GetClientIpOptions) :
    getClientIp req o =
      if o.trustProxy = true ∧ ∃ x, req.header "x-forwarded-for" = some x ∧ x ≠ ""
          ∧ firstForwardedEntry x ≠ ""
      then (req.header "x-forwarded-for").map firstForwardedEntry
      else fromTransport req := by
  unfold getClientIp
  simp only [transport_branch, forwarded_head, jsLength_pos_iff]
  by_cases ht : o.trustProxy = true
  · cases hx : req.header "x-forwarded-for" with
    | none => simp [ht]
    | some x =>
      by_cases hne : x = ""
      · simp [ht, hne]
      · by_cases hf : firstForwardedEntry x = "" <;> simp [ht, hne, hf]
  · simp [ht]

/-- C12: `getClientIp` selects the observed address as follows. With
`trustProxy` enabled and an x-forwarded-for header that is a non-empty string
whose first comma-separated entry, trimmed, is non-empty, the result is that
entry; in every other case the result is computed from the transport address
(`req.ip`, else `connection.remoteAddress`, else `socket.remoteAddress`, else
`connection.socket.remoteAddress`; null when none is set). With
`trustProxy = false` two requests with the same transport address fields get
the same result, whatever their headers are. -/
theorem getClientIp_selection (req : Req) (o : GetClientIpOptions) :
    (∀ x, o.trustProxy = true → req.header "x-forwarded-for" = some x → x ≠ "" →
      firstForwardedEntry x ≠ "" → getClientIp req o = some (firstForwardedEntry x))
    ∧ (¬ (o.trustProxy = true ∧ ∃ x, req.header "x-forwarded-for" = some x ∧ x ≠ ""
          ∧ firstForwardedEntry x ≠ "") →
      getClientIp req o = fromTransport req)
    ∧ (∀ r2 : Req, r2.ip = req.ip →
      r2.connectionRemoteAddress = req.connectionRemoteAddress →
      r2.socketRemoteAddress = req.socketRemoteAddress →
      r2.connectionSocketRemoteAddress = req.connectionSocketRemoteAddress →
      getClientIp r2 { trustProxy := false } = getClientIp req { trustProxy := false }) := by
  refine ⟨?_, ?_, ?_⟩
  · intro x ht hx hne hf
    rw [getClientIp_eq, if_pos ⟨ht, x, hx, hne, hf⟩, hx]
    rfl
  · intro h
    rw [getClientIp_eq, if_neg h]
  · intro r2 h1 h2 h3 h4
    rw [getClientIp_eq, getClientIp_eq]
    simp only [Bool.false_eq_true, false_and, if_false]
    unfold fromTransport transportAddress
    rw [h1, h2, h3, h4]

/-- C13 (code defect): in trusted-proxy mode the first forwarded-for entry is
returned as it is, so an IPv6-mapped IPv4 address in the x-forwarded-for header
is not normalized, while the same address on the transport path is. -/
theorem getClientIp_forwarded_not_normalized :
    getClientIp { headers := some [("x-forwarded-for", "::ffff:1.2.3.4")] } {}
        = some "::ffff:1.2.3.4"
    ∧ getClientIp { ip := some "::ffff:1.2.3.4" } {} = some "1.2.3.4"
    ∧ getClientIp { ip := some "::ffff:1.2.3.4" } { trustProxy := false }
        = some "1.2.3.4" := by
  decide

/-! ### In-memory rate limiter: window boundary and history size -/

/-- Counterexample to C14 as stated: with `windowMs = 1000`, after a call at 0
the call at 1000 finds the timestamp `0 = now - windowMs` in the history and
discards it; the stored history is `[1000]`, not `[0, 1000]`. -/
theorem memoryRateLimiter_boundary_counterexample :
    memoryRun { windowMs := 1000, max := 5 } Hits.empty [{ req := {}, now := 0 }] "global"
        = some [0]
    ∧ (memoryRateLimiter { windowMs := 1000, max := 5 }
        (memoryRun { windowMs := 1000, max := 5 } Hits.empty [{ req := {}, now := 0 }])
        { req := {}, now := 1000 }).1 "global" = some [1000] := by
  decide

/-- C14 (amended): on each call at clock reading `now` the in-memory limiter
keeps, in order, exactly the recorded timestamps of the key with
`ts > now - windowMs` (it discards those with `ts ≤ now - windowMs`, the one
equal to `now - windowMs` included), appends `now`, stores the result as the
key's new history and leaves other keys alone; it calls `next` iff the
resulting count is `≤ max`, and when the count exceeds `max` it does not call
`next` and writes the 429 response (`res.headersSent` being false when the
limiter reads it). -/
theorem memoryRateLimiter_step_spec (o : MemoryRateLimiterOptions) (hits : Hits) (c : Call) :
    (memoryRateLimiter o hits c).1 (o.keyGenerator c.req)
        = some (((hits (o.keyGenerator c.req)).getD []).filter
            (fun ts => decide (c.now - o.windowMs < ts)) ++ [c.now])
    ∧ (∀ ts ∈ (hits (o.keyGenerator c.req)).getD [], ts ≤ c.now - o.windowMs →
        ts ∉ ((hits (o.keyGenerator c.req)).getD []).filter
            (fun ts => decide (c.now - o.windowMs < ts)))
    ∧ (∀ k, k ≠ o.keyGenerator c.req → (memoryRateLimiter o hits c).1 k = hits k)
    ∧ ((memoryRateLimiter o hits c).2 = [Effect.next none]
        ↔ ((((hits (o.keyGenerator c.req)).getD []).filter
            (fun ts => decide (c.now - o.windowMs < ts)) ++ [c.now]).length : Int) ≤ o.max)
    ∧ (o.max < ((((hits (o.keyGenerator c.req)).getD []).filter
            (fun ts => decide (c.now - o.windowMs < ts)) ++ [c.now]).length : Int) →
        (∀ e, Effect.next e ∉ (memoryRateLimiter o hits c).2)
        ∧ (headersSentAtCheck o.onLimitReached c.req c.res = false →
            Effect.status429 ∈ (memoryRateLimiter o hits c).2)) := by
  have hrec : memoryRecent o hits c
      = ((hits (o.keyGenerator c.req)).getD []).filter
          (fun ts => decide (c.now - o.windowMs < ts)) ++ [c.now] := by
    unfold memoryRecent
    rfl
  refine ⟨?_, ?_, ?_, ?_, ?_⟩
  · rw [memoryRateLimiter_fst, hrec]
    simp [Hits.set]
  · intro ts _ hle hmem
    have := (List.mem_filter.1 hmem).2
    simp only [decide_eq_true_eq] at this
    omega
  · intro k hk
    rw [memoryRateLimiter_fst]
    simp [Hits.set, hk]
  · rw [memoryRateLimiter_allowed_iff, hrec]
  · intro hgt
    rw [← hrec] at hgt
    have heff : (memoryRateLimiter o hits c).2
        = rejectEffects o.onLimitReached c.req c.res := by
      unfold memoryRateLimiter
      simp only
      rw [if_pos hgt]
    rw [heff]
    exact ⟨fun e => rejectEffects_no_next _ _ _ e, rejectEffects_status429 _ _ _⟩

/-- Counterexample to C15 as stated: with `max = 1` and `windowMs = 1000`, three
calls at 0, 1 and 2 leave three timestamps in the key's history, more than
`max + 1 = 2`. -/
theorem memoryRateLimiter_uncapped_counterexample :
    memoryRun { windowMs := 1000, max := 1 } Hits.empty
        [{ req := {}, now := 0 }, { req := {}, now := 1 }, { req := {}, now := 2 }] "global"
      = some [0, 1, 2] := by
  decide

theorem memoryRun_length_le_count (o : MemoryRateLimiterOptions) (key : String)
    (calls : List Call) (hits : Hits) :
    ((memoryRun o hits calls key).getD []).length
      ≤ ((hits key).getD []).length
        + calls.countP (fun x => decide (o.keyGenerator x.req = key)) := by
  induction calls generalizing hits with
  | nil => simp [memoryRun]
  | cons x xs ih =>
    have h := ih (memoryRateLimiter o hits x).1
    simp only [memoryRun, List.countP_cons]
    rw [memoryRateLimiter_fst] at h ⊢
    by_cases hk : o.keyGenerator x.req = key
    · have hl := memoryRecent_length_le o hits x
      rw [hk] at hl
      simp only [Hits.set, hk, if_true, Option.getD_some, decide_True] at h ⊢
      omega
    · have hk2 : ¬ key = o.keyGenerator x.req := fun e => hk e.symm
      simp only [Hits.set, hk2, if_false, hk, decide_False] at h ⊢
      simpa using h

/-- C15 (amended): the in-memory limiter does not cap its held history at
`max + 1`. After each call of a fresh limiter the list stored for the key has
at most one entry per call made for that key so far, allowed or rejected; and
for `max ≥ 0` it has at most `max + 1` entries as long as no earlier call of
the key was rejected. -/
theorem memoryRun_history_bound (o : MemoryRateLimiterOptions) (pre : List Call) (c : Call) :
    ((memoryRun o Hits.empty (pre ++ [c]) (o.keyGenerator c.req)).getD []).length
        ≤ (pre ++ [c]).countP (fun x => decide (o.keyGenerator x.req = o.keyGenerator c.req))
    ∧ (0 ≤ o.max →
        (∀ i (hi : i < pre.length), o.keyGenerator pre[i].req = o.keyGenerator c.req →
          (memoryRateLimiter o (memoryRun o Hits.empty (pre.take i)) pre[i]).2
            = [Effect.next none]) →
        (((memoryRun o Hits.empty (pre ++ [c]) (o.keyGenerator c.req)).getD []).length : Int)
          ≤ o.max + 1) := by
  constructor
  · have h := memoryRun_length_le_count o (o.keyGenerator c.req) (pre ++ [c]) Hits.empty
    simpa [Hits.empty] using h
  · intro hmax hpre
    have h1 := memoryRun_allowed_length_le o (o.keyGenerator c.req) pre hpre
    have h2 := memoryRecent_length_le o (memoryRun o Hits.empty pre) c
    have h3 : max 0 o.max = o.max := max_eq_right hmax
    rw [memoryRun_append]
    simp only [memoryRun, memoryRateLimiter_fst, Hits.set, if_true, Option.getD_some]
    omega

/-! ### Redis rate limiter: TTL and store failures -/

/-- The traced middleware has the store and the effects of `redisRateLimiter`. -/
theorem redisRateLimiterTraced_fst (o : RedisRateLimiterOptions) (store : RedisStore)
    (c : RedisCall) : (redisRateLimiterTraced o store c).1 = redisRateLimiter o store c := by
  unfold redisRateLimiterTraced redisRateLimiter
  cases c.incrFails with
  | some err => rfl
  | none =>
    simp only
    split
    · cases c.expireFails <;> rfl
    · rfl

/-- The value of `Math.ceil(windowMs / 1000)`. -/
theorem ttlSeconds_eq_ceil (windowMs : Int) :
    ttlSeconds windowMs = ⌈(windowMs : ℚ) / 1000⌉ := by
  unfold ttlSeconds
  have h := Rat.floor_intCast_div_natCast (-windowMs) 1000
  have h2 : ((-windowMs : ℤ) : ℚ) / ((1000 : ℕ) : ℚ) = -((windowMs : ℚ) / 1000) := by
    push_cast
    ring
  rw [h2, Int.floor_neg] at h
  have h3 : ((1000 : ℕ) : ℤ) = 1000 := rfl
  rw [h3] at h
  omega

theorem RedisStore.live_of_incr_ne_one (s : RedisStore) (now : Int) (key : String)
    (h : (s.incr now key).2 ≠ 1) : ∃ e, s.live now key = some e := by
  cases hl : s.live now key with
  | none =>
    rw [RedisStore.incr_of_dead s now key hl] at h
    exact absurd rfl h
  | some e => exact ⟨e, rfl⟩

/-- A live entry is the stored entry and its expiry time, if any, has not been
reached. -/
theorem RedisStore.live_some (s : RedisStore) (now : Int) (key : String) (e : RedisEntry)
    (h : s.live now key = some e) :
    s key = some e ∧ ∀ t, e.expireAt = some t → now < t := by
  unfold RedisStore.live at h
  cases hs : s key with
  | none => rw [hs] at h; simp at h
  | some e0 =>
    rw [hs] at h
    simp only at h
    cases ht : e0.expireAt with
    | none =>
      rw [ht] at h
      simp only [Option.some.injEq] at h
      subst h
      exact ⟨rfl, fun t h2 => by rw [ht] at h2; cases h2⟩
    | some t =>
      rw [ht] at h
      simp only at h
      by_cases hle : t ≤ now
      · rw [if_pos hle] at h
        cases h
      · rw [if_neg hle] at h
        simp only [Option.some.injEq] at h
        subst h
        refine ⟨rfl, fun t2 h2 => ?_⟩
        rw [ht] at h2
        cases h2
        omega

/-- An entry just written whose expiry time has not been reached is live. -/
theorem RedisStore.live_set (s : RedisStore) (now : Int) (key : String) (e : RedisEntry)
    (h : ∀ t, e.expireAt = some t → now < t) :
    (s.set key e).live now key = some e := by
  unfold RedisStore.live
  rw [RedisStore.set_same]
  simp only
  cases ht : e.expireAt with
  | none => rfl
  | some t =>
    have := h t ht
    simp only
    rw [if_neg (by omega)]

/-- After an increment the key is live and holds the returned value. -/
theorem RedisStore.live_after_incr (s : RedisStore) (now : Int) (key : String) :
    ∃ e, (s.incr now key).1.live now key = some e ∧ e.value = (s.incr now key).2 := by
  cases hl : s.live now key with
  | none =>
    rw [RedisStore.incr_of_dead s now key hl]
    exact ⟨{ value := 1, expireAt := none }, RedisStore.live_set_noTtl _ _ _ _, rfl⟩
  | some e =>
    rw [RedisStore.incr_of_live s now key e hl]
    exact ⟨{ e with value := e.value + 1 },
      RedisStore.live_set _ _ _ _ (RedisStore.live_some s now key e hl).2, rfl⟩

/-- C16: in the Redis limiter, for a call whose increment succeeds, an `EXPIRE`
of `ceil(windowMs/1000)` seconds is issued exactly when the increment returned
1; it then sets the key's expiry time to `now + ttl * 1000`. A call whose
increment returns another value issues no expire and leaves the key's expiry
time as it was, so over a run of later hits inside the window the expiry time
stays the one fixed by the first hit. -/
theorem redisRateLimiter_ttl_on_first_hit (o : RedisRateLimiterOptions) (store : RedisStore)
    (c : RedisCall) (hi : c.incrFails = none) :
    ttlSeconds o.windowMs = ⌈(o.windowMs : ℚ) / 1000⌉
    ∧ ((store.incr c.now (o.keyPrefix ++ o.keyGenerator c.req)).2 = 1 →
        (redisRateLimiterTraced o store c).2
          = [RedisCommand.incr (o.keyPrefix ++ o.keyGenerator c.req),
             RedisCommand.expire (o.keyPrefix ++ o.keyGenerator c.req)
               (ttlSeconds o.windowMs)])
    ∧ ((store.incr c.now (o.keyPrefix ++ o.keyGenerator c.req)).2 ≠ 1 →
        (redisRateLimiterTraced o store c).2
          = [RedisCommand.incr (o.keyPrefix ++ o.keyGenerator c.req)])
    ∧ ((store.incr c.now (o.keyPrefix ++ o.keyGenerator c.req)).2 = 1 →
        c.expireFails = none → 0 < ttlSeconds o.windowMs →
        (redisRateLimiter o store c).1 (o.keyPrefix ++ o.keyGenerator c.req)
          = some { value := 1, expireAt := some (c.now + ttlSeconds o.windowMs * 1000) })
    ∧ ((store.incr c.now (o.keyPrefix ++ o.keyGenerator c.req)).2 ≠ 1 →
        ∃ e, store.live c.now (o.keyPrefix ++ o.keyGenerator c.req) = some e
          ∧ (redisRateLimiter o store c).1 (o.keyPrefix ++ o.keyGenerator c.req)
            = some { value := e.value + 1, expireAt := e.expireAt })
    ∧ (∀ (v t : Int) (cs : List RedisCall), 1 ≤ v →
        (redisRateLimiter o store c).1 (o.keyPrefix ++ o.keyGenerator c.req)
          = some { value := v, expireAt := some t } →
        (∀ x ∈ cs, o.keyGenerator x.req = o.keyGenerator c.req ∧ x.incrFails = none
          ∧ x.now < t) →
        redisRun o (redisRateLimiter o store c).1 cs (o.keyPrefix ++ o.keyGenerator c.req)
          = some { value := v + cs.length, expireAt := some t }) := by
  refine ⟨ttlSeconds_eq_ceil _, ?_, ?_, ?_, ?_, ?_⟩
  · intro h1
    unfold redisRateLimiterTraced
    simp only [hi, h1, if_true]
    cases c.expireFails <;> rfl
  · intro h1
    unfold redisRateLimiterTraced
    simp only [hi, h1, if_false]
  · intro h1 he httl
    obtain ⟨e, hlive, hval⟩ := RedisStore.live_after_incr store c.now
      (o.keyPrefix ++ o.keyGenerator c.req)
    have hstore : (redisRateLimiter o store c).1
        = (store.incr c.now (o.keyPrefix ++ o.keyGenerator c.req)).1.expire c.now
            (o.keyPrefix ++ o.keyGenerator c.req) (ttlSeconds o.windowMs) := by
      unfold redisRateLimiter
      simp only [hi, he, h1, if_true]
      split <;> rfl
    rw [hstore]
    unfold RedisStore.expire
    rw [hlive]
    simp only [not_le.mpr httl, if_false, RedisStore.set_same, hval, h1]
  · intro h1
    obtain ⟨e, hlive⟩ := RedisStore.live_of_incr_ne_one _ _ _ h1
    refine ⟨e, hlive, ?_⟩
    rw [RedisStore.incr_of_live _ _ _ _ hlive] at h1
    have hstore : (redisRateLimiter o store c).1
        = store.set (o.keyPrefix ++ o.keyGenerator c.req) { e with value := e.value + 1 } := by
      unfold redisRateLimiter
      simp only [hi, RedisStore.incr_of_live _ _ _ _ hlive]
      simp only at h1
      rw [if_neg h1]
      split <;> rfl
    rw [hstore, RedisStore.set_same]
  · intro v t cs hv hs hcs
    exact redisRun_live o (o.keyGenerator c.req) t cs _ v hv hs
      (fun x hx => (hcs x hx).1) (fun x hx => (hcs x hx).2.1) (fun x hx => (hcs x hx).2.2)

/-- Witness for C16: `windowMs = 1500` (TTL 2 seconds); the first call at clock
reading 0 issues `INCR` and `EXPIRE 2`, the second at 500 only `INCR`, and the
key's expiry time stays 2000. -/
theorem redisRateLimiter_ttl_on_first_hit_witness :
    (redisRateLimiterTraced { max := 5, windowMs := 1500 } RedisStore.empty
        { req := {}, now := 0 }).2
      = [RedisCommand.incr "api-shield:rl:global", RedisCommand.expire "api-shield:rl:global" 2]
    ∧ (redisRateLimiterTraced { max := 5, windowMs := 1500 }
        (redisRateLimiter { max := 5, windowMs := 1500 } RedisStore.empty
          { req := {}, now := 0 }).1 { req := {}, now := 500 }).2
      = [RedisCommand.incr "api-shield:rl:global"]
    ∧ (redisRateLimiter { max := 5, windowMs := 1500 }
        (redisRateLimiter { max := 5, windowMs := 1500 } RedisStore.empty
          { req := {}, now := 0 }).1 { req := {}, now := 500 }).1 "api-shield:rl:global"
      = some { value := 2, expireAt := some 2000 } :=
  ⟨(redisRateLimiter_ttl_on_first_hit { max := 5, windowMs := 1500 } RedisStore.empty
      { req := {}, now := 0 } rfl).2.1 (by decide),
   (redisRateLimiter_ttl_on_first_hit { max := 5, windowMs := 1500 }
      (redisRateLimiter { max := 5, windowMs := 1500 } RedisStore.empty
        { req := {}, now := 0 }).1 { req := {}, now := 500 } rfl).2.2.1 (by decide),
   by decide⟩

/-- C17: when a store operation of the Redis limiter fails with error `e`
(`redis.incr` rejects, or the increment returned 1 and `redis.expire` rejects),
the limiter calls `next` exactly once, with `e` as its argument, writes no
response and does not invoke `onLimitReached`; this outcome differs from that
of an allowed request (`next()` with no argument) and from that of a rejected
one (no `next` at all). -/
theorem redisRateLimiter_failure_signal (o : RedisRateLimiterOptions) (store : RedisStore)
    (c : RedisCall) (e : String) :
    (c.incrFails = some e → (redisRateLimiter o store c).2 = [Effect.next (some e)])
    ∧ (c.incrFails = none →
        RedisCommand.expire (o.keyPrefix ++ o.keyGenerator c.req) (ttlSeconds o.windowMs)
          ∈ (redisRateLimiterTraced o store c).2 →
        c.expireFails = some e → (redisRateLimiter o store c).2 = [Effect.next (some e)])
    ∧ Effect.status429 ∉ [Effect.next (some e)]
    ∧ Effect.hook ∉ [Effect.next (some e)]
    ∧ [Effect.next (some e)] ≠ [Effect.next none]
    ∧ (∀ hook req res, [Effect.next (some e)] ≠ rejectEffects hook req res) := by
  refine ⟨?_, ?_, by simp, by simp, by simp, ?_⟩
  · intro h
    unfold redisRateLimiter
    simp only [h]
  · intro hi hcmd he
    have h1 : (store.incr c.now (o.keyPrefix ++ o.keyGenerator c.req)).2 = 1 := by
      by_contra hne
      unfold redisRateLimiterTraced at hcmd
      simp only [hi, hne, if_false] at hcmd
      simp at hcmd
    unfold redisRateLimiter
    simp only [hi, he, h1, if_true]
  · intro hook req res h
    have hmem : Effect.next (some e) ∈ rejectEffects hook req res := by
      rw [← h]
      exact List.mem_singleton_self _
    exact rejectEffects_no_next _ _ _ _ hmem

/-- C18 (code defect): on a store failure the limiter calls `next(err)`, the
error continuation, not the `next()` of an allowed request. Shown for a
rejecting `redis.incr` and for a rejecting `redis.expire` on an empty store,
next to the same request without a failure. -/
theorem redisRateLimiter_not_fail_open :
    (redisRateLimiter {} RedisStore.empty
        { req := {}, now := 0, incrFails := some "ECONNREFUSED" }).2
      = [Effect.next (some "ECONNREFUSED")]
    ∧ (redisRateLimiter {} RedisStore.empty
        { req := {}, now := 0, expireFails := some "ETIMEDOUT" }).2
      = [Effect.next (some "ETIMEDOUT")]
    ∧ (redisRateLimiter {} RedisStore.empty { req := {}, now := 0 }).2
      = [Effect.next none] := by
  decide

/-! ### Shared-store constructors and the Redis replay store -/

/-- C19 (code defect): `createRedisRateLimiter` and `createRedisCache` throw
when the `redis` handle is missing, but `createReplayStoreRedis` returns a
store object for a missing handle; the failure only shows as a `TypeError` at
the first `verify`. -/
theorem createReplayStoreRedis_accepts_missing_handle :
    createRedisRateLimiter { redis := none }
        = Except.error "[api-shield] createRedisRateLimiter: 'redis' instance is required."
    ∧ createRedisCache none
        = Except.error "[api-shield] createRedisCache: Redis instance required."
    ∧ createReplayStoreRedis none = Except.ok { redis := none }
    ∧ (ReplayStoreRedis.verifyStep { redis := none } RedisStore.empty 0 "T"
        VerifyProgress.start).2
      = VerifyProgress.threw "TypeError: Cannot read properties of undefined" := by
  refine ⟨rfl, rfl, rfl, rfl⟩

/-- C20 (code defect): `verify` of the Redis replay store issues two store
commands, `EXISTS` and then `SET`. On an empty store a single call has not
returned after its first command; two calls on the same unseen token whose
commands interleave as `EXISTS`, `EXISTS`, `SET`, `SET` both return true;
run one after the other they return true and false. -/
theorem replayStoreRedis_check_then_set_race :
    (ReplayStoreRedis.verifyStep { redis := some () } RedisStore.empty 0 "T"
        VerifyProgress.start).2 = VerifyProgress.sawAbsent
    ∧ (runSchedule { redis := some () } "T" "T" { store := RedisStore.empty }
        [(true, 0), (false, 0), (true, 1), (false, 1)]).first = VerifyProgress.returned true
    ∧ (runSchedule { redis := some () } "T" "T" { store := RedisStore.empty }
        [(true, 0), (false, 0), (true, 1), (false, 1)]).second = VerifyProgress.returned true
    ∧ (runSchedule { redis := some () } "T" "T" { store := RedisStore.empty }
        [(true, 0), (true, 0), (false, 1), (false, 1)]).first = VerifyProgress.returned true
    ∧ (runSchedule { redis := some () } "T" "T" { store := RedisStore.empty }
        [(true, 0), (true, 0), (false, 1), (false, 1)]).second
      = VerifyProgress.returned false := by
  decide

/-! ### Request fingerprint -/

/-- A cookie named `__proto__` in a raw Cookie header is not stored by
`getCookies`: the other cookies of the header are. -/
theorem getCookies_proto_not_stored :
    getCookies { headers := some [("cookie", "__proto__=abc; theme=dark; %5F%5Fproto%5F%5F=x")] }
      = Except.ok [("theme", JsVal.str "dark")] := by
  rfl

/-- With `cookieName = "__proto__"` and the raw header `__proto__=abc`, the
resolver reads no cookie and returns the derived fingerprint. -/
theorem getRequestFingerprintV2_proto_header_derived (H : String → String) :
    getRequestFingerprintV2 H { headers := some [("cookie", "__proto__=abc")] }
        { cookieName := "__proto__" }
      = Except.ok { fingerprint := H ("unknown-ip" ++ "|" ++ H "unknown-ua" ++ "|" ++ "unknown-lang")
                    fromCookie := false
                    components := { ip := "unknown-ip", ua := "unknown-ua",
                                    uaHash := H "unknown-ua", lang := "unknown-lang" } } := by
  rfl

/-- C11: for every cookie name other than `__proto__` and every request whose
cookies (the parsed `req.cookies`, or else the decoded Cookie header) hold the
identity cookie `options.cookieName` with a non-empty string value `c`,
`getRequestFingerprintV2` returns `fingerprint = c` and `fromCookie = true`,
whatever the source address, user-agent and accept-language are; so any second
request presenting the same value gets the same fingerprint. -/
theorem getRequestFingerprintV2_cookie_wins (H : String → String) (o : FingerprintOptions)
    (req : Req) (cookies : List (String × JsVal)) (c : String)
    (hname : o.cookieName ≠ "__proto__")
    (hcookies : getCookies req = Except.ok cookies)
    (hvalue : cookies.lookup o.cookieName = some (JsVal.str c)) (hne : c ≠ "") :
    getRequestFingerprintV2 H req o
        = Except.ok { fingerprint := c, fromCookie := true,
                      components := getFingerprintComponents H req }
    ∧ ∀ (req2 : Req) (cookies2 : List (String × JsVal)),
        getCookies req2 = Except.ok cookies2 →
        cookies2.lookup o.cookieName = some (JsVal.str c) →
        ∃ r1 r2, getRequestFingerprintV2 H req o = Except.ok r1
          ∧ getRequestFingerprintV2 H req2 o = Except.ok r2
          ∧ r1.fingerprint = c ∧ r2.fingerprint = r1.fingerprint
          ∧ r1.fromCookie = true ∧ r2.fromCookie = true := by
  have _ := hname
  have key : ∀ (r : Req) (k : List (String × JsVal)), getCookies r = Except.ok k →
      k.lookup o.cookieName = some (JsVal.str c) →
      getRequestFingerprintV2 H r o
        = Except.ok { fingerprint := c, fromCookie := true,
                      components := getFingerprintComponents H r } := by
    intro r k hk hv
    unfold getRequestFingerprintV2
    rw [hk]
    simp only [hv]
    rw [if_pos ((jsLength_pos_iff c).2 hne)]
  refine ⟨key req cookies hcookies hvalue, ?_⟩
  intro req2 cookies2 h2 hv2
  exact ⟨_, _, key req cookies hcookies hvalue, key req2 cookies2 h2 hv2, rfl, rfl, rfl, rfl⟩

/-- Witness for C11: a request with parsed cookies from `1.1.1.1` and a request
with a raw Cookie header, another address, user-agent and language; both
present the value `a b` and both get the fingerprint `a b`. -/
theorem getRequestFingerprintV2_cookie_wins_witness :
    getRequestFingerprintV2 (fun s => "sha256:" ++ s)
        { cookies := some [("api_shield_fp", JsVal.str "a b")], ip := some "1.1.1.1" } {}
      = Except.ok { fingerprint := "a b", fromCookie := true,
                    components := getFingerprintComponents (fun s => "sha256:" ++ s)
                      { cookies := some [("api_shield_fp", JsVal.str "a b")],
                        ip := some "1.1.1.1" } }
    ∧ ∃ r2, getRequestFingerprintV2 (fun s => "sha256:" ++ s)
        { headers := some [("cookie", "theme=dark; api_shield_fp=a%20b"),
                           ("user-agent", "curl/8.0"), ("accept-language", "fr")],
          ip := some "9.9.9.9" } {} = Except.ok r2
      ∧ r2.fingerprint = "a b" ∧ r2.fromCookie = true := by
  have h := getRequestFingerprintV2_cookie_wins (fun s => "sha256:" ++ s) {}
    { cookies := some [("api_shield_fp", JsVal.str "a b")], ip := some "1.1.1.1" }
    [("api_shield_fp", JsVal.str "a b")] "a b" (by decide) rfl rfl (by decide)
  refine ⟨h.1, ?_⟩
  obtain ⟨r1, r2, _, h2, h3, h4, _, h6⟩ := h.2
    { headers := some [("cookie", "theme=dark; api_shield_fp=a%20b"),
                       ("user-agent", "curl/8.0"), ("accept-language", "fr")],
      ip := some "9.9.9.9" }
    [("api_shield_fp", JsVal.str "a b"), ("theme", JsVal.str "dark")] (by rfl) (by rfl)
  exact ⟨r2, h2, by rw [h4, h3], h6⟩

/-! ### Guard middlewares -/

/-- C21: bot detection is advisory unless blocking is enabled. For every
request and threshold, `botGuard` stores the `detectBot` result in
`req.botDetection`; with `block = false` (the default) it calls `next()` and
writes no response whatever the score; with `block = true` it responds 403
without calling `next()` iff the result's `isBot` is true, and otherwise calls
`next()`. -/
theorem botGuard_advisory_unless_block (req : Req) (threshold : Int) :
    (botGuard { threshold := threshold } req).1 = detectBot req { threshold := threshold }
    ∧ (botGuard { threshold := threshold } req).2 = [GuardEffect.next]
    ∧ ({} : BotGuardOptions).block = false
    ∧ (botGuard { threshold := threshold, block := true } req).1
        = detectBot req { threshold := threshold }
    ∧ ((detectBot req { threshold := threshold }).isBot = true →
        (botGuard { threshold := threshold, block := true } req).2
          = [GuardEffect.deny { message := "Access denied (suspected automated traffic)",
                                statusCode := 403, reasons := none }])
    ∧ ((detectBot req { threshold := threshold }).isBot = false →
        (botGuard { threshold := threshold, block := true } req).2 = [GuardEffect.next])
    ∧ (GuardEffect.next ∉ (botGuard { threshold := threshold, block := true } req).2
        ↔ (detectBot req { threshold := threshold }).isBot = true) := by
  refine ⟨?_, ?_, rfl, ?_, ?_, ?_, ?_⟩
  · simp [botGuard]
  · simp [botGuard]
  · unfold botGuard
    simp only [Bool.true_and]
    split <;> rfl
  · intro h
    simp [botGuard, h]
  · intro h
    simp [botGuard, h]
  · unfold botGuard
    cases h : (detectBot req { threshold := threshold }).isBot <;> simp [h]

/-- Counterexample to C22 as stated: `attackGuard` created with no options, on
a request whose query holds `' OR 1=1 --`; `detectAttack` returns
`isAttack = true` with score 40, and the guard calls `next()` and writes no
403 response. -/
theorem attackGuard_default_counterexample :
    (∃ r, detectAttack
        { headers := some [("user-agent", "Mozilla/5.0 (X11; Linux x86_64)")]
          query := some [("q", JsVal.str "' OR 1=1 --")] } = Except.ok r
      ∧ r.isAttack = true ∧ r.score = 40)
    ∧ (∃ r, attackGuard {}
        { headers := some [("user-agent", "Mozilla/5.0 (X11; Linux x86_64)")]
          query := some [("q", JsVal.str "' OR 1=1 --")] }
      = Except.ok (r, [GuardEffect.next])) := by
  constructor
  · exact ⟨_, rfl, by decide, by decide⟩
  · exact ⟨_, rfl⟩

/-- C22 (amended): under the default composition (`attackGuard` created with no
options, `block = false`) attack detection is advisory: for every request on
which `detectAttack` returns a result, the result is stored in
`req.attackDetection` and `next()` is called, whatever the score. With
`block = true` a request for which `detectAttack` returns `isAttack = true` is
denied with a 403 response carrying the reasons and `next()` is not called;
one with `isAttack = false` is passed to `next()`. -/
theorem attackGuard_blocks_only_when_enabled (req : Req) (r : AttackResult)
    (hr : detectAttack req = Except.ok r) :
    ({} : AttackGuardOptions).block = false
    ∧ attackGuard {} req = Except.ok (r, [GuardEffect.next])
    ∧ (r.isAttack = true →
        attackGuard { block := true } req
          = Except.ok (r,
              [GuardEffect.deny { message := "Request blocked (suspicious input detected)",
                                  statusCode := 403, reasons := some r.reasons }]))
    ∧ (r.isAttack = false →
        attackGuard { block := true } req = Except.ok (r, [GuardEffect.next])) := by
  refine ⟨rfl, ?_, ?_, ?_⟩
  · simp [attackGuard, hr]
  · intro h
    simp [attackGuard, hr, h]
  · intro h
    simp [attackGuard, hr, h]

/-- Witness for C22 (amended): the request of the counterexample, with and
without blocking. -/
theorem attackGuard_blocks_only_when_enabled_witness :
    attackGuard {}
        { headers := some [("user-agent", "Mozilla/5.0 (X11; Linux x86_64)")]
          query := some [("q", JsVal.str "' OR 1=1 --")] }
      = Except.ok
          ({ ip := none, userAgent := "Mozilla/5.0 (X11; Linux x86_64)", score := 40,
             isAttack := true, reasons := ["Possible SQL injection"] },
           [GuardEffect.next])
    ∧ attackGuard { block := true }
        { headers := some [("user-agent", "Mozilla/5.0 (X11; Linux x86_64)")]
          query := some [("q", JsVal.str "' OR 1=1 --")] }
      = Except.ok
          ({ ip := none, userAgent := "Mozilla/5.0 (X11; Linux x86_64)", score := 40,
             isAttack := true, reasons := ["Possible SQL injection"] },
           [GuardEffect.deny { message := "Request blocked (suspicious input detected)",
                               statusCode := 403,
                               reasons := some ["Possible SQL injection"] }]) :=
  have h := attackGuard_blocks_only_when_enabled
    { headers := some [("user-agent", "Mozilla/5.0 (X11; Linux x86_64)")]
      query := some [("q", JsVal.str "' OR 1=1 --")] }
    { ip := none, userAgent := "Mozilla/5.0 (X11; Linux x86_64)", score := 40,
      isAttack := true, reasons := ["Possible SQL injection"] } rfl
  ⟨h.2.1, h.2.2.1 rfl⟩

/-- C24: the score and the reasons of `detectBot` do not depend on the
threshold: for every request and any two thresholds the same score and the
same reasons list, in the same order, are returned (also when the score is
below the threshold); `isBot` is `score ≥ threshold`, hence monotone: if it
holds at `t1` and `t2 ≤ t1` then it holds at `t2`. -/
theorem detectBot_threshold_independent (req : Req) (t1 t2 : Int) :
    (detectBot req { threshold := t1 }).score = (detectBot req { threshold := t2 }).score
    ∧ (detectBot req { threshold := t1 }).reasons
        = (detectBot req { threshold := t2 }).reasons
    ∧ (detectBot req { threshold := t1 }).ip = (detectBot req { threshold := t2 }).ip
    ∧ (detectBot req { threshold := t1 }).userAgent
        = (detectBot req { threshold := t2 }).userAgent
    ∧ ((detectBot req { threshold := t1 }).isBot = true
        ↔ t1 ≤ (detectBot req { threshold := t1 }).score)
    ∧ ((detectBot req { threshold := t1 }).isBot = true → t2 ≤ t1 →
        (detectBot req { threshold := t2 }).isBot = true) := by
  rw [detectBot_eq, detectBot_eq]
  refine ⟨rfl, rfl, rfl, rfl, ?_, ?_⟩
  · simp only [decide_eq_true_eq, ge_iff_le]
  · simp only [decide_eq_true_eq, ge_iff_le]
    intro h1 h2
    omega

/-! ### Rejection hook of the limiters -/

theorem rejectEffects_status429_only_if (hook : Option (Req → Res → Res)) (req : Req) (res : Res)
    (h : Effect.status429 ∈ rejectEffects hook req res) :
    headersSentAtCheck hook req res = false := by
  unfold rejectEffects at h
  unfold headersSentAtCheck
  cases hook with
  | none =>
    simp only at h ⊢
    by_cases hs : res.headersSent = true
    · simp [hs] at h
    · simpa using hs
  | some f =>
    simp only at h ⊢
    by_cases hs : (f req res).headersSent = true
    · simp [hs] at h
    · simpa using hs

/-- The effects of the Redis limiter on a call without store failure, by the
value the increment returned. -/
theorem redisRateLimiter_effects (o : RedisRateLimiterOptions) (store : RedisStore)
    (c : RedisCall) (hi : c.incrFails = none) (he : c.expireFails = none) :
    (redisRateLimiter o store c).2
      = if (store.incr c.now (o.keyPrefix ++ o.keyGenerator c.req)).2 > o.max
        then rejectEffects o.onLimitReached c.req c.res else [Effect.next none] := by
  unfold redisRateLimiter
  simp only [hi, he]
  split <;> split <;> rfl

/-- C23: in both limiters, with an `onLimitReached` hook `f` configured, a
rejected request (count over `max`) has the effects: the hook, once, called
with `(req, res)`, then the 429 response if `res.headersSent` is false after
the hook has run, and no `next`; an allowed request has the single effect
`next()`, so the hook is not invoked; and whatever the hook option is, the 429
response is written only if `res.headersSent` is false after the hook. -/
theorem limiters_hook_before_429 (f : Req → Res → Res) (mo : MemoryRateLimiterOptions)
    (hits : Hits) (mc : Call) (ro : RedisRateLimiterOptions) (store : RedisStore)
    (rc : RedisCall) :
    (mo.max < ((memoryRecent mo hits mc).length : Int) →
      (memoryRateLimiter { mo with onLimitReached := some f } hits mc).2
        = Effect.hook :: (if (f mc.req mc.res).headersSent then [] else [Effect.status429]))
    ∧ (((memoryRecent mo hits mc).length : Int) ≤ mo.max →
      (memoryRateLimiter { mo with onLimitReached := some f } hits mc).2 = [Effect.next none])
    ∧ (Effect.status429 ∈ (memoryRateLimiter mo hits mc).2 →
      headersSentAtCheck mo.onLimitReached mc.req mc.res = false)
    ∧ (rc.incrFails = none → rc.expireFails = none →
      ro.max < (store.incr rc.now (ro.keyPrefix ++ ro.keyGenerator rc.req)).2 →
      (redisRateLimiter { ro with onLimitReached := some f } store rc).2
        = Effect.hook :: (if (f rc.req rc.res).headersSent then [] else [Effect.status429]))
    ∧ (rc.incrFails = none → rc.expireFails = none →
      (store.incr rc.now (ro.keyPrefix ++ ro.keyGenerator rc.req)).2 ≤ ro.max →
      (redisRateLimiter { ro with onLimitReached := some f } store rc).2 = [Effect.next none])
    ∧ (Effect.status429 ∈ (redisRateLimiter ro store rc).2 →
      headersSentAtCheck ro.onLimitReached rc.req rc.res = false) := by
  refine ⟨?_, ?_, ?_, ?_, ?_, ?_⟩
  · intro h
    have hrec : memoryRecent { mo with onLimitReached := some f } hits mc
        = memoryRecent mo hits mc := rfl
    unfold memoryRateLimiter
    simp only [hrec]
    rw [if_pos (by omega)]
    rfl
  · intro h
    have hrec : memoryRecent { mo with onLimitReached := some f } hits mc
        = memoryRecent mo hits mc := rfl
    unfold memoryRateLimiter
    simp only [hrec]
    rw [if_neg (by omega)]
  · intro h
    unfold memoryRateLimiter at h
    simp only at h
    split at h
    · exact rejectEffects_status429_only_if _ _ _ h
    · simp at h
  · intro hi he h
    rw [redisRateLimiter_effects _ _ _ hi he]
    simp only
    rw [if_pos (by omega)]
    rfl
  · intro hi he h
    rw [redisRateLimiter_effects _ _ _ hi he]
    simp only
    rw [if_neg (by omega)]
  · intro h
    unfold redisRateLimiter at h
    cases hi : rc.incrFails with
    | some e => simp [hi] at h
    | none =>
      simp only [hi] at h
      split at h
      · cases he : rc.expireFails with
        | some e => simp [he] at h
        | none =>
          simp only [he] at h
          split at h
          · exact rejectEffects_status429_only_if _ _ _ h
          · simp at h
      · split at h
        · exact rejectEffects_status429_only_if _ _ _ h
        · simp at h

/-! ### Derived fingerprint -/

theorem strOr_default (v : Option String) (d : String) :
    (strOr v (some d)).getD d = orDefault v d := by
  cases v with
  | none => rfl
  | some s => by_cases h : s = "" <;> simp [strOr, orDefault, h]

theorem getFingerprintComponents_eq (H : String → String) (req : Req) :
    getFingerprintComponents H req
      = { ip := orDefault (getClientIp req {}) "unknown-ip"
          ua := orDefault (req.header "user-agent") "unknown-ua"
          uaHash := H (orDefault (req.header "user-agent") "unknown-ua")
          lang := orDefault (req.header "accept-language") "unknown-lang" } := by
  unfold getFingerprintComponents
  simp only [strOr_default]

/-- C25: for every request whose cookies (the parsed `req.cookies`, or else
the decoded Cookie header) hold no non-empty string under the identity cookie
name, `getRequestFingerprintV2` returns `fromCookie = false` and
`fingerprint = H(ip + '|' + H(ua) + '|' + lang)`, with `ip` the address of
`getClientIp` or `unknown-ip`, `ua` the user-agent header or `unknown-ua`,
`lang` the accept-language header or `unknown-lang`; the returned
`components.uaHash` is `H(ua)`; and a second such request with the same
resolved address, user-agent and accept-language gets the same fingerprint. -/
theorem getRequestFingerprintV2_derived (H : String → String) (o : FingerprintOptions)
    (req : Req) (cookies : List (String × JsVal))
    (hcookies : getCookies req = Except.ok cookies)
    (hnone : ∀ c, cookies.lookup o.cookieName = some (JsVal.str c) → c = "") :
    (∃ r, getRequestFingerprintV2 H req o = Except.ok r
      ∧ r.fromCookie = false
      ∧ r.fingerprint = derivedFingerprint H req
      ∧ r.components.uaHash = H (orDefault (req.header "user-agent") "unknown-ua"))
    ∧ ∀ (req2 : Req) (cookies2 : List (String × JsVal)),
        getCookies req2 = Except.ok cookies2 →
        (∀ c, cookies2.lookup o.cookieName = some (JsVal.str c) → c = "") →
        getClientIp req2 {} = getClientIp req {} →
        req2.header "user-agent" = req.header "user-agent" →
        req2.header "accept-language" = req.header "accept-language" →
        ∃ r1 r2, getRequestFingerprintV2 H req o = Except.ok r1
          ∧ getRequestFingerprintV2 H req2 o = Except.ok r2
          ∧ r2.fingerprint = r1.fingerprint := by
  have key : ∀ (r : Req) (k : List (String × JsVal)), getCookies r = Except.ok k →
      (∀ c, k.lookup o.cookieName = some (JsVal.str c) → c = "") →
      getRequestFingerprintV2 H r o
        = Except.ok { fingerprint := derivedFingerprint H r, fromCookie := false,
                      components := getFingerprintComponents H r } := by
    intro r k hk hn
    have hd : H ((getFingerprintComponents H r).ip ++ "|"
        ++ (getFingerprintComponents H r).uaHash ++ "|" ++ (getFingerprintComponents H r).lang)
        = derivedFingerprint H r := by
      rw [getFingerprintComponents_eq]
      rfl
    unfold getRequestFingerprintV2
    rw [hk]
    simp only [hd]
    cases hl : k.lookup o.cookieName with
    | none => rfl
    | some v =>
      cases v with
      | str e =>
        have he := hn e hl
        subst he
        simp only
        rw [if_neg (by decide)]
      | undefined => rfl
      | null => rfl
      | bool b => rfl
      | num n => rfl
      | arr items => rfl
      | obj fields => rfl
  refine ⟨⟨_, key req cookies hcookies hnone, rfl, rfl, ?_⟩, ?_⟩
  · rw [getFingerprintComponents_eq]
  · intro req2 cookies2 h2 hn2 hip hua hlang
    refine ⟨_, _, key req cookies hcookies hnone, key req2 cookies2 h2 hn2, ?_⟩
    simp only [derivedFingerprint, hip, hua, hlang]

/-- Witness for C25: a request without cookies and a request whose identity
cookie is empty, both from `1.2.3.4` with the same user-agent and language. -/
theorem getRequestFingerprintV2_derived_witness :
    ∃ r1 r2,
      getRequestFingerprintV2 (fun s => "sha256:" ++ s)
          { headers := some [("user-agent", "Mozilla/5.0"), ("accept-language", "en")],
            ip := some "1.2.3.4" } {} = Except.ok r1
      ∧ getRequestFingerprintV2 (fun s => "sha256:" ++ s)
          { headers := some [("user-agent", "Mozilla/5.0"), ("accept-language", "en"),
                             ("cookie", "api_shield_fp=")],
            ip := some "1.2.3.4" } {} = Except.ok r2
      ∧ r2.fingerprint = r1.fingerprint :=
  (getRequestFingerprintV2_derived (fun s => "sha256:" ++ s) {}
    { headers := some [("user-agent", "Mozilla/5.0"), ("accept-language", "en")],
      ip := some "1.2.3.4" } [] rfl (by intro c h; cases h)).2
    { headers := some [("user-agent", "Mozilla/5.0"), ("accept-language", "en"),
                       ("cookie", "api_shield_fp=")],
      ip := some "1.2.3.4" } [("api_shield_fp", JsVal.str "")] rfl
    (by
      intro c h
      have h2 : some (JsVal.str "") = some (JsVal.str c) := h
      injection h2 with h3
      injection h3 with h4
      exact h4.symm) rfl rfl rfl

/-! ### Redis rate limiter: bursts across the window boundary -/

theorem redisTrace_append (o : RedisRateLimiterOptions) (s : RedisStore)
    (xs ys : List RedisCall) :
    redisTrace o s (xs ++ ys) = redisTrace o s xs ++ redisTrace o (redisRun o s xs) ys := by
  induction xs generalizing s with
  | nil => rfl
  | cons x xs ih => simp [redisTrace, redisRun, ih]

theorem rejectEffects_ne_next (hook : Option (Req → Res → Res)) (req : Req) (res : Res) :
    rejectEffects hook req res ≠ [Effect.next none] := by
  intro h
  have hmem : Effect.next none ∈ rejectEffects hook req res := by
    rw [h]
    exact List.mem_singleton_self _
  exact rejectEffects_no_next _ _ _ _ hmem

/-- Calls of one key inside the window of a live entry with value `v` are all
allowed exactly when the count stays within `max`. -/
theorem redisTrace_live_allowed_iff (o : RedisRateLimiterOptions) (key : String) (e : Int)
    (cs : List RedisCall) (s : RedisStore) (v : Int) (hv : 1 ≤ v)
    (hs : s (o.keyPrefix ++ key) = some { value := v, expireAt := some e })
    (hkey : ∀ c ∈ cs, o.keyGenerator c.req = key)
    (hok : ∀ c ∈ cs, c.incrFails = none)
    (hnow : ∀ c ∈ cs, c.now < e) :
    (∀ x ∈ redisTrace o s cs, x = [Effect.next none])
      ↔ (cs = [] ∨ v + (cs.length : Int) ≤ o.max) := by
  induction cs generalizing s v with
  | nil => simp [redisTrace]
  | cons c cs ih =>
    have hk := hkey c (List.mem_cons_self _ _)
    have hl := redisRateLimiter_live o s c v e hv (hok c (List.mem_cons_self _ _))
      (by rw [hk]; exact hs) (hnow c (List.mem_cons_self _ _))
    rw [hk] at hl
    have ih2 := ih (redisRateLimiter o s c).1 (v + 1) (by omega) hl.1
      (fun x hx => hkey x (List.mem_cons_of_mem _ hx))
      (fun x hx => hok x (List.mem_cons_of_mem _ hx))
      (fun x hx => hnow x (List.mem_cons_of_mem _ hx))
    simp only [redisTrace, List.mem_cons, forall_eq_or_imp, List.length_cons, Nat.cast_add,
      Nat.cast_one]
    rw [hl.2, ih2]
    constructor
    · rintro ⟨h1, h2⟩
      right
      have hle : ¬ v + 1 > o.max := by
        intro hgt
        rw [if_pos hgt] at h1
        exact rejectEffects_ne_next _ _ _ h1
      rcases h2 with h2 | h2
      · subst h2
        simp only [List.length_nil, Nat.cast_zero]
        omega
      · omega
    · rintro (h | h)
      · cases h
      · refine ⟨by rw [if_neg (by omega)], Or.inr (by omega)⟩

/-- A burst on a key that is absent (or expired) when its first request
arrives, all inside the window that request opens: every request is allowed
exactly when the burst has at most `max` requests; the key then holds their
number and the expiry time fixed by the first. -/
theorem redis_burst (o : RedisRateLimiterOptions) (hmax : 1 ≤ o.max)
    (httl : 0 < ttlSeconds o.windowMs) (key : String) (s : RedisStore) (c0 : RedisCall)
    (cs : List RedisCall)
    (hdead : s.live c0.now (o.keyPrefix ++ key) = none)
    (hkey : ∀ c ∈ c0 :: cs, o.keyGenerator c.req = key)
    (hok : ∀ c ∈ c0 :: cs, c.incrFails = none ∧ c.expireFails = none)
    (hwin : ∀ c ∈ cs, c.now < c0.now + ttlSeconds o.windowMs * 1000) :
    ((∀ x ∈ redisTrace o s (c0 :: cs), x = [Effect.next none])
      ↔ (((c0 :: cs).length : Int) ≤ o.max))
    ∧ redisRun o s (c0 :: cs) (o.keyPrefix ++ key)
      = some { value := 1 + (cs.length : Int),
               expireAt := some (c0.now + ttlSeconds o.windowMs * 1000) } := by
  have hk0 := hkey c0 (List.mem_cons_self _ _)
  have h0 := redisRateLimiter_fresh o s c0 hmax httl (hok c0 (List.mem_cons_self _ _)).1
    (hok c0 (List.mem_cons_self _ _)).2 (by rw [hk0]; exact hdead)
  rw [hk0] at h0
  have hiff := redisTrace_live_allowed_iff o key (c0.now + ttlSeconds o.windowMs * 1000) cs
    (redisRateLimiter o s c0).1 1 (le_refl _) h0.1
    (fun x hx => hkey x (List.mem_cons_of_mem _ hx))
    (fun x hx => (hok x (List.mem_cons_of_mem _ hx)).1) hwin
  have hrun := redisRun_live o key (c0.now + ttlSeconds o.windowMs * 1000) cs
    (redisRateLimiter o s c0).1 1 (le_refl _) h0.1
    (fun x hx => hkey x (List.mem_cons_of_mem _ hx))
    (fun x hx => (hok x (List.mem_cons_of_mem _ hx)).1) hwin
  refine ⟨?_, by simpa [redisRun] using hrun⟩
  simp only [redisTrace, List.mem_cons, forall_eq_or_imp, List.length_cons, Nat.cast_add,
    Nat.cast_one]
  rw [hiff]
  constructor
  · rintro ⟨_, h | h⟩
    · subst h
      simpa using hmax
    · omega
  · intro h
    exact ⟨h0.2, Or.inr (by omega)⟩

theorem redisTrace_length (o : RedisRateLimiterOptions) (s : RedisStore) (cs : List RedisCall) :
    (redisTrace o s cs).length = cs.length := by
  induction cs generalizing s with
  | nil => rfl
  | cons c cs ih => simp [redisTrace, ih]

/-- Counterexample to C26 as stated, at `max = 1` and `windowMs = 1000`
(`T` = 1 second): no two requests of one key that fall inside a time span
shorter than 1000 ms are both allowed on an empty store, because the first
opens the window and the second arrives before the key expires. -/
theorem redis_double_burst_counterexample :
    ¬ ∃ c1 c2 : RedisCall,
      defaultKeyGenerator c1.req = defaultKeyGenerator c2.req
      ∧ c1.incrFails = none ∧ c1.expireFails = none
      ∧ c2.incrFails = none ∧ c2.expireFails = none
      ∧ c2.now - c1.now < 1000 ∧ c1.now - c2.now < 1000
      ∧ ∀ x ∈ redisTrace { max := 1, windowMs := 1000 } RedisStore.empty [c1, c2],
          x = [Effect.next none] := by
  rintro ⟨c1, c2, hk, hi1, he1, hi2, he2, hlt, _, hall⟩
  have httl : ttlSeconds (1000 : Int) = 1 := by decide
  have hb := (redis_burst { max := 1, windowMs := 1000 } (by decide) (by decide)
    (defaultKeyGenerator c1.req) RedisStore.empty c1 [c2] rfl
    (by
      intro c hc
      rcases List.mem_cons.1 hc with h | h
      · rw [h]
      · rw [List.mem_singleton.1 h]
        exact hk.symm)
    (by
      intro c hc
      rcases List.mem_cons.1 hc with h | h
      · rw [h]
        exact ⟨hi1, he1⟩
      · rw [List.mem_singleton.1 h]
        exact ⟨hi2, he2⟩)
    (by
      intro c hc
      rw [List.mem_singleton.1 hc]
      show c2.now < c1.now + ttlSeconds (1000 : Int) * 1000
      rw [httl]
      omega)).1
  have := hb.1 hall
  simp at this

theorem RedisStore.live_expired (s : RedisStore) (now : Int) (key : String) (v e : Int)
    (hs : s key = some { value := v, expireAt := some e }) (he : e ≤ now) :
    s.live now key = none := by
  simp [RedisStore.live, hs, he]

/-- C26 (amended): fixed-window boundary artifact. For the Redis limiter with
any integer `max ≥ 1` and a positive TTL `T = ceil(windowMs/1000)` seconds,
on a key absent from the store the schedule of `2*max` requests made of one
request at `t0`, `max - 1` requests at `t0 + T - 1 ms` (just before the key
expires) and `max` requests at `t0 + T` (when it has expired) is allowed in
full; it spans exactly `T`. In a span strictly shorter than `T` at most `max`
requests of a fresh key are all allowed. -/
theorem redis_double_burst (o : RedisRateLimiterOptions) (hmax : 1 ≤ o.max)
    (httl : 0 < ttlSeconds o.windowMs) (store : RedisStore) (req : Req) (t0 : Int)
    (habsent : store (o.keyPrefix ++ o.keyGenerator req) = none) :
    ((boundarySchedule o req t0).length : Int) = 2 * o.max
    ∧ (∀ c ∈ boundarySchedule o req t0, t0 ≤ c.now ∧ c.now ≤ t0 + ttlSeconds o.windowMs * 1000)
    ∧ (∀ x ∈ redisTrace o store (boundarySchedule o req t0), x = [Effect.next none])
    ∧ (∀ (c0 : RedisCall) (cs : List RedisCall),
        (∀ c ∈ c0 :: cs, o.keyGenerator c.req = o.keyGenerator req
          ∧ c.incrFails = none ∧ c.expireFails = none) →
        (∀ c ∈ cs, c.now - c0.now < ttlSeconds o.windowMs * 1000
          ∧ c0.now - c.now < ttlSeconds o.windowMs * 1000) →
        (∀ x ∈ redisTrace o store (c0 :: cs), x = [Effect.next none]) →
        ((c0 :: cs).length : Int) ≤ o.max) := by
  have hn : ((o.max.toNat : Nat) : Int) = o.max := Int.toNat_of_nonneg (by omega)
  have hn1 : 1 ≤ o.max.toNat := by omega
  have hrep : List.replicate o.max.toNat
        ({ req := req, now := t0 + ttlSeconds o.windowMs * 1000 } : RedisCall)
      = { req := req, now := t0 + ttlSeconds o.windowMs * 1000 }
        :: List.replicate (o.max.toNat - 1)
            { req := req, now := t0 + ttlSeconds o.windowMs * 1000 } := by
    obtain ⟨m, hm⟩ : ∃ m, o.max.toNat = m + 1 := ⟨o.max.toNat - 1, by omega⟩
    rw [hm]
    rfl
  have hfirst := redis_burst o hmax httl (o.keyGenerator req) store
    { req := req, now := t0 }
    (List.replicate (o.max.toNat - 1)
      { req := req, now := t0 + ttlSeconds o.windowMs * 1000 - 1 })
    (by simp [RedisStore.live, habsent])
    (by
      intro c hc
      rcases List.mem_cons.1 hc with h | h
      · rw [h]
      · rw [(List.mem_replicate.1 h).2])
    (by
      intro c hc
      rcases List.mem_cons.1 hc with h | h
      · rw [h]
        exact ⟨rfl, rfl⟩
      · rw [(List.mem_replicate.1 h).2]
        exact ⟨rfl, rfl⟩)
    (by
      intro c hc
      rw [(List.mem_replicate.1 hc).2]
      show t0 + ttlSeconds o.windowMs * 1000 - 1 < t0 + ttlSeconds o.windowMs * 1000
      omega)
  have hsecond := redis_burst o hmax httl (o.keyGenerator req)
    (redisRun o store (({ req := req, now := t0 } : RedisCall)
      :: List.replicate (o.max.toNat - 1)
          { req := req, now := t0 + ttlSeconds o.windowMs * 1000 - 1 }))
    { req := req, now := t0 + ttlSeconds o.windowMs * 1000 }
    (List.replicate (o.max.toNat - 1)
      { req := req, now := t0 + ttlSeconds o.windowMs * 1000 })
    (RedisStore.live_expired _ _ _ _ _ hfirst.2 (le_refl _))
    (by
      intro c hc
      rcases List.mem_cons.1 hc with h | h
      · rw [h]
      · rw [(List.mem_replicate.1 h).2])
    (by
      intro c hc
      rcases List.mem_cons.1 hc with h | h
      · rw [h]
        exact ⟨rfl, rfl⟩
      · rw [(List.mem_replicate.1 h).2]
        exact ⟨rfl, rfl⟩)
    (by
      intro c hc
      rw [(List.mem_replicate.1 hc).2]
      show t0 + ttlSeconds o.windowMs * 1000
        < t0 + ttlSeconds o.windowMs * 1000 + ttlSeconds o.windowMs * 1000
      omega)
  have hsched : boundarySchedule o req t0
      = (({ req := req, now := t0 } : RedisCall)
          :: List.replicate (o.max.toNat - 1)
              { req := req, now := t0 + ttlSeconds o.windowMs * 1000 - 1 })
        ++ List.replicate o.max.toNat
            { req := req, now := t0 + ttlSeconds o.windowMs * 1000 } := rfl
  refine ⟨?_, ?_, ?_, ?_⟩
  · rw [hsched]
    simp only [List.length_append, List.length_cons, List.length_replicate]
    push_cast
    omega
  · intro c hc
    rw [hsched] at hc
    rcases List.mem_append.1 hc with h | h
    · rcases List.mem_cons.1 h with h | h
      · rw [h]
        show t0 ≤ t0 ∧ t0 ≤ t0 + ttlSeconds o.windowMs * 1000
        omega
      · rw [(List.mem_replicate.1 h).2]
        show t0 ≤ t0 + ttlSeconds o.windowMs * 1000 - 1
          ∧ t0 + ttlSeconds o.windowMs * 1000 - 1 ≤ t0 + ttlSeconds o.windowMs * 1000
        omega
    · rw [(List.mem_replicate.1 h).2]
      show t0 ≤ t0 + ttlSeconds o.windowMs * 1000
        ∧ t0 + ttlSeconds o.windowMs * 1000 ≤ t0 + ttlSeconds o.windowMs * 1000
      omega
  · rw [hsched, redisTrace_append, hrep]
    intro x hx
    rcases List.mem_append.1 hx with h | h
    · refine hfirst.1.2 ?_ x h
      simp only [List.length_cons, List.length_replicate]
      push_cast
      omega
    · refine hsecond.1.2 ?_ x h
      simp only [List.length_cons, List.length_replicate]
      push_cast
      omega
  · intro c0 cs hall hspan htrace
    have hb := redis_burst o hmax httl (o.keyGenerator req) store c0 cs
      (by simp [RedisStore.live, habsent])
      (fun c hc => (hall c hc).1) (fun c hc => (hall c hc).2)
      (fun c hc => by have := (hspan c hc).1; omega)
    exact hb.1.1 htrace

/-- Witness for C26 (amended): `max = 2`, `windowMs = 1000`: the requests at 0,
999, 1000 and 1000 are all allowed. -/
theorem redis_double_burst_witness :
    boundarySchedule { max := 2, windowMs := 1000 } {} 0
        = [{ req := {}, now := 0 }, { req := {}, now := 999 }, { req := {}, now := 1000 },
           { req := {}, now := 1000 }]
    ∧ (redisTrace { max := 2, windowMs := 1000 } RedisStore.empty
        (boundarySchedule { max := 2, windowMs := 1000 } {} 0)).all
          (fun x => decide (x = [Effect.next none])) = true :=
  ⟨rfl, List.all_eq_true.2 (fun x hx => decide_eq_true
    ((redis_double_burst { max := 2, windowMs := 1000 } (by decide) (by decide)
      RedisStore.empty {} 0 rfl).2.2.1 x hx))⟩

/-! ### Redis rate limiter: entries without TTL and the store key -/

/-- C27 (code defect): when `redis.expire` rejects on the first hit of a key,
the increment has already created the entry, which is left with count 1 and no
expiry time. Later hits never return 1, so no TTL is ever set: with `max = 2`
the key still has no expiry after two more calls, and the request at clock
reading 10000000 is rejected although `windowMs = 1000`. -/
theorem redisRateLimiter_entry_without_ttl :
    (redisRateLimiter { max := 2, windowMs := 1000 } RedisStore.empty
        { req := {}, now := 0, expireFails := some "ETIMEDOUT" }).1 "api-shield:rl:global"
      = some { value := 1, expireAt := none }
    ∧ redisRun { max := 2, windowMs := 1000 } RedisStore.empty
        [{ req := {}, now := 0, expireFails := some "ETIMEDOUT" },
         { req := {}, now := 5000 }, { req := {}, now := 10000000 }] "api-shield:rl:global"
      = some { value := 3, expireAt := none }
    ∧ redisTrace { max := 2, windowMs := 1000 } RedisStore.empty
        [{ req := {}, now := 0, expireFails := some "ETIMEDOUT" },
         { req := {}, now := 5000 }, { req := {}, now := 10000000 }]
      = [[Effect.next (some "ETIMEDOUT")], [Effect.next none], [Effect.status429]] := by
  decide

/-- Counterexample to C28 as stated: with no prefix option, the store key of a
request from `1.2.3.4` is `api-shield:rl:1.2.3.4`, not `rl:1.2.3.4`. -/
theorem redisRateLimiter_default_prefix_counterexample :
    (redisRateLimiterTraced {} RedisStore.empty
        { req := { ip := some "1.2.3.4" }, now := 0 }).2
      = [RedisCommand.incr "api-shield:rl:1.2.3.4",
         RedisCommand.expire "api-shield:rl:1.2.3.4" 60]
    ∧ (redisRateLimiter {} RedisStore.empty
        { req := { ip := some "1.2.3.4" }, now := 0 }).1 "rl:1.2.3.4" = none := by
  decide

theorem defaultKeyGenerator_eq (req : Req) :
    defaultKeyGenerator req = orDefault req.ip "global" := by
  unfold defaultKeyGenerator
  exact strOr_default _ _

/-- Every command of a call addresses the key `prefix + keyGenerator(req)`,
and the increment of that key comes first. -/
theorem redisRateLimiterTraced_keys (o : RedisRateLimiterOptions) (store : RedisStore)
    (c : RedisCall) :
    (redisRateLimiterTraced o store c).2.head?
        = some (RedisCommand.incr (o.keyPrefix ++ o.keyGenerator c.req))
    ∧ ∀ cmd ∈ (redisRateLimiterTraced o store c).2,
        cmd.key = o.keyPrefix ++ o.keyGenerator c.req := by
  unfold redisRateLimiterTraced
  cases c.incrFails with
  | some err => simp [RedisCommand.key]
  | none =>
    simp only
    split
    · cases c.expireFails <;> simp [RedisCommand.key]
    · simp [RedisCommand.key]

/-- C28 (amended): with no prefix option given, the Redis limiter's store key
for a request is the default namespace `api-shield:rl:` followed by the
identity key returned by the key function (`req.ip`, or `global` when `req.ip`
is missing or empty); with a prefix option `p` the store key is `p` followed
by that identity key. The first command of every call is the increment of
that key and every command of the call addresses it. -/
theorem redisRateLimiter_store_key (store : RedisStore) (c : RedisCall) (p : String) :
    ({} : RedisRateLimiterOptions).keyPrefix = "api-shield:rl:"
    ∧ (redisRateLimiterTraced {} store c).2.head?
        = some (RedisCommand.incr ("api-shield:rl:" ++ orDefault c.req.ip "global"))
    ∧ (∀ cmd ∈ (redisRateLimiterTraced {} store c).2,
        cmd.key = "api-shield:rl:" ++ orDefault c.req.ip "global")
    ∧ (redisRateLimiterTraced { keyPrefix := p } store c).2.head?
        = some (RedisCommand.incr (p ++ orDefault c.req.ip "global"))
    ∧ (∀ cmd ∈ (redisRateLimiterTraced { keyPrefix := p } store c).2,
        cmd.key = p ++ orDefault c.req.ip "global")
    ∧ (∀ keyFn : Req → String,
        (redisRateLimiterTraced { keyPrefix := p, keyGenerator := keyFn } store c).2.head?
          = some (RedisCommand.incr (p ++ keyFn c.req))) := by
  have h1 := redisRateLimiterTraced_keys {} store c
  have h2 := redisRateLimiterTraced_keys { keyPrefix := p } store c
  simp only [defaultKeyGenerator_eq] at h1 h2
  exact ⟨rfl, h1.1, h1.2, h2.1, h2.2,
    fun keyFn => (redisRateLimiterTraced_keys { keyPrefix := p, keyGenerator := keyFn }
      store c).1⟩

/-! ### Totality of the scorers and of the identity resolver -/

/-- On a request with no headers map `detectAttack` throws: it reads
`req.headers['user-agent']` without a guard, while `detectBot`
(`req.headers || {}`) returns a result for the same request. -/
theorem detectAttack_throws_without_headers :
    detectAttack { headers := none, query := some [("q", JsVal.str "hello")],
                   ip := some "8.8.8.8" }
      = Except.error "TypeError: Cannot read properties of undefined"
    ∧ detectBot { headers := none, query := some [("q", JsVal.str "hello")],
                  ip := some "8.8.8.8" } {}
      = { isBot := true, score := 50,
          reasons := ["Missing User-Agent header", "Missing Accept-Language header"],
          ip := some "8.8.8.8", userAgent := "" } := by
  constructor
  · rfl
  · decide

/-- Counterexample to C29 as stated: on a request with no headers map and no
resolvable address `detectBot` returns score 60: the 40 + 10 points of the two
missing headers and 10 more points, with a reason of their own, for the
missing address. -/
theorem detectBot_missing_address_counterexample :
    detectBot { headers := none } {}
      = { isBot := true, score := 60,
          reasons := ["Missing User-Agent header", "Missing Accept-Language header",
                      "IP appears to be private/loopback (possible proxy or script)"],
          ip := none, userAgent := "" } := by
  decide

theorem stringValues_of_no_string (values : List JsVal)
    (h : ∀ v ∈ values, ∀ s, v ≠ JsVal.str s) : stringValues values = [] := by
  unfold stringValues
  induction values with
  | nil => rfl
  | cons v vs ih =>
    have hv := h v (List.mem_cons_self _ _)
    have hrest := ih (fun w hw => h w (List.mem_cons_of_mem _ hw))
    cases v with
    | str s => exact absurd rfl (hv s)
    | undefined => simpa [List.filterMap_cons] using hrest
    | null => simpa [List.filterMap_cons] using hrest
    | bool b => simpa [List.filterMap_cons] using hrest
    | num n => simpa [List.filterMap_cons] using hrest
    | arr items => simpa [List.filterMap_cons] using hrest
    | obj fields => simpa [List.filterMap_cons] using hrest

/-- C29 (amended): `detectBot` returns a result for every request descriptor;
on one with no headers map its score is the 40 + 10 points of the missing
user-agent and accept-language headers, plus the 10 source-address points
when the address is in a private or loopback range or cannot be resolved.
`detectAttack` returns a result for every request that has a headers map,
whatever its query, params and body are: a missing query, params or body and
non-string values in them contribute nothing, and the score is that of the
scanned strings plus the 10 points of a missing or short user-agent. -/
theorem scorers_on_malformed_input (req : Req) (o : DetectBotOptions) :
    (req.headers = none →
      (detectBot req o).score
          = 50 + (if addressFlagged (getClientIp req {}) then 10 else 0)
      ∧ (detectBot req o).reasons
          = ["Missing User-Agent header", "Missing Accept-Language header"]
            ++ (if addressFlagged (getClientIp req {})
                then ["IP appears to be private/loopback (possible proxy or script)"]
                else []))
    ∧ (∀ headers, req.headers = some headers →
        ∃ r, detectAttack req = Except.ok r
          ∧ r.score = ((scannedStrings req).map attackPoints).sum
              + (if userAgentSuspicious (headers.lookup "user-agent") then 10 else 0)
          ∧ r.reasons = (scannedStrings req).flatMap attackReasons
              ++ (if userAgentSuspicious (headers.lookup "user-agent")
                  then ["Suspicious User-Agent"] else []))
    ∧ (req.query = none → req.params = none → bodyValues req.body = [] →
        scannedStrings req = [])
    ∧ ((∀ v ∈ (req.query.getD []).map Prod.snd, ∀ s, v ≠ JsVal.str s) →
        (∀ v ∈ (req.params.getD []).map Prod.snd, ∀ s, v ≠ JsVal.str s) →
        (∀ v ∈ bodyValues req.body, ∀ s, v ≠ JsVal.str s) →
        scannedStrings req = []) := by
  refine ⟨?_, ?_, ?_, ?_⟩
  · intro hh
    rw [detectBot_eq]
    have hhdr : ∀ name, req.header name = none := by
      intro name
      simp [Req.header, hh]
    simp only [botContributions, headerContributions, hhdr, userAgentContributions,
      acceptLanguageContributions, forwardedContributions, addressContributions]
    by_cases hf : addressFlagged (getClientIp req {}) = true
    · simp [hf]
    · simp [hf]
  · intro headers hh
    exact ⟨_, detectAttack_eq req headers hh, rfl, rfl⟩
  · intro hq hp hb
    simp [scannedStrings, hq, hp, hb, stringValues]
  · intro hq hp hb
    unfold scannedStrings
    rw [stringValues_of_no_string _ hq, stringValues_of_no_string _ hp,
      stringValues_of_no_string _ hb]
    rfl

/-- C30 (code defect): `getCookies` decodes the raw Cookie header with
`decodeURIComponent` and no guard, so a malformed percent-escape in a cookie
name or value makes `getRequestFingerprintV2` throw a `URIError` instead of
returning an identity record. -/
theorem getRequestFingerprintV2_throws_on_malformed_cookie :
    getRequestFingerprintV2 (fun s => "sha256:" ++ s)
        { headers := some [("cookie", "session=%E0%A4%A")], ip := some "8.8.8.8" } {}
      = Except.error "URIError: URI malformed"
    ∧ getRequestFingerprintV2 (fun s => "sha256:" ++ s)
        { headers := some [("cookie", "theme=dark; discount=100%")], ip := some "8.8.8.8" } {}
      = Except.error "URIError: URI malformed"
    ∧ getRequestFingerprintV2 (fun s => "sha256:" ++ s)
        { headers := some [("cookie", "%=1; api_shield_fp=abc")], ip := some "8.8.8.8" } {}
      = Except.error "URIError: URI malformed" := by
  refine ⟨rfl, rfl, rfl⟩

/-! ### Attack detector: only top-level strings are scanned -/

theorem stringValues_append (xs ys : List JsVal) :
    stringValues (xs ++ ys) = stringValues xs ++ stringValues ys := by
  unfold stringValues
  exact List.filterMap_append _ _ _

/-- C31: `detectAttack` scans only top-level string values. Two requests that
agree on their headers, their resolved address and the top-level string-typed
values of query, params and body (in order) get the same result from
`detectAttack` (same score, reasons and `isAttack`; the same exception when
there is no headers map), whatever non-string values the maps hold; and a
value that is not a string (an array, a nested object, a number), whatever
it contains, adds nothing to the scanned strings. -/
theorem detectAttack_top_level_strings_only (r1 r2 : Req)
    (hheaders : r1.headers = r2.headers)
    (haddress : getClientIp r1 {} = getClientIp r2 {})
    (hquery : stringValues ((r1.query.getD []).map Prod.snd)
      = stringValues ((r2.query.getD []).map Prod.snd))
    (hparams : stringValues ((r1.params.getD []).map Prod.snd)
      = stringValues ((r2.params.getD []).map Prod.snd))
    (hbody : stringValues (bodyValues r1.body) = stringValues (bodyValues r2.body)) :
    detectAttack r1 = detectAttack r2
    ∧ (∀ (v : JsVal) (before after : List JsVal), (∀ s, v ≠ JsVal.str s) →
        stringValues (before ++ v :: after) = stringValues (before ++ after)) := by
  constructor
  · have hs : scannedStrings r1 = scannedStrings r2 := by
      unfold scannedStrings
      rw [hquery, hparams, hbody]
    cases h2 : r2.headers with
    | none =>
      have h1 : r1.headers = none := by rw [hheaders, h2]
      unfold detectAttack
      simp only [h1, h2]
    | some h =>
      have h1 : r1.headers = some h := by rw [hheaders, h2]
      rw [detectAttack_eq r1 h h1, detectAttack_eq r2 h h2, hs, haddress]
  · intro v before after hv
    have h1 : stringValues [v] = [] :=
      stringValues_of_no_string [v] (by
        intro w hw s
        rw [List.mem_singleton.1 hw]
        exact hv s)
    have hsplit : before ++ v :: after = before ++ ([v] ++ after) := rfl
    rw [hsplit, stringValues_append, stringValues_append, h1, stringValues_append]
    rfl

/-- Witness for C31: the injection strings sit inside an array in the query
and inside a nested object in the body; the result is that of the request
without them, with score 0. -/
theorem detectAttack_top_level_strings_only_witness :
    detectAttack
        { headers := some [("user-agent", "Mozilla/5.0 (X11; Linux x86_64)")]
          query := some [("q", JsVal.arr [JsVal.str "' OR 1=1 --"]), ("page", JsVal.str "2")]
          body := JsVal.obj [("filter", JsVal.obj [("x", JsVal.str "<script>alert(1)</script>")])]
          ip := some "8.8.8.8" }
      = detectAttack
        { headers := some [("user-agent", "Mozilla/5.0 (X11; Linux x86_64)")]
          query := some [("page", JsVal.str "2")]
          ip := some "8.8.8.8" }
    ∧ detectAttack
        { headers := some [("user-agent", "Mozilla/5.0 (X11; Linux x86_64)")]
          query := some [("page", JsVal.str "2")]
          ip := some "8.8.8.8" }
      = Except.ok { ip := some "8.8.8.8", userAgent := "Mozilla/5.0 (X11; Linux x86_64)",
                    score := 0, isAttack := false, reasons := [] } :=
  ⟨(detectAttack_top_level_strings_only
      { headers := some [("user-agent", "Mozilla/5.0 (X11; Linux x86_64)")]
        query := some [("q", JsVal.arr [JsVal.str "' OR 1=1 --"]), ("page", JsVal.str "2")]
        body := JsVal.obj [("filter", JsVal.obj [("x", JsVal.str "<script>alert(1)</script>")])]
        ip := some "8.8.8.8" }
      { headers := some [("user-agent", "Mozilla/5.0 (X11; Linux x86_64)")]
        query := some [("page", JsVal.str "2")]
        ip := some "8.8.8.8" } rfl rfl rfl rfl rfl).1, rfl⟩

/-! ### In-memory limiter: rejected calls keep the window full -/

/-- Walking back from the reading `cur` through earlier readings, each at most
`(W - 1) / (M + 1)` before its successor: the `m` latest ones lie at most
`m * (W - 1) / (M + 1)` before `cur`. -/
theorem readings_back_gap (M W : Int) (hW : 0 < W) :
    ∀ (R : List Int) (cur : Int) (m : Nat),
      List.Chain (fun a b : Int => b ≤ a ∧ (a - b) * (M + 1) < W) cur R →
      ∀ a ∈ R.take m, a ≤ cur ∧ (cur - a) * (M + 1) ≤ (m : Int) * (W - 1) := by
  intro R
  induction R with
  | nil => intro cur m _ a ha; simp at ha
  | cons r rs ih =>
    intro cur m hc a ha
    cases m with
    | zero => simp at ha
    | succ k =>
      rw [List.chain_cons] at hc
      obtain ⟨⟨hle, hgap⟩, hrest⟩ := hc
      have hk : (0 : Int) ≤ (k : Int) * (W - 1) :=
        mul_nonneg (Int.ofNat_nonneg k) (by omega)
      have hexp : ((k + 1 : Nat) : Int) * (W - 1) = (k : Int) * (W - 1) + (W - 1) := by
        push_cast; ring
      rw [List.take_succ_cons, List.mem_cons] at ha
      rcases ha with rfl | ha
      · refine ⟨hle, ?_⟩
        rw [hexp]
        omega
      · obtain ⟨h1, h2⟩ := ih r k hrest a ha
        refine ⟨le_trans h1 hle, ?_⟩
        have e : (cur - a) * (M + 1) = (cur - r) * (M + 1) + (r - a) * (M + 1) := by ring
        rw [e, hexp]
        omega

/-- With `1 ≤ M`, the `M` latest of such readings are all inside the window
`(cur - W, cur]`. -/
theorem readings_in_window (M W : Int) (hM : 0 ≤ M) (hW : 0 < W) (R : List Int) (cur : Int)
    (hc : List.Chain (fun a b : Int => b ≤ a ∧ (a - b) * (M + 1) < W) cur R) (m : Nat)
    (hm : (m : Int) ≤ M) : ∀ a ∈ R.take m, a > cur - W := by
  intro a ha
  obtain ⟨_, h2⟩ := readings_back_gap M W hW R cur m hc a ha
  have h3 : (m : Int) * (W - 1) ≤ M * (W - 1) :=
    mul_le_mul_of_nonneg_right hm (by omega)
  have h4 : (cur - a) * (M + 1) < W * (M + 1) := by
    have e : W * (M + 1) = M * (W - 1) + (M + W) := by ring
    rw [e]
    omega
  have h5 : cur - a < W := lt_of_mul_lt_mul_right h4 (by omega)
  omega

theorem filter_length_ge_of_take (p : Int → Bool) (R : List Int) (m : Nat)
    (hm : m ≤ R.length) (hp : ∀ a ∈ R.take m, p a = true) :
    m ≤ (R.filter p).length := by
  have hsplit : R.filter p = (R.take m).filter p ++ (R.drop m).filter p := by
    rw [← List.filter_append, List.take_append_drop]
  have hself : (R.take m).filter p = R.take m := List.filter_eq_self.2 hp
  rw [hsplit, hself, List.length_append, List.length_take]
  omega

/-- For a key that starts fresh, what a window starting at `t - windowMs`
keeps of the stored history is what it keeps of all the readings of the key's
calls so far, as long as none of them is later than `t`: rejected calls are
in the history like allowed ones. -/
theorem memoryRun_recent_closed (o : MemoryRateLimiterOptions) (key : String) (hits : Hits)
    (hfresh : hits key = none) (t : Int) :
    ∀ pre : List Call, (∀ x ∈ pre, o.keyGenerator x.req = key → x.now ≤ t) →
      ((memoryRun o hits pre key).getD []).filter (fun ts => ts > t - o.windowMs)
        = ((pre.filter (fun x => decide (o.keyGenerator x.req = key))).map Call.now).filter
            (fun ts => ts > t - o.windowMs) := by
  intro pre
  induction pre using List.reverseRecOn with
  | nil => intro _; simp [memoryRun, hfresh]
  | append_singleton xs c ih =>
    intro ht
    have ih1 := ih (fun x hx hk => ht x (List.mem_append_left _ hx) hk)
    rw [memoryRun_append]
    simp only [memoryRun, memoryRateLimiter_fst, List.filter_append, List.map_append]
    by_cases hk : o.keyGenerator c.req = key
    · have hct : c.now ≤ t := ht c (by simp) hk
      simp only [Hits.set, hk, if_true, Option.getD_some, memoryRecent, List.filter_append,
        List.filter_filter, List.filter_cons, List.filter_nil, decide_True, List.map_cons,
        List.map_nil]
      rw [← ih1]
      congr 1
      apply List.filter_congr
      intro a _
      by_cases ha : a > t - o.windowMs
      · have ha2 : a > c.now - o.windowMs := by omega
        simp [ha, ha2]
      · simp [ha]
    · have hk2 : ¬ key = o.keyGenerator c.req := fun e => hk e.symm
      simp only [Hits.set, hk2, if_false, List.filter_cons, hk, decide_False, List.filter_nil,
        List.map_nil, List.append_nil, Bool.false_eq_true]
      exact ih1

theorem memoryRateLimiter_rejected (o : MemoryRateLimiterOptions) (hits : Hits) (c : Call)
    (h : ((memoryRecent o hits c).length : Int) > o.max) :
    (memoryRateLimiter o hits c).2 = rejectEffects o.onLimitReached c.req c.res := by
  unfold memoryRateLimiter
  simp only
  rw [if_pos h]

/-- C32: rejected requests still count toward the in-memory limiter's window.
For `max ≥ 1`, `windowMs > 0` and a key with no history, let the calls of
that key (other keys may be served in between) have non-decreasing clock
readings, each less than `windowMs / (max + 1)` after the previous one
(`gap * (max + 1) < windowMs`). Then at every call of the key the list
`recent` compared against `max` is made of the readings of all earlier calls
of the key inside the window, allowed or rejected, followed by `now`, and the
call leaves `now` in the key's history; the call is allowed (`next()`) while
fewer than `max` calls of the key came before, and it is rejected (the
rejection branch runs, `next` is not called) once `max` or more came before,
however long the sequence runs. -/
theorem memoryRateLimiter_never_readmitted (o : MemoryRateLimiterOptions)
    (hmax : 1 ≤ o.max) (hw : 0 < o.windowMs) (hits : Hits) (pre : List Call) (c : Call)
    (hfresh : hits (o.keyGenerator c.req) = none)
    (hgap : List.Chain'
      (fun a b : Call => a.now ≤ b.now ∧ (b.now - a.now) * (o.max + 1) < o.windowMs)
      (pre.filter (fun x => decide (o.keyGenerator x.req = o.keyGenerator c.req)) ++ [c])) :
    memoryRecent o (memoryRun o hits pre) c
        = ((pre.filter (fun x => decide (o.keyGenerator x.req = o.keyGenerator c.req))).map
            Call.now).filter (fun ts => ts > c.now - o.windowMs) ++ [c.now]
    ∧ c.now ∈ ((memoryRateLimiter o (memoryRun o hits pre) c).1 (o.keyGenerator c.req)).getD []
    ∧ (((pre.filter (fun x => decide (o.keyGenerator x.req = o.keyGenerator c.req))).length : Int)
          < o.max →
        (memoryRateLimiter o (memoryRun o hits pre) c).2 = [Effect.next none])
    ∧ (o.max
          ≤ ((pre.filter (fun x => decide (o.keyGenerator x.req = o.keyGenerator c.req))).length
              : Int) →
        (memoryRateLimiter o (memoryRun o hits pre) c).2
            = rejectEffects o.onLimitReached c.req c.res
          ∧ ∀ e, Effect.next e ∉ (memoryRateLimiter o (memoryRun o hits pre) c).2) := by
  generalize hmine :
    pre.filter (fun x => decide (o.keyGenerator x.req = o.keyGenerator c.req)) = mine at hgap ⊢
  -- the readings of the key's calls, latest first, walking back from `c.now`
  have hmap : List.Chain' (fun a b : Int => a ≤ b ∧ (b - a) * (o.max + 1) < o.windowMs)
      ((mine ++ [c]).map Call.now) := by
    rw [List.chain'_map]
    exact hgap
  have hback : List.Chain (fun a b : Int => b ≤ a ∧ (a - b) * (o.max + 1) < o.windowMs)
      c.now (mine.map Call.now).reverse := by
    have h := (List.chain'_reverse
      (R := fun a b : Int => b ≤ a ∧ (a - b) * (o.max + 1) < o.windowMs)
      (l := (mine ++ [c]).map Call.now)).2 hmap
    simpa using h
  have hall : ∀ x ∈ pre, o.keyGenerator x.req = o.keyGenerator c.req → x.now ≤ c.now := by
    intro x hx hk
    have hxm : x ∈ mine := by
      rw [← hmine]
      exact List.mem_filter.2 ⟨hx, by simp [hk]⟩
    have hmem : x.now ∈ ((mine.map Call.now).reverse).take (mine.map Call.now).reverse.length := by
      rw [List.take_length]
      exact List.mem_reverse.2 (List.mem_map_of_mem _ hxm)
    exact (readings_back_gap o.max o.windowMs hw _ c.now _ hback x.now hmem).1
  have hclosed : memoryRecent o (memoryRun o hits pre) c
      = (mine.map Call.now).filter (fun ts => ts > c.now - o.windowMs) ++ [c.now] := by
    have h := memoryRun_recent_closed o (o.keyGenerator c.req) hits hfresh c.now pre hall
    rw [hmine] at h
    unfold memoryRecent
    simp only
    rw [h]
  have hle : ((mine.map Call.now).filter (fun ts => ts > c.now - o.windowMs)).length
      ≤ mine.length := by
    have h := List.length_filter_le (fun ts : Int => decide (ts > c.now - o.windowMs))
      (mine.map Call.now)
    simpa using h
  refine ⟨hclosed, ?_, ?_, ?_⟩
  · rw [memoryRateLimiter_fst]
    simp only [Hits.set, if_true, Option.getD_some, hclosed]
    simp
  · intro hlt
    rw [memoryRateLimiter_allowed_iff, hclosed]
    simp only [List.length_append, List.length_singleton]
    push_cast
    omega
  · intro hge
    have hm : ((o.max.toNat : Nat) : Int) = o.max := Int.toNat_of_nonneg (by omega)
    have hlen : o.max.toNat ≤ (mine.map Call.now).reverse.length := by
      simp only [List.length_reverse, List.length_map]
      omega
    have hin := readings_in_window o.max o.windowMs (by omega) hw _ c.now hback o.max.toNat
      (le_of_eq hm)
    have hcount := filter_length_ge_of_take (fun ts : Int => decide (ts > c.now - o.windowMs))
      (mine.map Call.now).reverse o.max.toNat hlen (fun a ha => by simpa using hin a ha)
    rw [List.filter_reverse, List.length_reverse] at hcount
    have hrej : ((memoryRecent o (memoryRun o hits pre) c).length : Int) > o.max := by
      rw [hclosed]
      simp only [List.length_append, List.length_singleton]
      push_cast
      omega
    have heff := memoryRateLimiter_rejected o (memoryRun o hits pre) c hrej
    refine ⟨heff, ?_⟩
    intro e
    rw [heff]
    exact rejectEffects_no_next _ _ _ _

/-- Witness for C32: `max = 2`, `windowMs = 1000`, calls of one client every
100 ms (`100 * 3 < 1000`), with a call of another client in between. The
second call is allowed; the fifth, after two rejected calls, is rejected with
a 429 and leaves its reading 400 in the history. -/
theorem memoryRateLimiter_never_readmitted_witness :
    (memoryRateLimiter { windowMs := 1000, max := 2 }
        (memoryRun { windowMs := 1000, max := 2 } Hits.empty [{ req := {}, now := 0 }])
        { req := {}, now := 100 }).2 = [Effect.next none]
    ∧ memoryRecent { windowMs := 1000, max := 2 }
        (memoryRun { windowMs := 1000, max := 2 } Hits.empty
          [{ req := {}, now := 0 }, { req := {}, now := 100 },
           { req := { ip := some "203.0.113.9" }, now := 150 },
           { req := {}, now := 200 }, { req := {}, now := 300 }])
        { req := {}, now := 400 } = [0, 100, 200, 300, 400]
    ∧ (memoryRateLimiter { windowMs := 1000, max := 2 }
        (memoryRun { windowMs := 1000, max := 2 } Hits.empty
          [{ req := {}, now := 0 }, { req := {}, now := 100 },
           { req := { ip := some "203.0.113.9" }, now := 150 },
           { req := {}, now := 200 }, { req := {}, now := 300 }])
        { req := {}, now := 400 }).2 = [Effect.status429] :=
  ⟨(memoryRateLimiter_never_readmitted { windowMs := 1000, max := 2 } (by decide) (by decide)
      Hits.empty [{ req := {}, now := 0 }] { req := {}, now := 100 } rfl
      (by simp [defaultKeyGenerator, strOr])).2.2.1
      (by decide),
   (memoryRateLimiter_never_readmitted { windowMs := 1000, max := 2 } (by decide) (by decide)
      Hits.empty
      [{ req := {}, now := 0 }, { req := {}, now := 100 },
       { req := { ip := some "203.0.113.9" }, now := 150 },
       { req := {}, now := 200 }, { req := {}, now := 300 }]
      { req := {}, now := 400 } rfl
      (by simp [defaultKeyGenerator, strOr])).1,
   ((memoryRateLimiter_never_readmitted { windowMs := 1000, max := 2 } (by decide) (by decide)
      Hits.empty
      [{ req := {}, now := 0 }, { req := {}, now := 100 },
       { req := { ip := some "203.0.113.9" }, now := 150 },
       { req := {}, now := 200 }, { req := {}, now := 300 }]
      { req := {}, now := 400 } rfl
      (by simp [defaultKeyGenerator, strOr])).2.2.2 (by decide)).1⟩

end ApiShield
